import Mathlib

/-!
# G+Smo: visitors, interface matching and curve expressions

A verification development over the stiffness visitor
(src/src/gsAssembler/gsVisitorGradGrad.h), the interface matching of
gsMultiBasis (src/src/gsCore/gsMultiBasis.hpp), the curve expressions of
src/examples/euler-Bernoulli_example.cpp, the closed forms of
src/examples/composed_basis_test.cpp and the seminorm visitor
(src/src/gsG1Basis/Norm/gsG1ASVisitorResidualSeminormH1.h).

Conventions of the embedding

* The scalar type T of the C++ templates is an arbitrary type carrying the
  arithmetic the code uses; theorems are stated in exact arithmetic.
* A C++ counting loop is the fold forLoop over 0, 1, ..., n-1.
* A column of indices (gsMatrix<unsigned> with one column) is a List Nat;
  rows() and size() are the length and (i,0) is the i-th entry.
* Global indices are positions of the system matrix, hence natural numbers;
  the conversions between unsigned and int of the source keep them.
* A dense gsMatrix<T> is its shape together with its coefficient function.
* A gsSparseMatrix<T> maps a position to its stored value, or to none when
  the position is not stored (a structural zero).
* GISMO_ASSERT(cond, msg) fails with msg when cond is false.
* An operation of the matrix library on operands whose sizes do not fit (a
  sum of matrices of unequal shape, a product whose inner sizes differ)
  fails with an EigenError in the definitions that carry the size test:
  assembleChecked and the evals of the variations of the normal. The
  definitions addAssign and assemble are the accumulation on operands of
  equal shape.
* A method of return type const gsMatrix<Scalar> & hands back a ReturnedRef:
  the object of the reference and whether it outlives the call.
* The square root of the scalar type is a parameter sqrt of the definitions
  that take a norm; theorems assume it exact at the values they name.
* A word of evaluation flags is a natural number; the values of the flags
  are the fields of gsNeedEnum.
-/

set_option autoImplicit false
set_option linter.unusedVariables false

namespace gismo

/-! ## Loops -/

/-- The loop for (i = 0; i < n; ++i) body(i), as a state transformer. -/
def forLoop {σ : Type} (n : Nat) (body : Nat → σ → σ) (s : σ) : σ :=
  (List.range n).foldl (fun acc i => body i acc) s

/-! ## Dense matrices -/

/-- Dense matrix gsMatrix<T>: shape and coefficient function. Only the
coefficients inside the shape are meaningful. -/
structure gsMatrix (T : Type) where
  rows : Nat
  cols : Nat
  coeff : Nat → Nat → T

namespace gsMatrix

variable {T : Type}

/-- Column c of a matrix, as in A.col(c). -/
def col (A : gsMatrix T) (c : Nat) : gsMatrix T :=
  { rows := A.rows, cols := 1, coeff := fun i _ => A.coeff i c }

/-- The pair resize(r, c); setZero(): the r x c zero matrix. -/
def zero [Zero T] (r c : Nat) : gsMatrix T :=
  { rows := r, cols := c, coeff := fun _ _ => 0 }

/-- The transpose A.transpose(). -/
def transpose (A : gsMatrix T) : gsMatrix T :=
  { rows := A.cols, cols := A.rows, coeff := fun i j => A.coeff j i }

/-- The product A * B; the inner dimension is taken from A. -/
def mul [Zero T] [Add T] [Mul T] (A B : gsMatrix T) : gsMatrix T :=
  { rows := A.rows, cols := B.cols,
    coeff := fun i j =>
      forLoop A.cols (fun l acc => acc + A.coeff i l * B.coeff l j) 0 }

/-- The scaling w * A. -/
def smul [Mul T] (w : T) (A : gsMatrix T) : gsMatrix T :=
  { rows := A.rows, cols := A.cols, coeff := fun i j => w * A.coeff i j }

/-- The in-place sum A += B of two matrices of equal shape: the coefficients
are added one by one. The library stops the sum of matrices of unequal
shape, which gsMatrix.addAssignChecked records; there this function, which
keeps the shape of the destination, is not what the source does. -/
def addAssign [Add T] (A B : gsMatrix T) : gsMatrix T :=
  { rows := A.rows, cols := A.cols,
    coeff := fun i j => A.coeff i j + B.coeff i j }

end gsMatrix

/-! ## Sparse matrices -/

/-- Sparse matrix gsSparseMatrix<T>: the stored value of each position, none
for a position that is not stored. Positions are taken inside the matrix. -/
abbrev gsSparseMatrix (T : Type) := Nat → Nat → Option T

namespace gsSparseMatrix

variable {T : Type}

/-- The value read at a position: a position that is not stored reads 0. -/
def coeff [Zero T] (A : gsSparseMatrix T) (r c : Nat) : T :=
  (A r c).getD 0

/-- The statement A.coeffRef(r, c) += v. coeffRef inserts the position with
value 0 when it is not stored, then the value is increased. -/
def coeffRefAdd [Zero T] [Add T] (A : gsSparseMatrix T) (r c : Nat) (v : T) :
    gsSparseMatrix T :=
  fun r' c' => if r' = r ∧ c' = c then some (A.coeff r c + v) else A r' c'

/-- The sparse matrix with no stored position. -/
def empty : gsSparseMatrix T := fun _ _ => none

end gsSparseMatrix

/-! ## Collaborators of the visitor -/

/-- Modelled from the spec: the DOF mapper gsDofMapper, whose class is not
part of the sources at hand. It is a mapping from (local basis-function
index, patch index) to a single global integer, plus a marker telling the
free global indices from the eliminated (Dirichlet) ones. -/
structure gsDofMapper where
  index : Nat → Nat → Nat
  is_free_index : Nat → Bool

/-- The call mapper.localToGlobal(locals, patchIndex, globals): every local
index is translated by the mapper. -/
def gsDofMapper.localToGlobal (mapper : gsDofMapper) (locals : List Nat)
    (patchIndex : Nat) : List Nat :=
  locals.map (fun l => mapper.index l patchIndex)

/-- The part of gsBasis<T> the visitor uses. -/
structure gsBasis (T : Type) where
  active_into : gsMatrix T → List Nat
  deriv_into : gsMatrix T → gsMatrix T

/-- The part of gsGeometryEvaluator<T> the visitor uses, over a type G of
evaluator states. -/
structure gsGeometryEvaluator (T G : Type) where
  evaluateAt : G → gsMatrix T → G
  measure : G → Nat → T
  transformGradients : G → Nat → gsMatrix T → gsMatrix T

/-! ## The visitor -/

/-- The data members of gsVisitorGradGrad<T>. -/
structure gsVisitorGradGrad (T : Type) where
  basisGrads : gsMatrix T
  basisPhGrads : gsMatrix T
  actives : List Nat
  localMat : gsMatrix T

namespace gsVisitorGradGrad

variable {T G : Type}

/-- The method gsVisitorGradGrad::evaluate. -/
def evaluate [Zero T] (v : gsVisitorGradGrad T) (basis : gsBasis T)
    (ev : gsGeometryEvaluator T G) (geoEval : G) (quNodes : gsMatrix T) :
    gsVisitorGradGrad T × G :=
  let actives := basis.active_into (quNodes.col 0)
  let numActive := actives.length
  let basisGrads := basis.deriv_into quNodes
  let geoEval := ev.evaluateAt geoEval quNodes
  ({ v with actives := actives, basisGrads := basisGrads,
            localMat := gsMatrix.zero numActive numActive }, geoEval)

/-- The body of the loop of gsVisitorGradGrad::assemble at quadrature
node k. -/
def assembleStep [Zero T] [Add T] [Mul T] (ev : gsGeometryEvaluator T G) (geoEval : G)
    (quWeights : List T) (k : Nat) (v : gsVisitorGradGrad T) : gsVisitorGradGrad T :=
  let weight := quWeights.getD k 0 * ev.measure geoEval k
  let basisPhGrads := ev.transformGradients geoEval k v.basisGrads
  { v with basisPhGrads := basisPhGrads,
           localMat := v.localMat.addAssign
             (gsMatrix.smul weight (basisPhGrads.transpose.mul basisPhGrads)) }

/-- The method gsVisitorGradGrad::assemble. The element argument is not
used by the source. -/
def assemble [Zero T] [Add T] [Mul T] (v : gsVisitorGradGrad T)
    (ev : gsGeometryEvaluator T G) (geoEval : G) (quWeights : List T) :
    gsVisitorGradGrad T :=
  forLoop quWeights.length (assembleStep ev geoEval quWeights) v

/-- The double loop of gsVisitorGradGrad::localToGlobal over the translated
indices. -/
def scatter [Zero T] [Add T] (actives : List Nat) (localMat : gsMatrix T)
    (sysMatrix : gsSparseMatrix T) : gsSparseMatrix T :=
  let numActive := actives.length
  forLoop numActive (fun i sys =>
    let ii := actives.getD i 0
    forLoop numActive (fun j sys =>
      let jj := actives.getD j 0
      if jj ≤ ii then sys.coeffRefAdd ii jj (localMat.coeff i j) else sys) sys) sysMatrix

/-- The method gsVisitorGradGrad::localToGlobal. It returns the visitor
(whose actives are translated in place), the system matrix and the
right-hand side. -/
def localToGlobal [Zero T] [Add T] (v : gsVisitorGradGrad T) (mapper : gsDofMapper)
    (eliminatedDofs : gsMatrix T) (patchIndex : Nat)
    (sysMatrix : gsSparseMatrix T) (rhsMatrix : gsMatrix T) :
    gsVisitorGradGrad T × gsSparseMatrix T × gsMatrix T :=
  let actives := mapper.localToGlobal v.actives patchIndex
  ({ v with actives := actives }, scatter actives v.localMat sysMatrix, rhsMatrix)

end gsVisitorGradGrad

/-- The inner loop of the scatter for the row position i, run for m steps
over the index function g and the local coefficients L. -/
def scatterRow {T : Type} [Zero T] [Add T] (g : Nat → Nat) (L : Nat → Nat → T) (i m : Nat)
    (sys : gsSparseMatrix T) : gsSparseMatrix T :=
  forLoop m (fun j sys =>
    if g j ≤ g i then sys.coeffRefAdd (g i) (g j) (L i j) else sys) sys

/-- The outer loop of the scatter run for m steps, each inner loop running
for n steps. -/
def scatterRows {T : Type} [Zero T] [Add T] (g : Nat → Nat) (L : Nat → Nat → T) (n m : Nat)
    (sys : gsSparseMatrix T) : gsSparseMatrix T :=
  forLoop m (fun i sys => scatterRow g L i n sys) sys

/-- The sum of the local coefficients that the scatter adds at position
(r, c): over all pairs (i, j) of active positions with g i = r, g j = c that
pass the lower-triangle test. -/
def scatterSum {T : Type} [AddCommMonoid T] (g : Nat → Nat) (L : Nat → Nat → T) (n : Nat)
    (r c : Nat) : T :=
  ∑ i in Finset.range n, ∑ j in Finset.range n,
    (if g i = r ∧ g j = c ∧ g j ≤ g i then L i j else 0)

/-- Position (r, c) is the target of some pair of active positions that
passes the lower-triangle test. -/
def scatterHit (g : Nat → Nat) (n : Nat) (r c : Nat) : Prop :=
  ∃ i, i < n ∧ ∃ j, j < n ∧ g i = r ∧ g j = c ∧ g j ≤ g i

/-! ## Interface matching of gsMultiBasis -/

/-- Failure raised by GISMO_ASSERT, with the message of the assertion. -/
inductive GismoError where
  | assertion (msg : String)
  deriving DecidableEq

/-- Side of a patch, patchSide: the patch, the direction normal to the side
and the parameter (false for the begin of the direction, true for its end). -/
structure patchSide where
  patch : Nat
  direction : Nat
  parameter : Bool

/-- Interface between two patch sides, boundaryInterface, with the part of
its methods that the matching uses: dirMap, dirOrientation and matchDofs
(the reordering of the two boundary index lists, given the sizes bSize). -/
structure boundaryInterface where
  first : patchSide
  second : patchSide
  dirMap : Nat → Nat
  dirOrientation : Nat → Bool
  matchDofs : List Nat → List Nat → List Nat → List Nat × List Nat

/-- Outcome of the dynamic casts of matchInterface on a basis: it is a
gsHTensorBasis<2,T>, a gsHTensorBasis<3,T>, or neither of them. -/
inductive BasisKind where
  | other
  | hTensor2
  | hTensor3
  deriving DecidableEq

/-- The methods of gsHTensorBasis<dim,T> used by matchInterfaceHTensor.
tensorIndex L flat is tensorLevel(L).tensorIndex(flat), levelComponentSize L j
is tensorLevel(L).component(j).size() and levelIndex L t is
tensorLevel(L).index(t). -/
structure gsHTensorBasis where
  levelOf : Nat → Nat
  flatTensorIndexOf : Nat → Nat
  tensorIndex : Nat → Nat → Nat → Nat
  levelComponentSize : Nat → Nat → Nat
  levelIndex : Nat → (Nat → Nat) → Nat
  flatTensorIndexToHierachicalIndex : Nat → Nat → Nat

/-- A basis of a gsMultiBasis as the matching sees it: its dynamic kind, the
indices of its boundary functions on a side, the sizes of its coordinate
components, and its hierarchical methods (used for the hierarchical kinds). -/
structure PatchBasis where
  kind : BasisKind
  boundary : patchSide → List Nat
  componentSize : Nat → Nat
  hier : gsHTensorBasis

/-- The class gsMultiBasis: the bases m_bases by patch and the dimension. -/
structure gsMultiBasis where
  m_bases : Nat → PatchBasis
  dim : Nat

/-- Subtraction of unsigned (32 bit) values, wrapping around. -/
def usub (a b : Nat) : Nat := (a + 2 ^ 32 - b % 2 ^ 32) % 2 ^ 32

/-- The content of the vector tens1 before the loop writes it. -/
def tens1Start : Nat → Nat := fun _ => 0

/-- The loop of matchInterfaceHTensor that computes the tensor index tens1
on the second side from the tensor index tens0 on the first side; N holds
the component sizes of the second basis on the level, dir2 and par2 are
second().direction() and second().parameter(). -/
def peerTensorIndex (dim : Nat) (dirMap : Nat → Nat) (dirOrient : Nat → Bool) (dir2 : Nat)
    (par2 : Bool) (N tens0 : Nat → Nat) (tens1 : Nat → Nat) : Nat → Nat :=
  forLoop dim (fun j tens1 =>
    let jj := dirMap j
    let tens1 := Function.update tens1 jj (tens0 j)
    if jj = dir2 then
      if par2 then Function.update tens1 jj (usub (N jj) 1)
      else Function.update tens1 jj 0
    else
      if !dirOrient j then Function.update tens1 jj (usub (usub (N jj) 1) (tens1 jj))
      else tens1) tens1

/-- The value that step j of the loop of peerTensorIndex leaves in
tens1[dirMap[j]]. -/
def peerValue (dirMap : Nat → Nat) (dirOrient : Nat → Bool) (dir2 : Nat) (par2 : Bool)
    (N tens0 : Nat → Nat) (j : Nat) : Nat :=
  if dirMap j = dir2 then
    if par2 then usub (N (dirMap j)) 1 else 0
  else
    if !dirOrient j then usub (usub (N (dirMap j)) 1) (tens0 j) else tens0 j

/-- The index cont1 on the second side that matchInterfaceHTensor matches
with the boundary function b of the first side. -/
def peerDof (dim : Nat) (mb : gsMultiBasis) (bi : boundaryInterface) (b : Nat) : Nat :=
  let bas0 := (mb.m_bases bi.first.patch).hier
  let bas1 := (mb.m_bases bi.second.patch).hier
  let L := bas0.levelOf b
  let flat0 := bas0.flatTensorIndexOf b
  let tens0 := bas0.tensorIndex L flat0
  let N := fun j => bas1.levelComponentSize L j
  let tens1 := peerTensorIndex dim bi.dirMap bi.dirOrientation bi.second.direction
    bi.second.parameter N tens0 tens1Start
  let flat1 := bas1.levelIndex L tens1
  bas1.flatTensorIndexToHierachicalIndex flat1 L

/-- The method gsMultiBasis::matchInterfaceHTensor<dim>, over a mapper type M
with its method matchDof. -/
def gsMultiBasis.matchInterfaceHTensor {M : Type} (dim : Nat) (mb : gsMultiBasis)
    (matchDof : M → Nat → Nat → Nat → Nat → M) (bi : boundaryInterface) (mapper : M) : M :=
  let b0b := (mb.m_bases bi.first.patch).boundary bi.first
  forLoop b0b.length (fun i mapper =>
    matchDof mapper bi.first.patch (b0b.getD i 0) bi.second.patch
      (peerDof dim mb bi (b0b.getD i 0))) mapper

/-- The sizes bSize of the tensor structure of the first boundary: the sizes
of the components of basis p1 in all directions k < d other than s1. -/
def tensorBSize (mb : gsMultiBasis) (d p1 s1 : Nat) : List Nat :=
  forLoop d (fun k bSize =>
    if k = s1 then bSize else bSize ++ [(mb.m_bases p1).componentSize k]) []

/-- The message of the size assertion of the tensor branch. -/
def sizesMessage (r1 r2 : Nat) : String :=
  "Input error, sizes do not match: " ++ (toString r1 ++ ("!=" ++ toString r2))

/-- The tensor-basis branch of gsMultiBasis::matchInterface. The result is
the outcome of the call together with the mapper it leaves. -/
def gsMultiBasis.matchInterfaceTensor {M : Type} (mb : gsMultiBasis)
    (matchDof : M → Nat → Nat → Nat → Nat → M) (bi : boundaryInterface) (mapper : M) :
    Except GismoError Unit × M :=
  let b1 := (mb.m_bases bi.first.patch).boundary bi.first
  let b2 := (mb.m_bases bi.second.patch).boundary bi.second
  if b1.length = b2.length then
    let d := mb.dim
    let p1 := bi.first.patch
    let s1 := bi.first.direction
    let bSize := tensorBSize mb d p1 s1
    let b := bi.matchDofs bSize b1 b2
    (Except.ok (), forLoop b.1.length (fun c mapper =>
      matchDof mapper bi.first.patch (b.1.getD c 0) bi.second.patch (b.2.getD c 0)) mapper)
  else
    (Except.error (GismoError.assertion (sizesMessage b1.length b2.length)), mapper)

/-- The branches of the if-else chain of gsMultiBasis::matchInterface. -/
inductive MatchBranch where
  | hTensor (dim : Nat)
  | assertion
  | tensor
  deriving DecidableEq

/-- The branch that the if-else chain of gsMultiBasis::matchInterface takes,
from the dynamic kinds of the first and of the second basis. -/
def matchInterfaceBranch (k0 k1 : BasisKind) : MatchBranch :=
  let bas2d0 := decide (k0 = BasisKind.hTensor2)
  let bas2d1 := decide (k1 = BasisKind.hTensor2)
  let bas3d0 := decide (k0 = BasisKind.hTensor3)
  let bas3d1 := decide (k1 = BasisKind.hTensor3)
  if bas2d0 && bas2d1 then MatchBranch.hTensor 2
  else if bas3d0 && bas3d1 then MatchBranch.hTensor 3
  else if bas2d0 || bas2d1 || bas3d0 || bas3d1 then MatchBranch.assertion
  else MatchBranch.tensor

/-- The message of the assertion of the third branch of matchInterface. -/
def hTensorMessage : String :=
  "One Basis is HTensor, the other is not. Or dimension is not 2. Cannot handle this. You should implement that."

/-- The method gsMultiBasis::matchInterface. The result is the outcome of
the call together with the mapper it leaves. -/
def gsMultiBasis.matchInterface {M : Type} (mb : gsMultiBasis)
    (matchDof : M → Nat → Nat → Nat → Nat → M) (bi : boundaryInterface) (mapper : M) :
    Except GismoError Unit × M :=
  match matchInterfaceBranch (mb.m_bases bi.first.patch).kind
      (mb.m_bases bi.second.patch).kind with
  | MatchBranch.hTensor dim => (Except.ok (), mb.matchInterfaceHTensor dim matchDof bi mapper)
  | MatchBranch.assertion => (Except.error (GismoError.assertion hTensorMessage), mapper)
  | MatchBranch.tensor => mb.matchInterfaceTensor matchDof bi mapper

/-- A basis kind is hierarchical when it is one of the gsHTensorBasis kinds. -/
def BasisKind.isHierarchical : BasisKind → Bool
  | BasisKind.other => false
  | BasisKind.hTensor2 => true
  | BasisKind.hTensor3 => true

/-- A mapper that records the calls of matchDof, in order. -/
abbrev CallLog := List (Nat × Nat × Nat × Nat)

/-- The method matchDof of the recording mapper. -/
def recordMatchDof (log : CallLog) (u i v j : Nat) : CallLog := log ++ [(u, i, v, j)]

/-! ## Concrete data -/

/-- A local stiffness matrix of two active functions, over the integers. -/
def exLocalMat : gsMatrix ℤ :=
  { rows := 2, cols := 2, coeff := fun i j => if i = j then 2 else -1 }

/-- A visitor holding two active functions and exLocalMat. -/
def exVisitor : gsVisitorGradGrad ℤ :=
  { basisGrads := gsMatrix.zero 0 0, basisPhGrads := gsMatrix.zero 0 0,
    actives := [0, 1], localMat := exLocalMat }

/-- A mapper that keeps the local numbering; global index 0 is free and
every other global index is eliminated. -/
def exMapper : gsDofMapper :=
  { index := fun l _ => l, is_free_index := fun g => decide (g < 1) }

/-- The prescribed value 5 of the single eliminated degree of freedom. -/
def exEliminated : gsMatrix ℤ :=
  { rows := 1, cols := 1, coeff := fun _ _ => 5 }

/-- A right-hand side with one row, equal to 0. -/
def exRhs : gsMatrix ℤ := gsMatrix.zero 1 1

/-- A univariate basis with two active functions of derivatives 1 and -1 at
the single quadrature node. -/
def exBasis : gsBasis ℤ :=
  { active_into := fun _ => [0, 1],
    deriv_into := fun _ => { rows := 2, cols := 1, coeff := fun i _ => if i = 0 then 1 else -1 } }

/-- A basis that reports two active functions at the first node and returns
three rows of derivatives. -/
def exBasisMismatch : gsBasis ℤ :=
  { active_into := fun _ => [0, 1],
    deriv_into := fun _ => { rows := 3, cols := 1, coeff := fun _ _ => 1 } }

/-- A geometry evaluator of the identity map of the line: measure 1, and the
physical gradients at node k are column k of the parametric ones, one
column per basis function. -/
def exGeo : gsGeometryEvaluator ℤ Unit :=
  { evaluateAt := fun g _ => g,
    measure := fun _ _ => 1,
    transformGradients := fun _ k grads =>
      { rows := 1, cols := grads.rows, coeff := fun _ i => grads.coeff i k } }

/-- One quadrature node. -/
def exQuNodes : gsMatrix ℤ := gsMatrix.zero 1 1

/-- One quadrature weight, equal to 2. -/
def exQuWeights : List ℤ := [2]

/-- A tensor basis with the boundary functions l on every side. -/
def exTensorBasis (l : List Nat) : PatchBasis :=
  { kind := BasisKind.other, boundary := fun _ => l, componentSize := fun _ => 3,
    hier := { levelOf := fun _ => 0, flatTensorIndexOf := fun i => i,
              tensorIndex := fun _ _ _ => 0, levelComponentSize := fun _ _ => 3,
              levelIndex := fun _ _ => 0,
              flatTensorIndexToHierachicalIndex := fun f _ => f } }

/-- Two tensor patches whose boundaries on the interface have the functions
2, 5, 8 and 0, 3, 6. -/
def exMultiBasis : gsMultiBasis :=
  { m_bases := fun p => if p = 0 then exTensorBasis [2, 5, 8] else exTensorBasis [0, 3, 6],
    dim := 2 }

/-- Two tensor patches whose boundaries on the interface have three and two
functions. -/
def exMultiBasisMismatch : gsMultiBasis :=
  { m_bases := fun p => if p = 0 then exTensorBasis [2, 5, 8] else exTensorBasis [0, 3],
    dim := 2 }

/-- The interface between the east side of patch 0 and the west side of
patch 1, with both directions kept and no reordering of the indices. -/
def exInterface : boundaryInterface :=
  { first := { patch := 0, direction := 0, parameter := true },
    second := { patch := 1, direction := 0, parameter := false },
    dirMap := fun j => j,
    dirOrientation := fun _ => true,
    matchDofs := fun _ b1 b2 => (b1, b2) }

/-- The interface of exInterface with the orientation of both directions
reversed. -/
def exInterfaceFlip : boundaryInterface :=
  { exInterface with dirOrientation := fun _ => false }

/-- Component sizes 4 in every direction. -/
def exSizes : Nat → Nat := fun _ => 4

/-- The tensor index (3, 1) on the east face of a 4 x 4 level. -/
def exTens0 : Nat → Nat := fun j => if j = 0 then 3 else 1

/-- The tensor index (3, 2) on the east face of a 4 x 4 level. -/
def exTens0b : Nat → Nat := fun j => if j = 0 then 3 else 2

/-! ## Auxiliary facts -/

/-! ## Quadrature set-up of gsVisitorGradGrad -/

/-- The values of the evaluation flags. The enumeration is declared outside
the sources at hand, so its values are parameters of the development. -/
structure gsNeedEnum where
  NEED_VALUE : Nat
  NEED_DERIV : Nat
  NEED_GRAD : Nat
  NEED_DERIV2 : Nat
  NEED_2ND_DER : Nat
  NEED_ACTIVE : Nat
  NEED_MEASURE : Nat
  NEED_GRAD_TRANSFORM : Nat

/-- The part of gsBasis<T> that the quadrature set-up uses: dim() and
degree(i). -/
structure gsBasisShape where
  dim : Nat
  degree : Nat → Nat

/-- The vector numQuadNodes that gsVisitorGradGrad::initialize fills: it has
basis.dim() entries, entry i being set to basis.degree(i) + 1. -/
def numQuadNodes (basis : gsBasisShape) : List Nat :=
  forLoop basis.dim (fun i v => v.set i (basis.degree i + 1)) (List.replicate basis.dim 0)

/-- The static method gsVisitorGradGrad::initialize, over a type R of
quadrature rules with the constructor gsGaussRule of a rule from its numbers
of nodes. It returns the new values of the arguments rule and evFlags. -/
def gsVisitorGradGrad.initializeVisitor {R : Type} (need : gsNeedEnum)
    (gsGaussRule : List Nat → R) (basis : gsBasisShape) (rule : R) (evFlags : Nat) :
    R × Nat :=
  (gsGaussRule (numQuadNodes basis), need.NEED_MEASURE ||| need.NEED_GRAD_TRANSFORM)

/-! ## Closed forms of composed_basis_test.cpp -/

/-- The row anBasis of composed_basis_test.cpp at (U, V), by column. -/
def anBasis {T : Type} [CommRing T] (U V : T) : Nat → T
  | 0 => (1-U)*(1-U)*(1-V)*(1-V)
  | 1 => 2*(1-U)*U*(1-V)*(1-V)
  | 2 => U*U*(1-V)*(1-V)
  | 3 => (1-U)*(1-U)*2*(1-V)*V
  | 4 => 4*(1-U)*U*(1-V)*V
  | 5 => U*U*2*(1-V)*V
  | 6 => (1-U)*(1-U)*V*V
  | 7 => 2*(1-U)*U*V*V
  | 8 => U*U*V*V
  | _ => 0

/-- The row anBasisDer.row(0) of composed_basis_test.cpp at (U, V), by column. -/
def anBasisDerRow0 {T : Type} [CommRing T] (U V : T) : Nat → T
  | 0 => (2*U-2)*(V-1)*(V-1)
  | 1 => -2*(2*U-1)*(V-1)*(V-1)
  | 2 => 2*U*(V-1)*(V-1)
  | 3 => -2*V*(2*U-2)*(V-1)
  | 4 => 4*V*(2*U-1)*(V-1)
  | 5 => -4*U*V*(V-1)
  | 6 => V*V*(2*U-2)
  | 7 => -2*V*V*(2*U-1)
  | 8 => 2*U*V*V
  | _ => 0

/-- The row anBasisDer.row(1) of composed_basis_test.cpp at (U, V), by column. -/
def anBasisDerRow1 {T : Type} [CommRing T] (U V : T) : Nat → T
  | 0 => (2*V-2)*(U-1)*(U-1)
  | 1 => -U*(2*U-2)*(2*V-2)
  | 2 => U*U*(2*V-2)
  | 3 => 2*(1-2*V)*(U-1)*(U-1)
  | 4 => 4*U*(2*V-1)*(U-1)
  | 5 => -2*U*U*(2*V-1)
  | 6 => 2*V*(U-1)*(U-1)
  | 7 => -2*U*V*(2*U-2)
  | 8 => 2*U*U*V
  | _ => 0

/-- The matrix anBasisDer of composed_basis_test.cpp at (U, V), by row and
column. -/
def anBasisDer {T : Type} [CommRing T] (U V : T) (r c : Nat) : T :=
  match r with
  | 0 => anBasisDerRow0 U V c
  | 1 => anBasisDerRow1 U V c
  | _ => 0

/-- The quadratic Bernstein polynomials B_0, B_1, B_2 at t. -/
def bernstein2 {T : Type} [CommRing T] (t : T) : Nat → T
  | 0 => (1-t)^2
  | 1 => 2*t*(1-t)
  | 2 => t^2
  | _ => 0

/-- The derivatives of the quadratic Bernstein polynomials at t. -/
def bernstein2Der {T : Type} [CommRing T] (t : T) : Nat → T
  | 0 => 2*t-2
  | 1 => 2-4*t
  | 2 => 2*t
  | _ => 0

/-! ## The visitor gsG1ASVisitorResidualSeminormH1 -/

/-- The difference A - B of two matrices of the same shape. -/
def gsMatrix.sub {T : Type} [Sub T] (A B : gsMatrix T) : gsMatrix T :=
  { rows := A.rows, cols := A.cols, coeff := fun i j => A.coeff i j - B.coeff i j }

/-- The squared Frobenius norm A.squaredNorm(): the sum of the squares of
the coefficients. -/
def gsMatrix.squaredNorm {T : Type} [Zero T] [Add T] [Mul T] (A : gsMatrix T) : T :=
  forLoop A.rows (fun i acc =>
    forLoop A.cols (fun j acc => acc + A.coeff i j * A.coeff i j) acc) 0

/-- The determinant A.determinant() of a square matrix. -/
def gsMatrix.determinant {T : Type} [CommRing T] (A : gsMatrix T) : T :=
  Matrix.det (Matrix.of (fun (i j : Fin A.rows) => A.coeff i j))

/-- The inverse A.cramerInverse() of a square matrix by the rule of Cramer:
the adjugate divided by the determinant. -/
def gsMatrix.cramerInverse {T : Type} [Field T] (A : gsMatrix T) : gsMatrix T :=
  { rows := A.rows, cols := A.rows,
    coeff := fun i j =>
      if h : i < A.rows ∧ j < A.rows then
        Matrix.adjugate (Matrix.of (fun (i j : Fin A.rows) => A.coeff i j)) ⟨i, h.1⟩ ⟨j, h.2⟩
          / A.determinant
      else 0 }

/-- The data members of gsG1ASVisitorResidualSeminormH1<T>. -/
structure gsG1ASVisitorResidualSeminormH1 (T : Type) where
  f1ders : gsMatrix T
  f2ders : gsMatrix T
  f1pders : gsMatrix T
  f2pders : gsMatrix T
  f2param : Bool

/-- The body of the loop of gsG1ASVisitorResidualSeminormH1::compute at
quadrature node k, on the visitor and the running sum. The matrix G_inv is
computed by the source and used by no later statement. -/
def gsG1ASVisitorResidualSeminormH1.computeStep {T : Type} [Field T] (sqrt : T → T)
    (jacobian : Nat → gsMatrix T) (quWeights : List T) (k : Nat)
    (st : gsG1ASVisitorResidualSeminormH1 T × T) : gsG1ASVisitorResidualSeminormH1 T × T :=
  let Jk := jacobian k
  let G := Jk.transpose.mul Jk
  let G_inv := G.cramerInverse
  let f1pders := st.1.f1ders.col k
  let f2pders := st.1.f2ders.col k
  let weight := quWeights.getD k 0 * sqrt G.determinant
  ({ st.1 with f1pders := f1pders, f2pders := f2pders },
   st.2 + weight * (f1pders.sub f2pders).squaredNorm)

/-- The method gsG1ASVisitorResidualSeminormH1::compute, with the square root
of the scalar type and geoEval.jacobian as parameters. It returns the
visitor, the returned sum and the new value of accumulated. -/
def gsG1ASVisitorResidualSeminormH1.compute {T : Type} [Field T] (sqrt : T → T)
    (v : gsG1ASVisitorResidualSeminormH1 T) (jacobian : Nat → gsMatrix T)
    (quWeights : List T) (accumulated : T) :
    gsG1ASVisitorResidualSeminormH1 T × T × T :=
  let r := forLoop quWeights.length
    (gsG1ASVisitorResidualSeminormH1.computeStep sqrt jacobian quWeights) (v, 0)
  (r.1, r.2, accumulated + r.2)

/-- The element contribution to the squared H1 seminorm as the
specification words it: the sum over the quadrature nodes k of
quWeights[k] * sqrt(det(G_k)) * (d1_k - d2_k)^T * G_k^{-1} * (d1_k - d2_k),
with G_k the Gram matrix of the Jacobian and d1_k, d2_k the columns k of
f1ders and f2ders. -/
def seminormH1Spec {T : Type} [Field T] (sqrt : T → T) (f1ders f2ders : gsMatrix T)
    (jacobian : Nat → gsMatrix T) (quWeights : List T) : T :=
  forLoop quWeights.length (fun k acc =>
    let G := (jacobian k).transpose.mul (jacobian k)
    let d := (f1ders.col k).sub (f2ders.col k)
    acc + quWeights.getD k 0 * sqrt G.determinant
            * ((d.transpose.mul (G.cramerInverse.mul d)).coeff 0 0)) 0

/-- A square root on the rationals that is exact on the squares 0, 1, 4, 9
and 16, which are the values the examples take it at. -/
def exSqrt (q : ℚ) : ℚ :=
  if q = 1 then 1 else if q = 4 then 2 else if q = 9 then 3 else if q = 16 then 4 else 0

/-- The Jacobian 2 I of the scaling of the plane by 2, at every node. -/
def exJacobian : Nat → gsMatrix ℚ :=
  fun _ => { rows := 2, cols := 2, coeff := fun i j => if i = j then 2 else 0 }

/-- A seminorm visitor whose first function has the parametric gradient
(1, 0) at the single node and whose second function has gradient 0. -/
def exSeminormVisitor : gsG1ASVisitorResidualSeminormH1 ℚ :=
  { f1ders := { rows := 2, cols := 1, coeff := fun i _ => if i = 0 then 1 else 0 },
    f2ders := gsMatrix.zero 2 1,
    f1pders := gsMatrix.zero 0 0,
    f2pders := gsMatrix.zero 0 0,
    f2param := false }

/-! ## Vectors and matrices of three dimensions -/

/-- A vector gsVector<Scalar,3>. -/
structure Vec3 (T : Type) where
  x : T
  y : T
  z : T
  deriving DecidableEq

namespace Vec3

variable {T : Type}

/-- The zero vector. -/
def zero [Zero T] : Vec3 T := ⟨0, 0, 0⟩

/-- The sum of two vectors. -/
def add [Add T] (a b : Vec3 T) : Vec3 T := ⟨a.x + b.x, a.y + b.y, a.z + b.z⟩

/-- The quotient a / s of a vector by a scalar. -/
def div [Div T] (a : Vec3 T) (s : T) : Vec3 T := ⟨a.x / s, a.y / s, a.z / s⟩

/-- The dot product a.dot(b). -/
def dot [Add T] [Mul T] (a b : Vec3 T) : T := a.x * b.x + a.y * b.y + a.z * b.z

/-- The cross product a.cross(b). -/
def cross [Sub T] [Mul T] (a b : Vec3 T) : Vec3 T :=
  ⟨a.y * b.z - a.z * b.y, a.z * b.x - a.x * b.z, a.x * b.y - a.y * b.x⟩

/-- The norm a.norm(): the square root of the squared norm. -/
def norm [Add T] [Mul T] (sqrt : T → T) (a : Vec3 T) : T := sqrt (a.dot a)

/-- The unit vector a.normalized(): the vector divided by its norm. -/
def normalized [Add T] [Mul T] [Div T] (sqrt : T → T) (a : Vec3 T) : Vec3 T :=
  a.div (a.norm sqrt)

/-- The entry of index c of a vector; an index outside 0, 1, 2 reads 0. -/
def get [Zero T] (a : Vec3 T) (c : Nat) : T :=
  if c = 0 then a.x else if c = 1 then a.y else if c = 2 then a.z else 0

/-- The three entries of column k of a matrix, as M.col(k) of a matrix of
three rows, or M.reshapeCol(k, 1, 3).transpose().col3d(0). -/
def ofCol (M : gsMatrix T) (k : Nat) : Vec3 T := ⟨M.coeff 0 k, M.coeff 1 k, M.coeff 2 k⟩

end Vec3

/-- The helper vecFun(pos, val) of the curve expressions: the zero vector
with val at index pos. -/
def vecFun {T : Type} [Zero T] (pos : Nat) (val : T) : Vec3 T :=
  if pos = 0 then ⟨val, 0, 0⟩ else if pos = 1 then ⟨0, val, 0⟩
  else if pos = 2 then ⟨0, 0, val⟩ else ⟨0, 0, 0⟩

/-- A matrix gsMatrix<Scalar,3,3>, by rows. -/
structure Mat3 (T : Type) where
  r0 : Vec3 T
  r1 : Vec3 T
  r2 : Vec3 T
  deriving DecidableEq

namespace Mat3

variable {T : Type}

/-- The identity matrix. -/
def identity [Zero T] [One T] : Mat3 T := ⟨⟨1, 0, 0⟩, ⟨0, 1, 0⟩, ⟨0, 0, 1⟩⟩

/-- The outer product a * b.transpose(). -/
def outer [Mul T] (a b : Vec3 T) : Mat3 T :=
  ⟨⟨a.x * b.x, a.x * b.y, a.x * b.z⟩, ⟨a.y * b.x, a.y * b.y, a.y * b.z⟩,
   ⟨a.z * b.x, a.z * b.y, a.z * b.z⟩⟩

/-- The difference of two matrices. -/
def sub [Sub T] (A B : Mat3 T) : Mat3 T :=
  ⟨⟨A.r0.x - B.r0.x, A.r0.y - B.r0.y, A.r0.z - B.r0.z⟩,
   ⟨A.r1.x - B.r1.x, A.r1.y - B.r1.y, A.r1.z - B.r1.z⟩,
   ⟨A.r2.x - B.r2.x, A.r2.y - B.r2.y, A.r2.z - B.r2.z⟩⟩

/-- The quotient A / s of a matrix by a scalar. -/
def div [Div T] (A : Mat3 T) (s : T) : Mat3 T := ⟨A.r0.div s, A.r1.div s, A.r2.div s⟩

/-- The product A * v of a matrix and a vector. -/
def mulVec [Add T] [Mul T] (A : Mat3 T) (v : Vec3 T) : Vec3 T :=
  ⟨A.r0.dot v, A.r1.dot v, A.r2.dot v⟩

/-- The transpose of a matrix. -/
def transpose (A : Mat3 T) : Mat3 T :=
  ⟨⟨A.r0.x, A.r1.x, A.r2.x⟩, ⟨A.r0.y, A.r1.y, A.r2.y⟩, ⟨A.r0.z, A.r1.z, A.r2.z⟩⟩

end Mat3

/-- The assignment res.row(r) = v of a vector of three entries to row r. -/
def gsMatrix.setRow3 {T : Type} [Zero T] (res : gsMatrix T) (r : Nat) (v : Vec3 T) :
    gsMatrix T :=
  { res with coeff := fun i c => if i = r ∧ c < 3 then v.get c else res.coeff i c }

/-! ## Atoms of the expressions -/

/-- The evaluation cache gsFuncData of an atom: the flags requested so far,
the pair dim of domain and target dimension that the cache records, the
tables values[0], values[1], values[2] (one column per quadrature node) and
the active functions. -/
structure gsFuncData (T : Type) where
  flags : Nat
  dim : Nat × Nat
  values : Nat → gsMatrix T
  actives : List Nat

/-- A geometry map gsGeometryMap<T>: the dimensions of its source function
and its evaluation cache. -/
structure gsGeometryMap (T : Type) where
  domainDim : Nat
  targetDim : Nat
  data : gsFuncData T

/-- A space gsFeSpace<T>: an identifier, its number dim() of components and
its evaluation cache. -/
structure gsFeSpace (T : Type) where
  id : Nat
  dim : Nat
  data : gsFuncData T

/-- Modelled from the spec: the method gsFeSpace::cardinality(), whose class
is outside the sources at hand. The cardinality is the number of active
functions times the number of components of the space. -/
def gsFeSpace.cardinality {T : Type} (u : gsFeSpace T) : Nat :=
  u.dim * u.data.actives.length

/-- The statement data().flags |= f on a geometry map. -/
def gsGeometryMap.orFlags {T : Type} (G : gsGeometryMap T) (f : Nat) : gsGeometryMap T :=
  { G with data := { G.data with flags := G.data.flags ||| f } }

/-- The statement data().flags |= f on a space. -/
def gsFeSpace.orFlags {T : Type} (u : gsFeSpace T) (f : Nat) : gsFeSpace T :=
  { u with data := { u.data with flags := u.data.flags ||| f } }

/-! ## The curve expressions of euler-Bernoulli_example.cpp -/

/-- The message of the assertion of curve_binormal_expr. -/
def binormalMessage : String :=
  "curve binormal only implemented for curves with domainDim==1 and targetDim==3"

/-- The message of the assertion of curve_normal_expr. -/
def normalMessage : String :=
  "curve normal only implemented for curves with domainDim==1 and targetDim==3"

/-- The message of the assertion on the domain dimension. -/
def domainDimMessage (d : Nat) : String :=
  "Domain dimension should be 1, but is " ++ toString d

/-- The message of the assertion on the target dimension. -/
def targetDimMessage (d : Nat) : String :=
  "Target dimension should be 3, but is " ++ toString d

/-- The class curve_binormal_expr<T>. -/
structure curve_binormal_expr (T : Type) where
  _G : gsGeometryMap T

/-- The class curve_normal_expr<T>. -/
structure curve_normal_expr (T : Type) where
  _G : gsGeometryMap T

/-- The class curve_bvar1_expr<E> over a space E. -/
structure curve_bvar1_expr (T : Type) where
  _u : gsFeSpace T
  _G : gsGeometryMap T

/-- The class curve_nvar1_expr<E> over a space E. -/
structure curve_nvar1_expr (T : Type) where
  _u : gsFeSpace T
  _G : gsGeometryMap T

/-- The class curve_Avar1_expr<E> over a space E. -/
structure curve_Avar1_expr (T : Type) where
  _u : gsFeSpace T
  _G : gsGeometryMap T

/-- The class curve_nvar2_expr<E> over a space E. -/
structure curve_nvar2_expr (T : Type) where
  _u : gsFeSpace T
  _G : gsGeometryMap T

section CurveExpressions

variable {T : Type}

/-- The constructor of curve_binormal_expr: one assertion on the dimensions
of the source of the map. -/
def curve_binormal_expr.construct (G : gsGeometryMap T) :
    Except GismoError (curve_binormal_expr T) :=
  if G.domainDim = 1 ∧ G.targetDim = 3 then Except.ok ⟨G⟩
  else Except.error (GismoError.assertion binormalMessage)

/-- The constructor of curve_normal_expr: one assertion on the dimensions of
the source of the map. -/
def curve_normal_expr.construct (G : gsGeometryMap T) :
    Except GismoError (curve_normal_expr T) :=
  if G.domainDim = 1 ∧ G.targetDim = 3 then Except.ok ⟨G⟩
  else Except.error (GismoError.assertion normalMessage)

/-- The constructor of curve_bvar1_expr: two assertions, on G.domainDim() and
on G.targetDim(). -/
def curve_bvar1_expr.construct (u : gsFeSpace T) (G : gsGeometryMap T) :
    Except GismoError (curve_bvar1_expr T) :=
  if G.domainDim = 1 then
    if G.targetDim = 3 then Except.ok ⟨u, G⟩
    else Except.error (GismoError.assertion (targetDimMessage G.targetDim))
  else Except.error (GismoError.assertion (domainDimMessage G.domainDim))

/-- The constructor of curve_nvar1_expr: two assertions, on
_G.data().dim.first and on _G.data().dim.second. -/
def curve_nvar1_expr.construct (u : gsFeSpace T) (G : gsGeometryMap T) :
    Except GismoError (curve_nvar1_expr T) :=
  if G.data.dim.1 = 1 then
    if G.data.dim.2 = 3 then Except.ok ⟨u, G⟩
    else Except.error (GismoError.assertion (targetDimMessage G.data.dim.2))
  else Except.error (GismoError.assertion (domainDimMessage G.data.dim.1))

/-- The constructor of curve_Avar1_expr: two assertions, on
_G.data().dim.first and on _G.data().dim.second. -/
def curve_Avar1_expr.construct (u : gsFeSpace T) (G : gsGeometryMap T) :
    Except GismoError (curve_Avar1_expr T) :=
  if G.data.dim.1 = 1 then
    if G.data.dim.2 = 3 then Except.ok ⟨u, G⟩
    else Except.error (GismoError.assertion (targetDimMessage G.data.dim.2))
  else Except.error (GismoError.assertion (domainDimMessage G.data.dim.1))

/-- The constructor of curve_nvar2_expr: two assertions, on
_G.data().dim.first and on _G.data().dim.second. -/
def curve_nvar2_expr.construct (u : gsFeSpace T) (G : gsGeometryMap T) :
    Except GismoError (curve_nvar2_expr T) :=
  if G.data.dim.1 = 1 then
    if G.data.dim.2 = 3 then Except.ok ⟨u, G⟩
    else Except.error (GismoError.assertion (targetDimMessage G.data.dim.2))
  else Except.error (GismoError.assertion (domainDimMessage G.data.dim.1))

/-- The method rows() of the variation expressions. -/
def curve_bvar1_expr.rows (e : curve_bvar1_expr T) : Nat := 1

/-- The method cols() of curve_bvar1_expr. -/
def curve_bvar1_expr.cols (e : curve_bvar1_expr T) : Nat := e._u.dim

/-- The method rows() of curve_nvar1_expr. -/
def curve_nvar1_expr.rows (e : curve_nvar1_expr T) : Nat := 1

/-- The method cols() of curve_nvar1_expr. -/
def curve_nvar1_expr.cols (e : curve_nvar1_expr T) : Nat := e._u.dim

/-- The method rows() of curve_Avar1_expr. -/
def curve_Avar1_expr.rows (e : curve_Avar1_expr T) : Nat := 1

/-- The method cols() of curve_Avar1_expr. -/
def curve_Avar1_expr.cols (e : curve_Avar1_expr T) : Nat := e._u.dim

/-- The method rows() of curve_nvar2_expr. -/
def curve_nvar2_expr.rows (e : curve_nvar2_expr T) : Nat := 1

/-- The method cols() of curve_nvar2_expr. -/
def curve_nvar2_expr.cols (e : curve_nvar2_expr T) : Nat := e._u.dim

/-- The unit binormal of the variation expressions: der1.cross(der2) divided
by its norm. -/
def curveBinormal [Field T] (sqrt : T → T) (der1 der2 : Vec3 T) : Vec3 T :=
  (der1.cross der2).div ((der1.cross der2).norm sqrt)

/-- The tensor B of the variation expressions:
(I - binormal * binormal.transpose()) / binormal_norm. -/
def curveB [Field T] (sqrt : T → T) (der1 der2 : Vec3 T) : Mat3 T :=
  ((Mat3.identity).sub (Mat3.outer (curveBinormal sqrt der1 der2)
      (curveBinormal sqrt der1 der2))).div ((der1.cross der2).norm sqrt)

/-- The unit normal of the variation expressions: binormal.cross(der1)
divided by its norm. -/
def curveNormal [Field T] (sqrt : T → T) (der1 der2 : Vec3 T) : Vec3 T :=
  ((curveBinormal sqrt der1 der2).cross der1).div
    (((curveBinormal sqrt der1 der2).cross der1).norm sqrt)

/-- The tensor A of the variation expressions:
(I - normal * normal.transpose()) / normal_norm. -/
def curveA [Field T] (sqrt : T → T) (der1 der2 : Vec3 T) : Mat3 T :=
  ((Mat3.identity).sub (Mat3.outer (curveNormal sqrt der1 der2)
      (curveNormal sqrt der1 der2))).div
    (((curveBinormal sqrt der1 der2).cross der1).norm sqrt)

/-- The vector that curve_bvar1_expr stores in the row of component d and
active function j:
B * (vecFun(d, bGrad.at(j)).cross(cHess) + cJac.cross(vecFun(d, bHess.at(j)))). -/
def bvar1Row [Field T] (sqrt : T → T) (u : gsFeSpace T) (G : gsGeometryMap T) (k d j : Nat) :
    Vec3 T :=
  let der1 := Vec3.ofCol (G.data.values 1) k
  let der2 := Vec3.ofCol (G.data.values 2) k
  let bGrad := (u.data.values 1).col k
  let bHess := (u.data.values 2).col k
  let cJac := Vec3.ofCol (G.data.values 1) k
  let cHess := Vec3.ofCol (G.data.values 2) k
  (curveB sqrt der1 der2).mulVec
    (((vecFun d (bGrad.coeff j 0)).cross cHess).add (cJac.cross (vecFun d (bHess.coeff j 0))))

/-- The method curve_bvar1_expr::eval (eval_impl for a space). -/
def curve_bvar1_expr.eval [Field T] (sqrt : T → T) (e : curve_bvar1_expr T) (k : Nat) :
    gsMatrix T :=
  let N := e._u.cardinality / e._u.dim
  let res := gsMatrix.zero e._u.cardinality e.cols
  forLoop e.cols (fun d res =>
    let s := d * N
    forLoop N (fun j res => res.setRow3 (s + j) (bvar1Row sqrt e._u e._G k d j)) res) res

/-- A matrix gsMatrix<Scalar,3,3> as a dense matrix of shape 3 x 3. -/
def Mat3.toMatrix [Zero T] (A : Mat3 T) : gsMatrix T :=
  { rows := 3, cols := 3,
    coeff := fun i c => if i = 0 then A.r0.get c else if i = 1 then A.r1.get c
                        else if i = 2 then A.r2.get c else 0 }

end CurveExpressions

/-- A curve whose derivatives at the single node are r' = (1, 0, 0) and
r'' = (0, 1, 0), with the cache of a finished evaluation: it records the
dimensions 1 and 3. -/
def exCurve : gsGeometryMap ℚ :=
  { domainDim := 1, targetDim := 3,
    data := { flags := 0, dim := (1, 3),
              values := fun n =>
                if n = 1 then { rows := 3, cols := 1, coeff := fun i _ => if i = 0 then 1 else 0 }
                else if n = 2 then
                  { rows := 3, cols := 1, coeff := fun i _ => if i = 1 then 1 else 0 }
                else gsMatrix.zero 3 1,
              actives := [] } }

/-- The double loop of the variation expressions: for every component
d < cols and every active function j < N, row d * N + j of res is assigned
the vector f d j. -/
def fillRows {T : Type} [Zero T] (cols N : Nat) (f : Nat → Nat → Vec3 T) (res : gsMatrix T) :
    gsMatrix T :=
  forLoop cols (fun d res =>
    let s := d * N
    forLoop N (fun j res => res.setRow3 (s + j) (f d j)) res) res

/-- A space of three components with two active functions; at the single
node the first derivatives are 1 and -1 and the second derivatives 2 and 3. -/
def exSpace : gsFeSpace ℚ :=
  { id := 0, dim := 3,
    data := { flags := 0, dim := (1, 1),
              values := fun n =>
                if n = 1 then { rows := 2, cols := 1, coeff := fun i _ => if i = 0 then 1 else -1 }
                else if n = 2 then
                  { rows := 2, cols := 1, coeff := fun i _ => if i = 0 then 2 else 3 }
                else gsMatrix.zero 2 1,
              actives := [0, 1] } }

/-- The curve of exCurve before any evaluation: its source has the
dimensions 1 and 3 and its cache does not record them yet. -/
def exCurveFresh : gsGeometryMap ℚ :=
  { exCurve with data := { exCurve.data with dim := (0, 0) } }

/-- A content of the member Avar1. -/
def exAvar1 : Mat3 ℚ := Mat3.identity

/-! ## Space roles and evaluation flags of the expressions -/

/-- What the class curve_deriv2dot_expr uses of the type of an operand: the
tag Space (0 for no space, 1 for a row space) and the row and column
variables, none standing for gsNullExpr. -/
structure ExprOperand where
  Space : Nat
  rowVar : Option Nat
  colVar : Option Nat

/-- The class curve_deriv2dot_expr<E1, E2>, by the types of its operands. -/
structure curve_deriv2dot_expr where
  _u : ExprOperand
  _v : ExprOperand

/-- The constructor of curve_deriv2dot_expr, whose body is empty. -/
def curve_deriv2dot_expr.construct (u v : ExprOperand) : curve_deriv2dot_expr := ⟨u, v⟩

/-- The function cderiv2dot(u, v). -/
def cderiv2dot (u v : ExprOperand) : curve_deriv2dot_expr :=
  curve_deriv2dot_expr.construct u v

/-- The enumerator Space of curve_deriv2dot_expr. -/
def curve_deriv2dot_expr.Space (e : curve_deriv2dot_expr) : Nat :=
  if e._u.Space = 1 ∨ e._v.Space = 1 then 1 else 0

/-- The method curve_deriv2dot_expr::rowVar. -/
def curve_deriv2dot_expr.rowVar (e : curve_deriv2dot_expr) : Option Nat :=
  if e._u.Space = 1 ∧ e._v.Space = 0 then e._u.rowVar
  else if e._u.Space = 0 ∧ e._v.Space = 1 then e._v.rowVar
  else none

/-- The method curve_deriv2dot_expr::colVar. -/
def curve_deriv2dot_expr.colVar (e : curve_deriv2dot_expr) : Option Nat :=
  if e._u.Space = 1 ∧ e._v.Space = 0 then e._v.colVar
  else if e._u.Space = 0 ∧ e._v.Space = 1 then e._u.colVar
  else none

/-- The class curve_deriv2_expr<E> over a geometry map, the one operand type
for which it has an eval_impl. -/
structure curve_deriv2_expr (T : Type) where
  _u : gsGeometryMap T

/-- The entries of the evaluation cache of an atom that an eval reads. -/
inductive CacheField where
  | values0
  | values1
  | values2
  | actives
  deriving DecidableEq

/-- The atom of an expression whose cache is read: the first operand _u or
the geometry map _G. -/
inductive Atom where
  | u
  | G
  deriving DecidableEq

/-- The flags that request an entry of the cache: NEED_VALUE or NEED_ACTIVE
for values[0], NEED_DERIV or NEED_GRAD for values[1], NEED_DERIV2 or
NEED_2ND_DER for values[2], NEED_ACTIVE for the active functions. -/
def needFor (need : gsNeedEnum) : CacheField → List Nat
  | CacheField.values0 => [need.NEED_VALUE, need.NEED_ACTIVE]
  | CacheField.values1 => [need.NEED_DERIV, need.NEED_GRAD]
  | CacheField.values2 => [need.NEED_DERIV2, need.NEED_2ND_DER]
  | CacheField.actives => [need.NEED_ACTIVE]

/-- An entry of the cache is requested by a word of flags when the word
holds one of the flags of the entry. -/
def requested (need : gsNeedEnum) (flags : Nat) (f : CacheField) : Bool :=
  (needFor need f).any (fun n => decide (flags &&& n ≠ 0))

/-- Every read of a list is requested by the flags of its atom. -/
def readsCovered (need : gsNeedEnum) (flagsU flagsG : Nat) (reads : List (Atom × CacheField)) :
    Bool :=
  reads.all (fun r =>
    match r.1 with
    | Atom.u => requested need flagsU r.2
    | Atom.G => requested need flagsG r.2)

section Parse

variable {T : Type}

/-- The method curve_binormal_expr::parse, on the flags of the map. -/
def curve_binormal_expr.parse (need : gsNeedEnum) (e : curve_binormal_expr T) :
    curve_binormal_expr T :=
  ⟨e._G.orFlags (need.NEED_DERIV ||| need.NEED_DERIV2)⟩

/-- The method curve_normal_expr::parse, on the flags of the map. -/
def curve_normal_expr.parse (need : gsNeedEnum) (e : curve_normal_expr T) :
    curve_normal_expr T :=
  ⟨e._G.orFlags (need.NEED_DERIV ||| need.NEED_DERIV2)⟩

/-- The method curve_deriv2_expr::parse, with the parse of the operand as a
parameter. -/
def curve_deriv2_expr.parse (need : gsNeedEnum)
    (uParse : gsGeometryMap T → gsGeometryMap T) (e : curve_deriv2_expr T) :
    curve_deriv2_expr T :=
  ⟨(uParse e._u).orFlags need.NEED_DERIV2⟩

/-- The method curve_deriv2dot_expr::parse on a first operand that is a
geometry map; vParse is the effect of _v.parse on that atom. -/
def curve_deriv2dot_expr.parseMap (need : gsNeedEnum)
    (vParse : gsGeometryMap T → gsGeometryMap T) (u : gsGeometryMap T) : gsGeometryMap T :=
  vParse (u.orFlags need.NEED_DERIV2)

/-- The method curve_deriv2dot_expr::parse on a first operand that is a
space; vParse is the effect of _v.parse on that atom. -/
def curve_deriv2dot_expr.parseSpace (need : gsNeedEnum)
    (vParse : gsFeSpace T → gsFeSpace T) (u : gsFeSpace T) : gsFeSpace T :=
  vParse (u.orFlags need.NEED_DERIV2)

/-- The method curve_bvar1_expr::parse. -/
def curve_bvar1_expr.parse (need : gsNeedEnum) (e : curve_bvar1_expr T) : curve_bvar1_expr T :=
  ⟨e._u.orFlags (need.NEED_ACTIVE ||| need.NEED_GRAD ||| need.NEED_DERIV2),
   e._G.orFlags (need.NEED_DERIV ||| need.NEED_DERIV2)⟩

/-- The method curve_nvar1_expr::parse. -/
def curve_nvar1_expr.parse (need : gsNeedEnum) (e : curve_nvar1_expr T) : curve_nvar1_expr T :=
  ⟨e._u.orFlags (need.NEED_ACTIVE ||| need.NEED_GRAD ||| need.NEED_DERIV2),
   e._G.orFlags (need.NEED_DERIV ||| need.NEED_2ND_DER)⟩

/-- The method curve_Avar1_expr::parse. -/
def curve_Avar1_expr.parse (need : gsNeedEnum) (e : curve_Avar1_expr T) : curve_Avar1_expr T :=
  ⟨e._u.orFlags (need.NEED_ACTIVE ||| need.NEED_GRAD ||| need.NEED_DERIV2),
   e._G.orFlags (need.NEED_DERIV ||| need.NEED_2ND_DER)⟩

/-- The method curve_nvar2_expr::parse. -/
def curve_nvar2_expr.parse (need : gsNeedEnum) (e : curve_nvar2_expr T) : curve_nvar2_expr T :=
  ⟨e._u.orFlags (need.NEED_ACTIVE ||| need.NEED_GRAD ||| need.NEED_DERIV2),
   e._G.orFlags (need.NEED_DERIV ||| need.NEED_2ND_DER)⟩

end Parse

/-- The cache entries read by the eval of curve_binormal_expr and of
curve_normal_expr: values[1] and values[2] of the map. -/
def binormalEvalReads : List (Atom × CacheField) :=
  [(Atom.G, CacheField.values1), (Atom.G, CacheField.values2)]

/-- The cache entries read by the eval_impl of curve_deriv2_expr and by the
eval_impl of curve_deriv2dot_expr for a geometry map: values[2] of the
operand. -/
def deriv2MapEvalReads : List (Atom × CacheField) :=
  [(Atom.u, CacheField.values2)]

/-- The cache entries read by the eval_impl of curve_deriv2dot_expr for a
space: values[0] of the operand (for its number of rows), its active
functions (in cardinality()) and values[2]. -/
def deriv2dotSpaceEvalReads : List (Atom × CacheField) :=
  [(Atom.u, CacheField.values0), (Atom.u, CacheField.actives), (Atom.u, CacheField.values2)]

/-- The cache entries read by the eval_impl of curve_bvar1_expr,
curve_nvar1_expr, curve_Avar1_expr and curve_nvar2_expr: the active functions
of the space (in cardinality()), values[1] and values[2] of the map and
values[1] and values[2] of the space. -/
def variationEvalReads : List (Atom × CacheField) :=
  [(Atom.u, CacheField.actives), (Atom.G, CacheField.values1), (Atom.G, CacheField.values2),
   (Atom.u, CacheField.values1), (Atom.u, CacheField.values2)]

/-- Values of the flags with one bit per flag; NEED_GRAD names the bit of
NEED_DERIV and NEED_2ND_DER the bit of NEED_DERIV2. -/
def exNeed : gsNeedEnum :=
  { NEED_VALUE := 1, NEED_DERIV := 2, NEED_GRAD := 2, NEED_DERIV2 := 4, NEED_2ND_DER := 4,
    NEED_ACTIVE := 8, NEED_MEASURE := 16, NEED_GRAD_TRANSFORM := 32 }

/-- A space operand: role 1, with itself as row and column variable. -/
def exOperandSpace : ExprOperand := { Space := 1, rowVar := some 0, colVar := some 0 }

/-- An operand of no space role. -/
def exOperandPlain : ExprOperand := { Space := 0, rowVar := none, colVar := none }

/-- The product s * a of a scalar and a vector. -/
def Vec3.smul {T : Type} [Mul T] (s : T) (a : Vec3 T) : Vec3 T := ⟨s * a.x, s * a.y, s * a.z⟩

/-! ## The scatter without the triangle test -/

/-- The scatter of every local entry, without the lower-triangle test: the
double loop of gsVisitorGradGrad::localToGlobal with the condition jj <= ii
removed. It is the full matrix that the triangular storage is compared
with. -/
def scatterFull {T : Type} [Zero T] [Add T] (actives : List Nat) (localMat : gsMatrix T)
    (sysMatrix : gsSparseMatrix T) : gsSparseMatrix T :=
  let numActive := actives.length
  forLoop numActive (fun i sys =>
    let ii := actives.getD i 0
    forLoop numActive (fun j sys =>
      let jj := actives.getD j 0
      sys.coeffRefAdd ii jj (localMat.coeff i j)) sys) sysMatrix

/-- The sum of the local coefficients of all pairs (i, j) of active
positions with g i = r and g j = c. -/
def fullSum {T : Type} [AddCommMonoid T] (g : Nat → Nat) (L : Nat → Nat → T) (n : Nat)
    (r c : Nat) : T :=
  ∑ i in Finset.range n, ∑ j in Finset.range n, (if g i = r ∧ g j = c then L i j else 0)

/-- A symmetric local matrix of three active functions, over the integers. -/
def exLocalMat3 : gsMatrix ℤ :=
  { rows := 3, cols := 3, coeff := fun i j => if i = j then 4 else -((i + j : Nat) : ℤ) }

/-- A visitor holding three active functions and exLocalMat3. -/
def exVisitor3 : gsVisitorGradGrad ℤ :=
  { basisGrads := gsMatrix.zero 0 0, basisPhGrads := gsMatrix.zero 0 0,
    actives := [0, 1, 2], localMat := exLocalMat3 }

/-- A mapper that sends the local indices 0, 1, 2 to the global indices
1, 0, 1: the global index 1 is repeated. -/
def exMapperRepeat : gsDofMapper :=
  { index := fun l _ => if l = 1 then 0 else 1, is_free_index := fun _ => true }

/-! ## Boxes on an interface: gsMultiBasis::repairInterfaceImpl -/

/-- The left shift of an unsigned (32 bit) value. -/
def ushl (a e : Nat) : Nat := (a * 2 ^ e) % 2 ^ 32

/-- A matrix of unsigned entries, gsMatrix<unsigned>, as the function of its
entries. -/
abbrev BoxMatrix := Nat → Nat → Nat

/-- The assignment M(i, j) = v. -/
def setEntry (M : BoxMatrix) (i j v : Nat) : BoxMatrix :=
  fun a b => if a = i ∧ b = j then v else M a b

/-- The loop of repairInterfaceImpl over the boxes of the first side: every
entry of lo0 and up0 is shifted to the left by idxExponent. -/
def shiftBoxesFirst (dim rows idxExponent : Nat) (lo0 up0 : BoxMatrix) :
    BoxMatrix × BoxMatrix :=
  forLoop rows (fun i st =>
    forLoop dim (fun j st =>
      (setEntry st.1 i j (ushl (st.1 i j) idxExponent),
       setEntry st.2 i j (ushl (st.2 i j) idxExponent))) st) (lo0, up0)

/-- The body of the loop of repairInterfaceImpl over the boxes of the second
side, for the box i and the direction jj: the entries of the column
j = dirMap[jj] are shifted, and where the orientation is not preserved they
are replaced by upperCorn1[j] - up1(i, j) and upperCorn1[j] - lo1(i, j). -/
def flipBoxesStep (dirMap : Nat → Nat) (dirOrient : Nat → Bool) (upperCorn1 : Nat → Nat)
    (idxExponent i jj : Nat) (st : BoxMatrix × BoxMatrix) : BoxMatrix × BoxMatrix :=
  let j := dirMap jj
  let lo1 := setEntry st.1 i j (ushl (st.1 i j) idxExponent)
  let up1 := setEntry st.2 i j (ushl (st.2 i j) idxExponent)
  if !dirOrient jj then
    let tmp := usub (upperCorn1 j) (lo1 i j)
    let lo1' := setEntry lo1 i j (usub (upperCorn1 j) (up1 i j))
    let up1' := setEntry up1 i j tmp
    (lo1', up1')
  else (lo1, up1)

/-- The loop of repairInterfaceImpl over the boxes of the second side. -/
def flipBoxesSecond (dim rows : Nat) (dirMap : Nat → Nat) (dirOrient : Nat → Bool)
    (upperCorn1 : Nat → Nat) (idxExponent : Nat) (lo1 up1 : BoxMatrix) :
    BoxMatrix × BoxMatrix :=
  forLoop rows (fun i st =>
    forLoop dim (fun jj st => flipBoxesStep dirMap dirOrient upperCorn1 idxExponent i jj st) st)
    (lo1, up1)

/-- A row of the matrices intfc0 and intfc1 of repairInterface2d (start
knot, end knot, level) and of the vector intfcU (end knot, level on the
first side, level on the second side). -/
abbrev IntfcRow := Nat × Nat × Nat

/-- The body of the loop of repairInterface2d that flips the knot spans of
the second side when the orientation is not preserved, on one row:
tmp = U - intfc1(i, 1); intfc1(i, 1) = U - intfc1(i, 0); intfc1(i, 0) = tmp,
with U = upperCorn1[dir1]. -/
def flipIntfcRow (U : Nat) (r : IntfcRow) : IntfcRow :=
  let tmp := usub U r.2.1
  (tmp, usub U r.1, r.2.2)

/-- A swap of the two directions. -/
def exDirMapSwap : Nat → Nat := fun j => 1 - j

/-- The orientation is preserved in the direction 0 and reversed in the
direction 1. -/
def exDirOrient : Nat → Bool := fun j => decide (j = 0)

/-! ## Sample grids of low-rank-fit.cpp -/

/-- The column index glob = j * numV + i of sampleData and sampleDataGre. -/
def sampleGlob (numV i j : Nat) : Nat := j * numV + i

/-- The columns that the double loop of sampleData writes, in the order of
the loop: i runs over 0 .. numU - 1 and, inside, j over 0 .. numV - 1. -/
def sampleDataColumns (numU numV : Nat) : List Nat :=
  forLoop numU (fun i cols =>
    forLoop numV (fun j cols => cols ++ [sampleGlob numV i j]) cols) []

/-! ## Default sizes of performance_benchmark.cpp -/

/-- The largest value of index_t, a signed integer of 32 bits. -/
def indexMax : Int := 2 ^ 31 - 1

/-- The conversion of a real value to index_t, which truncates towards
zero. The type real_t is modelled by the rationals. -/
def toIndex (q : ℚ) : Int := Int.tdiv q.num q.den

/-- The loop that fills asizes:
for (i = asizesmin; i < asizesmax; ++i) asizes.push_back(i). -/
def defaultAsizes (asizesmin asizesmax : Int) : List Int :=
  forLoop (asizesmax - asizesmin).toNat (fun k asizes => asizes ++ [asizesmin + k]) []

/-- One pass of the loop that fills msizes, on the loop variable i and the
list: push_back(i), then i *= msizesfactor if
i <= min(msizesmax, max index) / (msizesfactor * msizesfactor), else break.
The Boolean tells whether the loop goes on. -/
def msizesBody (msizesmax : Int) (msizesfactor : ℚ) (s : Int × List Int) :
    (Int × List Int) × Bool :=
  let msizes := s.2 ++ [s.1]
  if (s.1 : ℚ) ≤ ((min msizesmax indexMax : Int) : ℚ) / (msizesfactor * msizesfactor) then
    ((toIndex ((s.1 : ℚ) * msizesfactor), msizes), true)
  else ((s.1, msizes), false)

/-- The loop that fills msizes, run for at most fuel passes; none means that
the passes did not reach the break. -/
def msizesLoop (msizesmax : Int) (msizesfactor : ℚ) : Nat → Int × List Int → Option (List Int)
  | 0, _ => none
  | fuel + 1, s =>
    if (msizesBody msizesmax msizesfactor s).2 then
      msizesLoop msizesmax msizesfactor fuel (msizesBody msizesmax msizesfactor s).1
    else some (msizesBody msizesmax msizesfactor s).1.2

/-- One pass of the loop that fills vsizes: push_back(i), then
i *= vsizesfactor if i <= min(vsizesmax, max index) / vsizesfactor, else
break. -/
def vsizesBody (vsizesmax : Int) (vsizesfactor : ℚ) (s : Int × List Int) :
    (Int × List Int) × Bool :=
  let vsizes := s.2 ++ [s.1]
  if (s.1 : ℚ) ≤ ((min vsizesmax indexMax : Int) : ℚ) / vsizesfactor then
    ((toIndex ((s.1 : ℚ) * vsizesfactor), vsizes), true)
  else ((s.1, vsizes), false)

/-- The loop that fills vsizes, run for at most fuel passes. -/
def vsizesLoop (vsizesmax : Int) (vsizesfactor : ℚ) : Nat → Int × List Int → Option (List Int)
  | 0, _ => none
  | fuel + 1, s =>
    if (vsizesBody vsizesmax vsizesfactor s).2 then
      vsizesLoop vsizesmax vsizesfactor fuel (vsizesBody vsizesmax vsizesfactor s).1
    else some (vsizesBody vsizesmax vsizesfactor s).1.2

/-! ## Column accesses of gsG1ASVisitorResidualSeminormH1 -/

/-- The block A.block(r, c, nr, nc) of a matrix. -/
def gsMatrix.block {T : Type} (A : gsMatrix T) (r c nr nc : Nat) : gsMatrix T :=
  { rows := nr, cols := nc, coeff := fun i j => A.coeff (r + i) (c + j) }

/-- The record of a read of columns of a matrix: the nCols columns from
startCol on, of a matrix with cols columns. A.col(k) is the read of one
column from k on, A.block(r, c, nr, nc) the read of nc columns from c on. -/
structure ColumnAccess where
  startCol : Nat
  nCols : Nat
  cols : Nat
  deriving DecidableEq

/-- The read stays inside the matrix. -/
def ColumnAccess.inRange (a : ColumnAccess) : Bool := decide (a.startCol + a.nCols ≤ a.cols)

/-- The static part of gsG1ASVisitorResidualSeminormH1::initialize: the rule
is the Gauss rule with basis->at(0).degree(i) + 1 nodes in the direction i,
and evFlags is NEED_MEASURE | NEED_VALUE | NEED_GRAD_TRANSFORM. -/
def gsG1ASVisitorResidualSeminormH1.initializeVisitor {R : Type} (need : gsNeedEnum)
    (gsGaussRule : List Nat → R) (basis : gsBasisShape) (rule : R) (evFlags : Nat) :
    R × Nat :=
  (gsGaussRule (numQuadNodes basis),
   need.NEED_MEASURE ||| need.NEED_VALUE ||| need.NEED_GRAD_TRANSFORM)

/-- One half of gsG1ASVisitorResidualSeminormH1::evaluate: the matrix of
derivatives is set to the 2 x actives.rows() zero matrix and, for every row
i of the solution and every active function j, the block
bGrads.block(2 * j, 0, 2, ders.dim().second) scaled by the coefficient
sol(i, numBasisFunctions + actives(j)) is added to it. The second component
records the columns read from bGrads. -/
def gsG1ASVisitorResidualSeminormH1.evaluateSide {T : Type} [Zero T] [Add T] [Mul T]
    (sol : gsSparseMatrix T) (solRows numBasisFunctions : Nat) (actives : List Nat)
    (bGrads : gsMatrix T) : gsMatrix T × List ColumnAccess :=
  forLoop solRows (fun i st =>
    forLoop actives.length (fun j st =>
      (st.1.addAssign
          (gsMatrix.smul (sol.coeff i (numBasisFunctions + actives.getD j 0))
            (bGrads.block (2 * j) 0 2 st.1.cols)),
       st.2 ++ [ColumnAccess.mk 0 st.1.cols bGrads.cols])) st)
    (gsMatrix.zero 2 actives.length, [])

/-- The method gsG1ASVisitorResidualSeminormH1::evaluate on the bases
basis_vec->at(0).basis(id) and basis_vec->at(1).basis(id), the solutions
sol_sparse->at(0) and sol_sparse->at(1) with their numbers of rows, and the
offsets get_numBasisFunctions()[id] of the two systems. It returns the
visitor and the columns read from the two matrices bGrads. -/
def gsG1ASVisitorResidualSeminormH1.evaluate {T : Type} [Zero T] [Add T] [Mul T]
    (v : gsG1ASVisitorResidualSeminormH1 T) (basis0 basis1 : gsBasis T)
    (sol0 sol1 : gsSparseMatrix T) (solRows0 solRows1 offset0 offset1 : Nat)
    (quNodes : gsMatrix T) : gsG1ASVisitorResidualSeminormH1 T × List ColumnAccess :=
  let actives0 := basis0.active_into (quNodes.col 0)
  let bGrads0 := basis0.deriv_into quNodes
  let r0 := gsG1ASVisitorResidualSeminormH1.evaluateSide sol0 solRows0 offset0 actives0 bGrads0
  let actives1 := basis1.active_into (quNodes.col 0)
  let bGrads1 := basis1.deriv_into quNodes
  let r1 := gsG1ASVisitorResidualSeminormH1.evaluateSide sol1 solRows1 offset1 actives1 bGrads1
  ({ v with f1ders := r0.1, f2ders := r1.1 }, r0.2 ++ r1.2)

/-- The columns that the loop of gsG1ASVisitorResidualSeminormH1::compute
reads: f1ders.col(k) and f2ders.col(k) at every quadrature node k. -/
def gsG1ASVisitorResidualSeminormH1.computeAccesses {T : Type}
    (v : gsG1ASVisitorResidualSeminormH1 T) (numNodes : Nat) : List ColumnAccess :=
  forLoop numNodes (fun k acc =>
    acc ++ [ColumnAccess.mk k 1 v.f1ders.cols, ColumnAccess.mk k 1 v.f2ders.cols]) []

/-- A basis with one active function, whose matrix of derivatives has two
rows and one column per quadrature node. -/
def exBasisOne : gsBasis ℤ :=
  { active_into := fun _ => [0],
    deriv_into := fun q => { rows := 2, cols := q.cols, coeff := fun i _ => if i = 0 then 1 else 0 } }

/-- A solution with the coefficient 3 everywhere. -/
def exSolution : gsSparseMatrix ℤ := fun _ _ => some 3

/-! ## The merge of the interface knot spans: gsMultiBasis::repairInterface2d -/

/-- The row i of a matrix of interface rows, as in intfc0(i, .). -/
def intfcRowAt (M : List IntfcRow) (i : Nat) : IntfcRow := M.getD i (0, 0, 0)

/-- The state of the merge loop of repairInterface2d: the indices i0 and i1
and the vector intfcU. -/
structure MergeState where
  i0 : Nat
  i1 : Nat
  intfcU : List IntfcRow
  deriving DecidableEq

/-- The body of the merge loop of repairInterface2d: the smaller of the two
end knots intfc0(i0, 1) and intfc1(i1, 1) is pushed with the two levels
intfc0(i0, 2) and intfc1(i1, 2), and the index of each side whose end knot
was pushed is increased. -/
def mergeBody (intfc0 intfc1 : List IntfcRow) (s : MergeState) : MergeState :=
  if (intfcRowAt intfc0 s.i0).2.1 = (intfcRowAt intfc1 s.i1).2.1 then
    { i0 := s.i0 + 1, i1 := s.i1 + 1,
      intfcU := s.intfcU ++ [((intfcRowAt intfc0 s.i0).2.1, (intfcRowAt intfc0 s.i0).2.2,
        (intfcRowAt intfc1 s.i1).2.2)] }
  else if (intfcRowAt intfc0 s.i0).2.1 > (intfcRowAt intfc1 s.i1).2.1 then
    { i0 := s.i0, i1 := s.i1 + 1,
      intfcU := s.intfcU ++ [((intfcRowAt intfc1 s.i1).2.1, (intfcRowAt intfc0 s.i0).2.2,
        (intfcRowAt intfc1 s.i1).2.2)] }
  else
    { i0 := s.i0 + 1, i1 := s.i1,
      intfcU := s.intfcU ++ [((intfcRowAt intfc0 s.i0).2.1, (intfcRowAt intfc0 s.i0).2.2,
        (intfcRowAt intfc1 s.i1).2.2)] }

/-- The merge loop while (i0 < intfc0.rows() && i1 < intfc1.rows()), run for
at most fuel passes after the first test; none means that the condition
still holds when the passes are used up. -/
def mergeLoop (intfc0 intfc1 : List IntfcRow) : Nat → MergeState → Option MergeState
  | 0, s => if s.i0 < intfc0.length ∧ s.i1 < intfc1.length then none else some s
  | fuel + 1, s =>
    if s.i0 < intfc0.length ∧ s.i1 < intfc1.length then
      mergeLoop intfc0 intfc1 fuel (mergeBody intfc0 intfc1 s)
    else some s

/-- The message of the assertion that precedes the merge loop. -/
def mergeMessage : String := " Something wrong with interfaces! Mark 264"

/-- The part of repairInterface2d that merges the knot spans of the two
sides: the assertion that the last end knots agree, then the merge loop
from i0 = i1 = 0 and the empty vector, with as many passes as the two
matrices have rows together. -/
def mergeInterfaces (intfc0 intfc1 : List IntfcRow) : Except GismoError (Option MergeState) :=
  if (intfcRowAt intfc0 (intfc0.length - 1)).2.1
      = (intfcRowAt intfc1 (intfc1.length - 1)).2.1 then
    Except.ok (mergeLoop intfc0 intfc1 (intfc0.length + intfc1.length) ⟨0, 0, []⟩)
  else Except.error (GismoError.assertion mergeMessage)

/-- The rows of one side are contiguous knot spans: every span starts where
the previous one ends and no span is empty. -/
def contiguousSpans (s : List IntfcRow) : Prop :=
  List.Chain' (fun a b => a.2.1 = b.1) s ∧ ∀ r ∈ s, r.1 < r.2.1

/-- The end knot of the last row of a side. -/
def lastEnd (s : List IntfcRow) : Option Nat := (s.map (fun r => r.2.1)).getLast?

/-- The knot spans of the merged vector, from the knot p on: every row is
paired with the end knot of the row before it, the first row with p; the
row (e, l0, l1) paired with q stands for the span from q to e. -/
def mergedSpans (p : Nat) : List IntfcRow → List (Nat × IntfcRow)
  | [] => []
  | m :: R => (p, m) :: mergedSpans m.1 R

/-- Every merged span carries, in the entry lvl of its row, the level of a
span of the side s that contains it, and every span of s that contains it
has that level. -/
def spanLevels (lvl : IntfcRow → Nat) (s : List IntfcRow) (spans : List (Nat × IntfcRow)) :
    Prop :=
  ∀ qm ∈ spans,
    (∃ r ∈ s, r.1 ≤ qm.1 ∧ qm.2.1 ≤ r.2.1 ∧ r.2.2 = lvl qm.2) ∧
    (∀ r ∈ s, r.1 ≤ qm.1 → qm.2.1 ≤ r.2.1 → r.2.2 = lvl qm.2)

/-- The knot spans 0-2 and 2-4 of the first side, of the levels 1 and 2. -/
def exIntfc0 : List IntfcRow := [(0, 2, 1), (2, 4, 2)]

/-- The knot spans 0-1 and 1-4 of the second side, of the levels 3 and 1. -/
def exIntfc1 : List IntfcRow := [(0, 1, 3), (1, 4, 1)]

/-! ## Size tests of the matrix library -/

/-- The failure of an operation of the matrix library whose operands do not
fit: sizeMismatch for a sum or an assignment of matrices of unequal shape
(the shape of the destination, then the shape of the source), invalidProduct
for a product whose left factor has not as many columns as the right factor
has rows (the shapes of the two factors). The source has no test of its own
at these places; the library stops the program. -/
inductive EigenError where
  | sizeMismatch (rows cols rows' cols' : Nat)
  | invalidProduct (rows cols rows' cols' : Nat)
  deriving DecidableEq

/-- The in-place sum A += B with the size test of the library: the shapes
must agree. -/
def gsMatrix.addAssignChecked {T : Type} [Add T] (A B : gsMatrix T) :
    Except EigenError (gsMatrix T) :=
  if A.rows = B.rows ∧ A.cols = B.cols then Except.ok (A.addAssign B)
  else Except.error (EigenError.sizeMismatch A.rows A.cols B.rows B.cols)

/-- The body of the loop of gsVisitorGradGrad::assemble at quadrature node k,
with the size test of the statement
localMat.noalias() += weight * (basisPhGrads.transpose() * basisPhGrads). -/
def gsVisitorGradGrad.assembleStepChecked {T G : Type} [Zero T] [Add T] [Mul T]
    (ev : gsGeometryEvaluator T G) (geoEval : G) (quWeights : List T) (k : Nat)
    (v : gsVisitorGradGrad T) : Except EigenError (gsVisitorGradGrad T) :=
  let weight := quWeights.getD k 0 * ev.measure geoEval k
  let basisPhGrads := ev.transformGradients geoEval k v.basisGrads
  match v.localMat.addAssignChecked
      (gsMatrix.smul weight (basisPhGrads.transpose.mul basisPhGrads)) with
  | Except.ok localMat => Except.ok { v with basisPhGrads := basisPhGrads, localMat := localMat }
  | Except.error err => Except.error err

/-- The method gsVisitorGradGrad::assemble with the size test of the library:
the loop over the quadrature nodes stops at the first node whose sum is
refused. -/
def gsVisitorGradGrad.assembleChecked {T G : Type} [Zero T] [Add T] [Mul T]
    (v : gsVisitorGradGrad T) (ev : gsGeometryEvaluator T G) (geoEval : G)
    (quWeights : List T) : Except EigenError (gsVisitorGradGrad T) :=
  forLoop quWeights.length (fun k acc =>
    match acc with
    | Except.ok v => gsVisitorGradGrad.assembleStepChecked ev geoEval quWeights k v
    | Except.error err => Except.error err) (Except.ok v)

/-! ## References returned by the expressions -/

/-- What a method of return type const gsMatrix<Scalar> & hands back: the
object that the reference is bound to, with its value at the return
statement, and whether that object lives on after the return. A data member
of the expression lives on; a temporary created by the return statement is
destroyed when the method returns. -/
structure ReturnedRef (α : Type) where
  referent : α
  alive : Bool

/-- The value read through a returned reference by the caller; none when
the object is gone, the reference being dangling. -/
def ReturnedRef.read {α : Type} (r : ReturnedRef α) : Option α :=
  if r.alive then some r.referent else none

/-- The method curve_binormal_expr::eval. It assigns the members der1 and
der2 and returns (der1.cross(der2)).normalized(), a temporary, through its
return type const gsMatrix<Scalar> &. The square root of the scalar type is
a parameter. -/
def curve_binormal_expr.eval {T : Type} [Field T] (sqrt : T → T) (e : curve_binormal_expr T)
    (k : Nat) : ReturnedRef (Vec3 T) :=
  let der1 := Vec3.ofCol (e._G.data.values 1) k
  let der2 := Vec3.ofCol (e._G.data.values 2) k
  { referent := (der1.cross der2).normalized sqrt, alive := false }

/-- The method curve_normal_expr::eval. It assigns the members der1, der2 and
binormal and returns (binormal.cross(der1)).normalized(), a temporary,
through its return type const gsMatrix<Scalar> &. -/
def curve_normal_expr.eval {T : Type} [Field T] (sqrt : T → T) (e : curve_normal_expr T)
    (k : Nat) : ReturnedRef (Vec3 T) :=
  let der1 := Vec3.ofCol (e._G.data.values 1) k
  let der2 := Vec3.ofCol (e._G.data.values 2) k
  let binormal := (der1.cross der2).normalized sqrt
  { referent := (binormal.cross der1).normalized sqrt, alive := false }

/-! ## The variations of the normal: curve_nvar1_expr, curve_nvar2_expr, curve_Avar1_expr -/

/-- A counting loop whose body may stop the program: the passes after a
failure are not run. -/
def forLoopE {ε σ : Type} (n : Nat) (body : Nat → σ → Except ε σ) (s : σ) : Except ε σ :=
  forLoop n (fun i acc =>
    match acc with
    | Except.ok s => body i s
    | Except.error err => Except.error err) (Except.ok s)

/-- The product A * B with the size test of the library: the left factor
must have as many columns as the right factor has rows. -/
def gsMatrix.mulChecked {T : Type} [Zero T] [Add T] [Mul T] (A B : gsMatrix T) :
    Except EigenError (gsMatrix T) :=
  if A.cols = B.rows then Except.ok (A.mul B)
  else Except.error (EigenError.invalidProduct A.rows A.cols B.rows B.cols)

/-- The difference A - B with the size test of the library. -/
def gsMatrix.subChecked {T : Type} [Sub T] (A B : gsMatrix T) :
    Except EigenError (gsMatrix T) :=
  if A.rows = B.rows ∧ A.cols = B.cols then Except.ok (A.sub B)
  else Except.error (EigenError.sizeMismatch A.rows A.cols B.rows B.cols)

/-- The quotient A / s of a matrix by a scalar. -/
def gsMatrix.divScalar {T : Type} [Div T] (A : gsMatrix T) (s : T) : gsMatrix T :=
  { rows := A.rows, cols := A.cols, coeff := fun i j => A.coeff i j / s }

/-- A vector gsVector<Scalar,3> as a dense matrix of shape 3 x 1. -/
def Vec3.toMatrix {T : Type} [Zero T] (a : Vec3 T) : gsMatrix T :=
  { rows := 3, cols := 1, coeff := fun i _ => a.get i }

/-- The assignment of a matrix to a member of type gsVector<Scalar,3>, with
the size test of the library: the matrix must have the shape 3 x 1. -/
def Vec3.assign {T : Type} (M : gsMatrix T) : Except EigenError (Vec3 T) :=
  if M.rows = 3 ∧ M.cols = 1 then Except.ok (Vec3.ofCol M 0)
  else Except.error (EigenError.sizeMismatch 3 1 M.rows M.cols)

/-- The assignment of a matrix to a member of type gsMatrix<Scalar,3,3>, with
the size test of the library: the matrix must have the shape 3 x 3. -/
def Mat3.assign {T : Type} (M : gsMatrix T) : Except EigenError (Mat3 T) :=
  if M.rows = 3 ∧ M.cols = 3 then
    Except.ok ⟨⟨M.coeff 0 0, M.coeff 0 1, M.coeff 0 2⟩, ⟨M.coeff 1 0, M.coeff 1 1, M.coeff 1 2⟩,
      ⟨M.coeff 2 0, M.coeff 2 1, M.coeff 2 2⟩⟩
  else Except.error (EigenError.sizeMismatch 3 3 M.rows M.cols)

/-- The sum of two matrices of shape 3 x 3. -/
def Mat3.add {T : Type} [Add T] (A B : Mat3 T) : Mat3 T := ⟨A.r0.add B.r0, A.r1.add B.r1, A.r2.add B.r2⟩

/-- The product A * s of a matrix of shape 3 x 3 and a scalar. -/
def Mat3.mulScalar {T : Type} [Mul T] (A : Mat3 T) (s : T) : Mat3 T :=
  ⟨⟨A.r0.x * s, A.r0.y * s, A.r0.z * s⟩, ⟨A.r1.x * s, A.r1.y * s, A.r1.z * s⟩,
   ⟨A.r2.x * s, A.r2.y * s, A.r2.z * s⟩⟩

/-- The opposite -A of a matrix of shape 3 x 3. -/
def Mat3.neg {T : Type} [Neg T] (A : Mat3 T) : Mat3 T :=
  ⟨⟨-A.r0.x, -A.r0.y, -A.r0.z⟩, ⟨-A.r1.x, -A.r1.y, -A.r1.z⟩, ⟨-A.r2.x, -A.r2.y, -A.r2.z⟩⟩

/-- The method curve_nvar1_expr::eval (eval_impl for a space). In the loop
the statement bvar1 = B * ( ... ).transpose() multiplies the 3 x 3 tensor B
by the transpose of a vector of three entries, a matrix of shape 1 x 3; the
row of res is assigned A * (bvar1.cross(cJac) + binormal.cross(vecFun)).
The method returns the member res. -/
def curve_nvar1_expr.eval {T : Type} [Field T] (sqrt : T → T) (e : curve_nvar1_expr T)
    (k : Nat) : Except EigenError (gsMatrix T) :=
  let N := e._u.cardinality / e._u.dim
  let res := gsMatrix.zero e._u.cardinality e.cols
  let der1 := Vec3.ofCol (e._G.data.values 1) k
  let der2 := Vec3.ofCol (e._G.data.values 2) k
  let binormal := der1.cross der2
  let binormal_norm := binormal.norm sqrt
  let binormal := binormal.div binormal_norm
  let normal := binormal.cross der1
  let normal_norm := normal.norm sqrt
  let normal := normal.div normal_norm
  let I : Mat3 T := Mat3.identity
  let B := (I.sub (Mat3.outer binormal binormal)).div binormal_norm
  let A := (I.sub (Mat3.outer normal normal)).div normal_norm
  let bGrad := (e._u.data.values 1).col k
  let bHess := (e._u.data.values 2).col k
  let cJac := Vec3.ofCol (e._G.data.values 1) k
  let cHess := Vec3.ofCol (e._G.data.values 2) k
  forLoopE e.cols (fun d res =>
    let s := d * N
    forLoopE N (fun j res =>
      match B.toMatrix.mulChecked
          (((vecFun d (bGrad.coeff j 0)).cross cHess).add
            (cJac.cross (vecFun d (bHess.coeff j 0)))).toMatrix.transpose with
      | Except.error err => Except.error err
      | Except.ok product =>
        match Vec3.assign product with
        | Except.error err => Except.error err
        | Except.ok bvar1 =>
          Except.ok (res.setRow3 (s + j)
            (A.mulVec ((bvar1.cross cJac).add
              (binormal.cross (vecFun d (bGrad.coeff j 0))))))) res) res

/-- The method curve_nvar2_expr::eval (eval_impl for a space), embedded from
the body of that class: the members and the statements are those of
curve_nvar1_expr under the name of the second variation. -/
def curve_nvar2_expr.eval {T : Type} [Field T] (sqrt : T → T) (e : curve_nvar2_expr T)
    (k : Nat) : Except EigenError (gsMatrix T) :=
  let N := e._u.cardinality / e._u.dim
  let res := gsMatrix.zero e._u.cardinality e.cols
  let der1 := Vec3.ofCol (e._G.data.values 1) k
  let der2 := Vec3.ofCol (e._G.data.values 2) k
  let binormal := der1.cross der2
  let binormal_norm := binormal.norm sqrt
  let binormal := binormal.div binormal_norm
  let normal := binormal.cross der1
  let normal_norm := normal.norm sqrt
  let normal := normal.div normal_norm
  let I : Mat3 T := Mat3.identity
  let B := (I.sub (Mat3.outer binormal binormal)).div binormal_norm
  let A := (I.sub (Mat3.outer normal normal)).div normal_norm
  let bGrad := (e._u.data.values 1).col k
  let bHess := (e._u.data.values 2).col k
  let cJac := Vec3.ofCol (e._G.data.values 1) k
  let cHess := Vec3.ofCol (e._G.data.values 2) k
  forLoopE e.cols (fun d res =>
    let s := d * N
    forLoopE N (fun j res =>
      match B.toMatrix.mulChecked
          (((vecFun d (bGrad.coeff j 0)).cross cHess).add
            (cJac.cross (vecFun d (bHess.coeff j 0)))).toMatrix.transpose with
      | Except.error err => Except.error err
      | Except.ok product =>
        match Vec3.assign product with
        | Except.error err => Except.error err
        | Except.ok bvar1 =>
          Except.ok (res.setRow3 (s + j)
            (A.mulVec ((bvar1.cross cJac).add
              (binormal.cross (vecFun d (bGrad.coeff j 0))))))) res) res

/-- The body of the loop of curve_Avar1_expr::eval_impl for the component d
and the active function j, on the member Avar1: the statements that assign
bvar1, nvar1, normal_norm_var1 and Avar1, each product and assignment with
the size test of the library. -/
def curve_Avar1_expr.evalStep {T : Type} [Field T] (A B I : Mat3 T)
    (binormal normal cJac cHess : Vec3 T) (normal_norm : T) (bGrad bHess : gsMatrix T)
    (d j : Nat) (Avar1 : Mat3 T) : Except EigenError (Mat3 T) :=
  match B.toMatrix.mulChecked
      (((vecFun d (bGrad.coeff j 0)).cross cHess).add
        (cJac.cross (vecFun d (bHess.coeff j 0)))).toMatrix.transpose with
  | Except.error err => Except.error err
  | Except.ok product =>
    match Vec3.assign product with
    | Except.error err => Except.error err
    | Except.ok bvar1 =>
      let nvar1 := A.mulVec ((bvar1.cross cJac).add
        (binormal.cross (vecFun d (bGrad.coeff j 0))))
      match ((bvar1.cross cJac).add
          (binormal.cross (vecFun d (bGrad.coeff j 0)))).toMatrix.mulChecked
          normal.toMatrix with
      | Except.error err => Except.error err
      | Except.ok product2 =>
        match Vec3.assign (product2.divScalar normal_norm) with
        | Except.error err => Except.error err
        | Except.ok normal_norm_var1 =>
          match (I.sub (Mat3.outer normal normal)).toMatrix.mulChecked
              normal_norm_var1.toMatrix.transpose with
          | Except.error err => Except.error err
          | Except.ok product3 =>
            match ((((Mat3.outer nvar1 normal).add (Mat3.outer normal nvar1)).neg).mulScalar
                normal_norm).toMatrix.subChecked product3 with
            | Except.error err => Except.error err
            | Except.ok difference =>
              Mat3.assign (difference.divScalar (normal_norm * normal_norm))

/-- The method curve_Avar1_expr::eval (eval_impl for a space). It sizes res,
runs the loop over the components and the active functions on the member
Avar1, whose content before the call is a parameter, and returns Avar1, a
matrix of shape 3 x 3, not res. -/
def curve_Avar1_expr.eval {T : Type} [Field T] (sqrt : T → T) (Avar1 : Mat3 T)
    (e : curve_Avar1_expr T) (k : Nat) : Except EigenError (gsMatrix T) :=
  let N := e._u.cardinality / e._u.dim
  let res : gsMatrix T := gsMatrix.zero e._u.cardinality e.cols
  let der1 := Vec3.ofCol (e._G.data.values 1) k
  let der2 := Vec3.ofCol (e._G.data.values 2) k
  let binormal := der1.cross der2
  let binormal_norm := binormal.norm sqrt
  let binormal := binormal.div binormal_norm
  let normal := binormal.cross der1
  let normal_norm := normal.norm sqrt
  let normal := normal.div normal_norm
  let I : Mat3 T := Mat3.identity
  let B := (I.sub (Mat3.outer binormal binormal)).div binormal_norm
  let A := (I.sub (Mat3.outer normal normal)).div normal_norm
  let bGrad := (e._u.data.values 1).col k
  let bHess := (e._u.data.values 2).col k
  let cJac := Vec3.ofCol (e._G.data.values 1) k
  let cHess := Vec3.ofCol (e._G.data.values 2) k
  match forLoopE e.cols (fun d Avar1 =>
      forLoopE N (fun j Avar1 =>
        curve_Avar1_expr.evalStep A B I binormal normal cJac cHess normal_norm bGrad bHess
          d j Avar1) Avar1) Avar1 with
  | Except.error err => Except.error err
  | Except.ok (Avar1 : Mat3 T) => Except.ok (Mat3.toMatrix Avar1)

/-- A space of three components with no active function. -/
def exSpaceEmpty : gsFeSpace ℚ :=
  { exSpace with data := { exSpace.data with actives := [] } }

/-! ## The peer of a boundary function, as the specification words it -/

/-- The peer tensor index as the specification words it, from the tensor
index t0 on the first side and the component sizes N of the second side on
the level: the entry of second.direction is N - 1 if second.parameter holds
and 0 if not; the entry of every other direction dirMap[j] is t0[j] if
dirOrient[j] holds and N[dirMap[j]] - 1 - t0[j] if not. The direction j is
found from dirMap[j] by a search through the directions; an entry outside
the directions is 0. -/
def peerTensorSpec (dim : Nat) (dirMap : Nat → Nat) (dirOrient : Nat → Bool) (dir2 : Nat)
    (par2 : Bool) (N t0 : Nat → Nat) : Nat → Nat :=
  fun jj =>
    if jj = dir2 then (if par2 then N jj - 1 else 0)
    else
      match (List.range dim).find? (fun j => decide (dirMap j = jj)) with
      | some j => if dirOrient j then t0 j else N jj - 1 - t0 j
      | none => 0

/-- A hierarchical basis of two dimensions with a single level of 4 x 4
functions, numbered row by row, and the boundary functions l on every
side. -/
def exHierBasis (l : List Nat) : PatchBasis :=
  { kind := BasisKind.hTensor2, boundary := fun _ => l, componentSize := fun _ => 4,
    hier := { levelOf := fun _ => 0, flatTensorIndexOf := fun b => b,
              tensorIndex := fun _ flat j => if j = 0 then flat % 4 else flat / 4,
              levelComponentSize := fun _ _ => 4,
              levelIndex := fun _ t => t 0 + 4 * t 1,
              flatTensorIndexToHierachicalIndex := fun f _ => f } }

/-- Two hierarchical patches: the east side of patch 0 has the functions
3, 7, 11, 15 and the west side of patch 1 the functions 0, 4, 8, 12. -/
def exHierMultiBasis : gsMultiBasis :=
  { m_bases := fun p => if p = 0 then exHierBasis [3, 7, 11, 15] else exHierBasis [0, 4, 8, 12],
    dim := 2 }

section Aux

variable {T : Type}

theorem forLoop_zero {σ : Type} (body : Nat → σ → σ) (s : σ) : forLoop 0 body s = s := rfl

theorem forLoop_succ {σ : Type} (n : Nat) (body : Nat → σ → σ) (s : σ) :
    forLoop (n + 1) body s = body n (forLoop n body s) := by
  simp [forLoop, List.range_succ, List.foldl_append]

theorem option_ext_getD [Zero T] {x y : Option T}
    (h1 : x.isSome = true ↔ y.isSome = true) (h2 : x.getD 0 = y.getD 0) : x = y := by
  cases x <;> cases y <;> simp_all

theorem coeff_coeffRefAdd [AddCommMonoid T] (A : gsSparseMatrix T) (r c : Nat) (v : T)
    (r' c' : Nat) :
    (A.coeffRefAdd r c v).coeff r' c'
      = A.coeff r' c' + (if r' = r ∧ c' = c then v else 0) := by
  unfold gsSparseMatrix.coeffRefAdd gsSparseMatrix.coeff
  by_cases h : r' = r ∧ c' = c
  · obtain ⟨h1, h2⟩ := h
    subst h1; subst h2
    simp
  · simp [h]

theorem isSome_coeffRefAdd [Zero T] [Add T] (A : gsSparseMatrix T) (r c : Nat) (v : T)
    (r' c' : Nat) :
    ((A.coeffRefAdd r c v) r' c').isSome = true
      ↔ ((A r' c').isSome = true ∨ (r' = r ∧ c' = c)) := by
  unfold gsSparseMatrix.coeffRefAdd
  by_cases h : r' = r ∧ c' = c
  · simp [h]
  · simp [h]

theorem coeff_scatterRow [AddCommMonoid T] (g : Nat → Nat) (L : Nat → Nat → T) (i m : Nat)
    (sys : gsSparseMatrix T) (r c : Nat) :
    (scatterRow g L i m sys).coeff r c
      = sys.coeff r c
        + ∑ j in Finset.range m, (if g i = r ∧ g j = c ∧ g j ≤ g i then L i j else 0) := by
  induction m with
  | zero => simp [scatterRow, forLoop_zero]
  | succ m ih =>
    unfold scatterRow at ih ⊢
    rw [forLoop_succ, Finset.sum_range_succ, ← add_assoc, ← ih]
    by_cases hle : g m ≤ g i
    · rw [if_pos hle, coeff_coeffRefAdd]
      congr 1
      by_cases h : r = g i ∧ c = g m
      · obtain ⟨h1, h2⟩ := h
        subst h1; subst h2
        simp [hle]
      · rw [if_neg h, if_neg]
        rintro ⟨h1, h2, -⟩
        exact h ⟨h1.symm, h2.symm⟩
    · rw [if_neg hle, if_neg]
      · simp
      · rintro ⟨-, -, h3⟩
        exact hle h3

theorem isSome_scatterRow [Zero T] [Add T] (g : Nat → Nat) (L : Nat → Nat → T) (i m : Nat)
    (sys : gsSparseMatrix T) (r c : Nat) :
    ((scatterRow g L i m sys) r c).isSome = true
      ↔ ((sys r c).isSome = true ∨ ∃ j, j < m ∧ g i = r ∧ g j = c ∧ g j ≤ g i) := by
  induction m with
  | zero => simp [scatterRow, forLoop_zero]
  | succ m ih =>
    unfold scatterRow at ih ⊢
    rw [forLoop_succ]
    by_cases hle : g m ≤ g i
    · rw [if_pos hle, isSome_coeffRefAdd, ih]
      constructor
      · rintro ((h | ⟨j, hj, h⟩) | ⟨h1, h2⟩)
        · exact Or.inl h
        · exact Or.inr ⟨j, Nat.lt_succ_of_lt hj, h⟩
        · exact Or.inr ⟨m, Nat.lt_succ_self m, h1.symm, h2.symm, hle⟩
      · rintro (h | ⟨j, hj, h1, h2, h3⟩)
        · exact Or.inl (Or.inl h)
        · rcases Nat.lt_succ_iff_lt_or_eq.mp hj with hlt | heq
          · exact Or.inl (Or.inr ⟨j, hlt, h1, h2, h3⟩)
          · subst heq
            exact Or.inr ⟨h1.symm, h2.symm⟩
    · rw [if_neg hle, ih]
      constructor
      · rintro (h | ⟨j, hj, h⟩)
        · exact Or.inl h
        · exact Or.inr ⟨j, Nat.lt_succ_of_lt hj, h⟩
      · rintro (h | ⟨j, hj, h1, h2, h3⟩)
        · exact Or.inl h
        · rcases Nat.lt_succ_iff_lt_or_eq.mp hj with hlt | heq
          · exact Or.inr ⟨j, hlt, h1, h2, h3⟩
          · subst heq
            exact absurd h3 hle

theorem coeff_scatterRows [AddCommMonoid T] (g : Nat → Nat) (L : Nat → Nat → T) (n m : Nat)
    (sys : gsSparseMatrix T) (r c : Nat) :
    (scatterRows g L n m sys).coeff r c
      = sys.coeff r c
        + ∑ i in Finset.range m, ∑ j in Finset.range n,
            (if g i = r ∧ g j = c ∧ g j ≤ g i then L i j else 0) := by
  induction m with
  | zero => simp [scatterRows, forLoop_zero]
  | succ m ih =>
    unfold scatterRows at ih ⊢
    rw [forLoop_succ, coeff_scatterRow, ih, Finset.sum_range_succ, add_assoc]

theorem isSome_scatterRows [Zero T] [Add T] (g : Nat → Nat) (L : Nat → Nat → T) (n m : Nat)
    (sys : gsSparseMatrix T) (r c : Nat) :
    ((scatterRows g L n m sys) r c).isSome = true
      ↔ ((sys r c).isSome = true
          ∨ ∃ i, i < m ∧ ∃ j, j < n ∧ g i = r ∧ g j = c ∧ g j ≤ g i) := by
  induction m with
  | zero => simp [scatterRows, forLoop_zero]
  | succ m ih =>
    unfold scatterRows at ih ⊢
    rw [forLoop_succ, isSome_scatterRow, ih]
    constructor
    · rintro ((h | ⟨i, hi, h⟩) | h)
      · exact Or.inl h
      · exact Or.inr ⟨i, Nat.lt_succ_of_lt hi, h⟩
      · exact Or.inr ⟨m, Nat.lt_succ_self m, h⟩
    · rintro (h | ⟨i, hi, h⟩)
      · exact Or.inl (Or.inl h)
      · rcases Nat.lt_succ_iff_lt_or_eq.mp hi with hlt | heq
        · exact Or.inl (Or.inr ⟨i, hlt, h⟩)
        · subst heq
          exact Or.inr h

theorem scatter_eq_scatterRows [Zero T] [Add T] (actives : List Nat) (localMat : gsMatrix T)
    (sys : gsSparseMatrix T) :
    gsVisitorGradGrad.scatter actives localMat sys
      = scatterRows (fun k => actives.getD k 0) localMat.coeff actives.length actives.length
          sys := rfl

theorem coeff_scatter [AddCommMonoid T] (actives : List Nat) (localMat : gsMatrix T)
    (sys : gsSparseMatrix T) (r c : Nat) :
    (gsVisitorGradGrad.scatter actives localMat sys).coeff r c
      = sys.coeff r c
        + scatterSum (fun k => actives.getD k 0) localMat.coeff actives.length r c := by
  rw [scatter_eq_scatterRows, coeff_scatterRows]
  rfl

theorem isSome_scatter [Zero T] [Add T] (actives : List Nat) (localMat : gsMatrix T)
    (sys : gsSparseMatrix T) (r c : Nat) :
    ((gsVisitorGradGrad.scatter actives localMat sys) r c).isSome = true
      ↔ ((sys r c).isSome = true
          ∨ scatterHit (fun k => actives.getD k 0) actives.length r c) := by
  rw [scatter_eq_scatterRows, isSome_scatterRows]
  rfl

theorem scatterSum_eq_zero [AddCommMonoid T] (g : Nat → Nat) (L : Nat → Nat → T) (n : Nat)
    (r c : Nat) (h : ¬ scatterHit g n r c) : scatterSum g L n r c = 0 := by
  unfold scatterSum
  apply Finset.sum_eq_zero
  intro i hi
  apply Finset.sum_eq_zero
  intro j hj
  rw [if_neg]
  intro hc
  exact h ⟨i, Finset.mem_range.mp hi, j, Finset.mem_range.mp hj, hc⟩

theorem scatter_unchanged [AddCommMonoid T] (actives : List Nat) (localMat : gsMatrix T)
    (sys : gsSparseMatrix T) (r c : Nat)
    (h : ¬ scatterHit (fun k => actives.getD k 0) actives.length r c) :
    gsVisitorGradGrad.scatter actives localMat sys r c = sys r c := by
  apply option_ext_getD
  · rw [isSome_scatter]
    constructor
    · rintro (h1 | h1)
      · exact h1
      · exact absurd h1 h
    · exact Or.inl
  · have := coeff_scatter actives localMat sys r c
    rw [scatterSum_eq_zero _ _ _ _ _ h, add_zero] at this
    exact this

theorem localToGlobal_sys [Zero T] [Add T] (v : gsVisitorGradGrad T) (mapper : gsDofMapper)
    (eliminatedDofs : gsMatrix T) (patchIndex : Nat) (sysMatrix : gsSparseMatrix T)
    (rhsMatrix : gsMatrix T) :
    (v.localToGlobal mapper eliminatedDofs patchIndex sysMatrix rhsMatrix).2.1
      = gsVisitorGradGrad.scatter (mapper.localToGlobal v.actives patchIndex) v.localMat
          sysMatrix := rfl

theorem getD_mem_of_lt (l : List Nat) (i : Nat) (h : i < l.length) : l.getD i 0 ∈ l := by
  rw [List.getD_eq_getElem l 0 h]
  exact List.getElem_mem h

theorem forLoop_add_eq_sum [AddCommMonoid T] (f : Nat → T) (n : Nat) :
    forLoop n (fun l acc => acc + f l) 0 = ∑ l in Finset.range n, f l := by
  induction n with
  | zero => simp [forLoop_zero]
  | succ n ih => rw [forLoop_succ, Finset.sum_range_succ, ih]

theorem gsMatrix_eq {A B : gsMatrix T} (h1 : A.rows = B.rows) (h2 : A.cols = B.cols)
    (h3 : ∀ i j, A.coeff i j = B.coeff i j) : A = B := by
  cases A
  cases B
  simp only [gsMatrix.mk.injEq]
  exact ⟨h1, h2, funext fun i => funext fun j => h3 i j⟩

theorem assemble_loop [Semiring T] {G : Type} (ev : gsGeometryEvaluator T G) (geoEval : G)
    (quWeights : List T) (v : gsVisitorGradGrad T) (m : Nat) :
    (forLoop m (gsVisitorGradGrad.assembleStep ev geoEval quWeights) v).basisGrads
        = v.basisGrads ∧
    (forLoop m (gsVisitorGradGrad.assembleStep ev geoEval quWeights) v).actives
        = v.actives ∧
    (forLoop m (gsVisitorGradGrad.assembleStep ev geoEval quWeights) v).localMat.rows
        = v.localMat.rows ∧
    (forLoop m (gsVisitorGradGrad.assembleStep ev geoEval quWeights) v).localMat.cols
        = v.localMat.cols ∧
    ∀ i j,
      (forLoop m (gsVisitorGradGrad.assembleStep ev geoEval quWeights) v).localMat.coeff i j
        = v.localMat.coeff i j
          + ∑ k in Finset.range m,
              (quWeights.getD k 0 * ev.measure geoEval k)
                * ∑ d in Finset.range (ev.transformGradients geoEval k v.basisGrads).rows,
                    (ev.transformGradients geoEval k v.basisGrads).coeff d i
                      * (ev.transformGradients geoEval k v.basisGrads).coeff d j := by
  induction m with
  | zero => simp [forLoop_zero]
  | succ m ih =>
    obtain ⟨h1, h2, h3, h4, h5⟩ := ih
    rw [forLoop_succ]
    refine ⟨h1, h2, h3, h4, ?_⟩
    intro i j
    rw [Finset.sum_range_succ, ← add_assoc, ← h5 i j]
    simp only [gsVisitorGradGrad.assembleStep, gsMatrix.addAssign, gsMatrix.smul,
      gsMatrix.mul, gsMatrix.transpose, h1]
    rw [forLoop_add_eq_sum]

theorem map_getD_range (l : List Nat) :
    (List.range l.length).map (fun i => l.getD i 0) = l := by
  apply List.ext_getElem
  · simp
  · intro i h1 h2
    simp [List.getElem?_eq_getElem h2]

theorem forLoop_getD_eq_foldl {M : Type} (l : List Nat) (f : M → Nat → M) (m : M) :
    forLoop l.length (fun i acc => f acc (l.getD i 0)) m = l.foldl f m := by
  unfold forLoop
  conv_rhs => rw [← map_getD_range l]
  rw [List.foldl_map]

theorem map_getD_range_zip (l1 l2 : List Nat) (h : l1.length = l2.length) :
    (List.range l1.length).map (fun i => (l1.getD i 0, l2.getD i 0)) = l1.zip l2 := by
  apply List.ext_getElem
  · simp [h]
  · intro i h1 h2
    have hi1 : i < l1.length := by simpa using h1
    have hi2 : i < l2.length := h ▸ hi1
    simp [List.getElem?_eq_getElem hi1, List.getElem?_eq_getElem hi2]

theorem forLoop_getD_eq_foldl_zip {M : Type} (l1 l2 : List Nat) (h : l1.length = l2.length)
    (f : M → Nat → Nat → M) (m : M) :
    forLoop l1.length (fun c acc => f acc (l1.getD c 0) (l2.getD c 0)) m
      = (l1.zip l2).foldl (fun acc q => f acc q.1 q.2) m := by
  unfold forLoop
  conv_rhs => rw [← map_getD_range_zip l1 l2 h]
  rw [List.foldl_map]

theorem usub_one (n : Nat) (h0 : 0 < n) (h : n < 2 ^ 32) : usub n 1 = n - 1 := by
  unfold usub
  omega

theorem usub_of_le (a b : Nat) (hb : b ≤ a) (h : a < 2 ^ 32) : usub a b = a - b := by
  unfold usub
  omega

theorem peerTensorIndex_eq (dim : Nat) (dirMap : Nat → Nat) (dirOrient : Nat → Bool)
    (dir2 : Nat) (par2 : Bool) (N tens0 tens1 : Nat → Nat) :
    peerTensorIndex dim dirMap dirOrient dir2 par2 N tens0 tens1
      = forLoop dim (fun j t =>
          Function.update t (dirMap j) (peerValue dirMap dirOrient dir2 par2 N tens0 j))
          tens1 := by
  unfold peerTensorIndex
  congr 1
  funext j t
  unfold peerValue
  by_cases h1 : dirMap j = dir2
  · by_cases h2 : par2 = true
    · simp [h1, h2]
    · simp [h1, h2]
  · by_cases h3 : dirOrient j = true
    · simp [h1, h3]
    · simp [h1, h3]

theorem peerTensorIndex_at (dim : Nat) (dirMap : Nat → Nat) (dirOrient : Nat → Bool)
    (dir2 : Nat) (par2 : Bool) (N tens0 tens1 : Nat → Nat)
    (hinj : ∀ j, j < dim → ∀ j', j' < dim → dirMap j = dirMap j' → j = j')
    (j : Nat) (hj : j < dim) :
    peerTensorIndex dim dirMap dirOrient dir2 par2 N tens0 tens1 (dirMap j)
      = peerValue dirMap dirOrient dir2 par2 N tens0 j := by
  rw [peerTensorIndex_eq]
  have key : ∀ m, m ≤ dim → ∀ j, j < m →
      forLoop m (fun j t =>
          Function.update t (dirMap j) (peerValue dirMap dirOrient dir2 par2 N tens0 j))
          tens1 (dirMap j)
        = peerValue dirMap dirOrient dir2 par2 N tens0 j := by
    intro m
    induction m with
    | zero => intro _ j hj0; exact absurd hj0 (Nat.not_lt_zero j)
    | succ m ih =>
      intro hm j hjm
      rw [forLoop_succ]
      rcases Nat.lt_succ_iff_lt_or_eq.mp hjm with hlt | heq
      · have hne : dirMap j ≠ dirMap m := by
          intro h
          have := hinj j (by omega) m (by omega) h
          omega
        rw [Function.update_noteq hne]
        exact ih (by omega) j hlt
      · subst heq
        rw [Function.update_same]
  exact key dim le_rfl j hj

theorem dirMap_surj (dim : Nat) (dirMap : Nat → Nat)
    (hrange : ∀ j, j < dim → dirMap j < dim)
    (hinj : ∀ j, j < dim → ∀ j', j' < dim → dirMap j = dirMap j' → j = j')
    (jj : Nat) (hjj : jj < dim) : ∃ j, j < dim ∧ dirMap j = jj := by
  have h := Finset.surj_on_of_inj_on_of_card_le
    (s := Finset.range dim) (t := Finset.range dim) (fun a _ => dirMap a)
    (fun a ha => Finset.mem_range.mpr (hrange a (Finset.mem_range.mp ha)))
    (fun a b ha hb hab => hinj a (Finset.mem_range.mp ha) b (Finset.mem_range.mp hb) hab)
    le_rfl jj (Finset.mem_range.mpr hjj)
  obtain ⟨a, ha, hab⟩ := h
  exact ⟨a, Finset.mem_range.mp ha, hab.symm⟩

theorem peerValue_spec (dim : Nat) (dirMap : Nat → Nat) (dirOrient : Nat → Bool)
    (dir1 dir2 : Nat) (par2 : Bool) (N tens0 : Nat → Nat)
    (hdir1 : dir1 < dim) (hmap : dirMap dir1 = dir2)
    (hrange : ∀ j, j < dim → dirMap j < dim)
    (hinj : ∀ j, j < dim → ∀ j', j' < dim → dirMap j = dirMap j' → j = j')
    (hN : ∀ j, j < dim → N j < 2 ^ 32)
    (ht0 : ∀ j, j < dim → tens0 j < N (dirMap j))
    (j : Nat) (hj : j < dim) :
    peerValue dirMap dirOrient dir2 par2 N tens0 j
      = (if j = dir1 then (if par2 = true then N (dirMap j) - 1 else 0)
         else if dirOrient j = true then tens0 j else N (dirMap j) - 1 - tens0 j)
    ∧ peerValue dirMap dirOrient dir2 par2 N tens0 j < N (dirMap j) := by
  have hlt := ht0 j hj
  have hbd := hN (dirMap j) (hrange j hj)
  unfold peerValue
  by_cases hjd : j = dir1
  · subst hjd
    rw [if_pos hmap, if_pos rfl]
    by_cases hp : par2 = true
    · rw [if_pos hp, usub_one _ (by omega) hbd]
      exact ⟨by rw [if_pos hp], by omega⟩
    · rw [if_neg hp]
      exact ⟨by rw [if_neg hp], by omega⟩
  · have hne : dirMap j ≠ dir2 := by
      intro h
      exact hjd (hinj j hj dir1 hdir1 (h.trans hmap.symm))
    rw [if_neg hne, if_neg hjd]
    by_cases ho : dirOrient j = true
    · simp only [ho, Bool.not_true, if_true]
      exact ⟨by simp, by simpa using hlt⟩
    · have ho' : dirOrient j = false := by simpa using ho
      simp only [ho', Bool.not_false, if_true]
      rw [usub_one _ (by omega) hbd, usub_of_le _ _ (by omega) (by omega)]
      exact ⟨by simp, by omega⟩

theorem numQuadNodes_loop (n : Nat) (f : Nat → Nat) (m : Nat) (hm : m ≤ n) :
    forLoop m (fun i v => v.set i (f i)) (List.replicate n 0)
      = (List.range m).map f ++ List.replicate (n - m) 0 := by
  induction m with
  | zero => simp [forLoop_zero]
  | succ m ih =>
    rw [forLoop_succ, ih (by omega), List.range_succ, List.map_append, List.append_assoc]
    have hlen : ((List.range m).map f).length = m := by simp
    have hrep : List.replicate (n - m) 0 = 0 :: List.replicate (n - (m + 1)) 0 := by
      rw [show n - m = (n - (m + 1)) + 1 by omega, List.replicate_succ]
    rw [hrep]
    conv_lhs => rw [show m = ((List.range m).map f).length + 0 by simp]
    rw [List.set_append_right _ _ (by simp)]
    simp

theorem numQuadNodes_eq (basis : gsBasisShape) :
    numQuadNodes basis = (List.range basis.dim).map (fun i => basis.degree i + 1) := by
  unfold numQuadNodes
  rw [numQuadNodes_loop basis.dim (fun i => basis.degree i + 1) basis.dim le_rfl]
  simp

theorem anBasis_tensor {T : Type} [CommRing T] (U V : T) (n : Nat) :
    anBasis U V n = bernstein2 U (n % 3) * bernstein2 V (n / 3) := by
  match n with
  | 0 => simp only [anBasis, bernstein2]; ring
  | 1 => simp only [anBasis, bernstein2]; ring
  | 2 => simp only [anBasis, bernstein2]; ring
  | 3 => simp only [anBasis, bernstein2]; ring
  | 4 => simp only [anBasis, bernstein2]; ring
  | 5 => simp only [anBasis, bernstein2]; ring
  | 6 => simp only [anBasis, bernstein2]; ring
  | 7 => simp only [anBasis, bernstein2]; ring
  | 8 => simp only [anBasis, bernstein2]; ring
  | n + 9 =>
    have h : (n + 9) / 3 = n / 3 + 3 := by omega
    rw [h]
    simp [anBasis, bernstein2]

theorem anBasisDer_row0 {T : Type} [CommRing T] (U V : T) (n : Nat) :
    anBasisDer U V 0 n = bernstein2Der U (n % 3) * bernstein2 V (n / 3) := by
  match n with
  | 0 => simp only [anBasisDer, anBasisDerRow0, bernstein2, bernstein2Der]; ring
  | 1 => simp only [anBasisDer, anBasisDerRow0, bernstein2, bernstein2Der]; ring
  | 2 => simp only [anBasisDer, anBasisDerRow0, bernstein2, bernstein2Der]; ring
  | 3 => simp only [anBasisDer, anBasisDerRow0, bernstein2, bernstein2Der]; ring
  | 4 => simp only [anBasisDer, anBasisDerRow0, bernstein2, bernstein2Der]; ring
  | 5 => simp only [anBasisDer, anBasisDerRow0, bernstein2, bernstein2Der]; ring
  | 6 => simp only [anBasisDer, anBasisDerRow0, bernstein2, bernstein2Der]; ring
  | 7 => simp only [anBasisDer, anBasisDerRow0, bernstein2, bernstein2Der]; ring
  | 8 => simp only [anBasisDer, anBasisDerRow0, bernstein2, bernstein2Der]; ring
  | n + 9 =>
    have h : (n + 9) / 3 = n / 3 + 3 := by omega
    rw [h]
    simp [anBasisDer, anBasisDerRow0, bernstein2]

theorem anBasisDer_row1 {T : Type} [CommRing T] (U V : T) (n : Nat) :
    anBasisDer U V 1 n = bernstein2 U (n % 3) * bernstein2Der V (n / 3) := by
  match n with
  | 0 => simp only [anBasisDer, anBasisDerRow1, bernstein2, bernstein2Der]; ring
  | 1 => simp only [anBasisDer, anBasisDerRow1, bernstein2, bernstein2Der]; ring
  | 2 => simp only [anBasisDer, anBasisDerRow1, bernstein2, bernstein2Der]; ring
  | 3 => simp only [anBasisDer, anBasisDerRow1, bernstein2, bernstein2Der]; ring
  | 4 => simp only [anBasisDer, anBasisDerRow1, bernstein2, bernstein2Der]; ring
  | 5 => simp only [anBasisDer, anBasisDerRow1, bernstein2, bernstein2Der]; ring
  | 6 => simp only [anBasisDer, anBasisDerRow1, bernstein2, bernstein2Der]; ring
  | 7 => simp only [anBasisDer, anBasisDerRow1, bernstein2, bernstein2Der]; ring
  | 8 => simp only [anBasisDer, anBasisDerRow1, bernstein2, bernstein2Der]; ring
  | n + 9 =>
    have h : (n + 9) / 3 = n / 3 + 3 := by omega
    rw [h]
    simp [anBasisDer, anBasisDerRow1, bernstein2Der]

theorem bernstein2_hasDerivAt (t : ℝ) (i : Nat) :
    HasDerivAt (fun s : ℝ => bernstein2 s i) (bernstein2Der t i) t := by
  have hid := hasDerivAt_id t
  match i with
  | 0 =>
    have h := ((hasDerivAt_const t (1 : ℝ)).sub hid).pow 2
    simp only [bernstein2, bernstein2Der]
    convert h using 1
    simp
    ring
  | 1 =>
    have h := (hid.const_mul (2 : ℝ)).mul ((hasDerivAt_const t (1 : ℝ)).sub hid)
    simp only [bernstein2, bernstein2Der]
    convert h using 1
    simp
    ring
  | 2 =>
    have h := hid.pow 2
    simp only [bernstein2, bernstein2Der]
    convert h using 1
    simp
  | i + 3 =>
    simp only [bernstein2, bernstein2Der]
    exact hasDerivAt_const t 0

section Vec3Facts

variable {T : Type}

theorem Vec3.dot_div_left [Field T] (a b : Vec3 T) (s : T) :
    (a.div s).dot b = a.dot b / s := by
  simp only [Vec3.div, Vec3.dot]
  ring

theorem Vec3.dot_div_right [Field T] (a b : Vec3 T) (s : T) :
    a.dot (b.div s) = a.dot b / s := by
  simp only [Vec3.div, Vec3.dot]
  ring

theorem Vec3.cross_div_left [Field T] (a b : Vec3 T) (s : T) :
    (a.div s).cross b = (a.cross b).div s := by
  simp only [Vec3.div, Vec3.cross, Vec3.mk.injEq]
  refine ⟨?_, ?_, ?_⟩ <;> ring

theorem Vec3.cross_dot_left [CommRing T] (a b : Vec3 T) : (a.cross b).dot a = 0 := by
  simp only [Vec3.cross, Vec3.dot]
  ring

theorem Vec3.cross_dot_right [CommRing T] (a b : Vec3 T) : (a.cross b).dot b = 0 := by
  simp only [Vec3.cross, Vec3.dot]
  ring

theorem Vec3.dot_comm [CommRing T] (a b : Vec3 T) : a.dot b = b.dot a := by
  simp only [Vec3.dot]
  ring

theorem Vec3.lagrange [CommRing T] (a b : Vec3 T) :
    (a.cross b).dot (a.cross b) = a.dot a * b.dot b - a.dot b * a.dot b := by
  simp only [Vec3.cross, Vec3.dot]
  ring

theorem Vec3.dot_self_pos [LinearOrderedField T] (a : Vec3 T) (h : a ≠ Vec3.zero) :
    0 < a.dot a := by
  have hnn : 0 ≤ a.dot a :=
    add_nonneg (add_nonneg (mul_self_nonneg a.x) (mul_self_nonneg a.y)) (mul_self_nonneg a.z)
  rcases hnn.lt_or_eq with hlt | heq
  · exact hlt
  · exfalso
    apply h
    simp only [Vec3.dot] at heq
    have hx : a.x = 0 := by nlinarith [mul_self_nonneg a.x, mul_self_nonneg a.y, mul_self_nonneg a.z]
    have hy : a.y = 0 := by nlinarith [mul_self_nonneg a.x, mul_self_nonneg a.y, mul_self_nonneg a.z]
    have hz : a.z = 0 := by nlinarith [mul_self_nonneg a.x, mul_self_nonneg a.y, mul_self_nonneg a.z]
    cases a
    simp only [Vec3.zero, Vec3.mk.injEq]
    exact ⟨hx, hy, hz⟩

theorem Vec3.cross_zero_left [CommRing T] (b : Vec3 T) :
    (Vec3.zero : Vec3 T).cross b = Vec3.zero := by
  simp [Vec3.cross, Vec3.zero]

/-- The facts on the unit binormal and the unit normal of a curve point with
first derivative r1 and second derivative r2, for a square root that is
exact at the squared norms of r1 x r2 and of r1. -/
theorem curve_frame [LinearOrderedField T] (sqrt : T → T) (r1 r2 : Vec3 T)
    (hc : r1.cross r2 ≠ Vec3.zero)
    (hs1 : sqrt ((r1.cross r2).dot (r1.cross r2)) * sqrt ((r1.cross r2).dot (r1.cross r2))
      = (r1.cross r2).dot (r1.cross r2))
    (hs3 : sqrt (r1.dot r1) * sqrt (r1.dot r1) = r1.dot r1) :
    (curveBinormal sqrt r1 r2).dot (curveBinormal sqrt r1 r2) = 1 ∧
    (curveBinormal sqrt r1 r2).dot r1 = 0 ∧
    (curveBinormal sqrt r1 r2).dot r2 = 0 ∧
    ((curveBinormal sqrt r1 r2).cross r1).dot ((curveBinormal sqrt r1 r2).cross r1)
      = r1.dot r1 ∧
    0 < r1.dot r1 ∧
    sqrt ((r1.cross r2).dot (r1.cross r2)) ≠ 0 ∧
    sqrt (r1.dot r1) ≠ 0 ∧
    (curveNormal sqrt r1 r2).dot (curveNormal sqrt r1 r2) = 1 ∧
    (curveNormal sqrt r1 r2).dot (curveBinormal sqrt r1 r2) = 0 ∧
    (curveNormal sqrt r1 r2).dot r1 = 0 := by
  have hcc := Vec3.dot_self_pos _ hc
  have hr1 : r1 ≠ Vec3.zero := by
    intro h
    apply hc
    rw [h, Vec3.cross_zero_left]
  have hrr := Vec3.dot_self_pos _ hr1
  have hs : sqrt ((r1.cross r2).dot (r1.cross r2)) ≠ 0 := by
    intro h
    rw [h, mul_zero] at hs1
    exact absurd hs1.symm (ne_of_gt hcc)
  have hs' : sqrt (r1.dot r1) ≠ 0 := by
    intro h
    rw [h, mul_zero] at hs3
    exact absurd hs3.symm (ne_of_gt hrr)
  have hbb : (curveBinormal sqrt r1 r2).dot (curveBinormal sqrt r1 r2) = 1 := by
    unfold curveBinormal Vec3.norm
    rw [Vec3.dot_div_left, Vec3.dot_div_right, div_div, hs1]
    exact div_self (ne_of_gt hcc)
  have hb1 : (curveBinormal sqrt r1 r2).dot r1 = 0 := by
    unfold curveBinormal
    rw [Vec3.dot_div_left, Vec3.cross_dot_left, zero_div]
  have hb2 : (curveBinormal sqrt r1 r2).dot r2 = 0 := by
    unfold curveBinormal
    rw [Vec3.dot_div_left, Vec3.cross_dot_right, zero_div]
  have hmm : ((curveBinormal sqrt r1 r2).cross r1).dot ((curveBinormal sqrt r1 r2).cross r1)
      = r1.dot r1 := by
    rw [Vec3.lagrange, hbb, hb1]
    ring
  have hsm : sqrt (((curveBinormal sqrt r1 r2).cross r1).dot
      ((curveBinormal sqrt r1 r2).cross r1)) = sqrt (r1.dot r1) := by
    rw [hmm]
  refine ⟨hbb, hb1, hb2, hmm, hrr, hs, hs', ?_, ?_, ?_⟩
  · unfold curveNormal Vec3.norm
    rw [Vec3.dot_div_left, Vec3.dot_div_right, div_div, hsm, hs3, hmm]
    exact div_self (ne_of_gt hrr)
  · unfold curveNormal
    rw [Vec3.dot_div_left, Vec3.cross_dot_left, zero_div]
  · unfold curveNormal
    rw [Vec3.dot_div_left, Vec3.cross_dot_right, zero_div]

end Vec3Facts

section FillRows

variable {T : Type}

theorem fillRows_inner [Zero T] (N d : Nat) (f : Nat → Nat → Vec3 T) (m : Nat)
    (res : gsMatrix T) :
    (forLoop m (fun j res => res.setRow3 (d * N + j) (f d j)) res).rows = res.rows ∧
    (forLoop m (fun j res => res.setRow3 (d * N + j) (f d j)) res).cols = res.cols ∧
    ∀ i c, (forLoop m (fun j res => res.setRow3 (d * N + j) (f d j)) res).coeff i c
      = if d * N ≤ i ∧ i < d * N + m ∧ c < 3 then (f d (i - d * N)).get c
        else res.coeff i c := by
  induction m with
  | zero =>
    refine ⟨rfl, rfl, ?_⟩
    intro i c
    rw [forLoop_zero, if_neg]
    omega
  | succ m ih =>
    obtain ⟨h1, h2, h3⟩ := ih
    rw [forLoop_succ]
    refine ⟨h1, h2, ?_⟩
    intro i c
    show (if i = d * N + m ∧ c < 3 then (f d m).get c else _) = _
    by_cases hi : i = d * N + m ∧ c < 3
    · rw [if_pos hi, if_pos (by omega)]
      have : i - d * N = m := by omega
      rw [this]
    · rw [if_neg hi, h3 i c]
      by_cases hc : d * N ≤ i ∧ i < d * N + m ∧ c < 3
      · rw [if_pos hc, if_pos (by omega)]
      · rw [if_neg hc, if_neg (by omega)]

theorem fillRows_succ [Zero T] (m N : Nat) (f : Nat → Nat → Vec3 T) (res : gsMatrix T) :
    fillRows (m + 1) N f res
      = forLoop N (fun j r => r.setRow3 (m * N + j) (f m j)) (fillRows m N f res) := by
  unfold fillRows
  rw [forLoop_succ]

theorem fillRows_shape [Zero T] (cols N : Nat) (f : Nat → Nat → Vec3 T) (res : gsMatrix T) :
    (fillRows cols N f res).rows = res.rows ∧ (fillRows cols N f res).cols = res.cols := by
  induction cols with
  | zero => exact ⟨rfl, rfl⟩
  | succ m ih =>
    rw [fillRows_succ]
    obtain ⟨h1, h2, _⟩ := fillRows_inner N m f N (fillRows m N f res)
    exact ⟨h1.trans ih.1, h2.trans ih.2⟩

theorem fillRows_coeff [Zero T] (cols N : Nat) (f : Nat → Nat → Vec3 T) (res : gsMatrix T)
    (d j c : Nat) (hd : d < cols) (hj : j < N) (hc : c < 3) :
    (fillRows cols N f res).coeff (d * N + j) c = (f d j).get c := by
  induction cols with
  | zero => exact absurd hd (Nat.not_lt_zero d)
  | succ m ih =>
    rw [fillRows_succ]
    obtain ⟨_, _, h3⟩ := fillRows_inner N m f N (fillRows m N f res)
    rw [h3]
    rcases Nat.lt_succ_iff_lt_or_eq.mp hd with hlt | heq
    · have hle : (d + 1) * N ≤ m * N := Nat.mul_le_mul_right N hlt
      have hexp : (d + 1) * N = d * N + N := by ring
      rw [if_neg (by omega)]
      exact ih hlt
    · subst heq
      rw [if_pos ⟨by omega, by omega, hc⟩]
      have : d * N + j - d * N = j := by omega
      rw [this]

end FillRows

theorem curveBinormal_unit {T : Type} [LinearOrderedField T] (sqrt : T → T) (r1 r2 : Vec3 T)
    (hc : r1.cross r2 ≠ Vec3.zero)
    (hs1 : sqrt ((r1.cross r2).dot (r1.cross r2)) * sqrt ((r1.cross r2).dot (r1.cross r2))
      = (r1.cross r2).dot (r1.cross r2)) :
    (curveBinormal sqrt r1 r2).dot (curveBinormal sqrt r1 r2) = 1 := by
  have hcc := Vec3.dot_self_pos _ hc
  unfold curveBinormal Vec3.norm
  rw [Vec3.dot_div_left, Vec3.dot_div_right, div_div, hs1]
  exact div_self (ne_of_gt hcc)

theorem cardinality_div_dim {T : Type} (u : gsFeSpace T) (h : 0 < u.dim) :
    u.cardinality / u.dim = u.data.actives.length := by
  unfold gsFeSpace.cardinality
  exact Nat.mul_div_cancel_left _ h

theorem compute_loop {T : Type} [Field T] (sqrt : T → T)
    (v : gsG1ASVisitorResidualSeminormH1 T) (jacobian : Nat → gsMatrix T)
    (quWeights : List T) (m : Nat) :
    (forLoop m (gsG1ASVisitorResidualSeminormH1.computeStep sqrt jacobian quWeights)
        (v, 0)).1.f1ders = v.f1ders ∧
    (forLoop m (gsG1ASVisitorResidualSeminormH1.computeStep sqrt jacobian quWeights)
        (v, 0)).1.f2ders = v.f2ders ∧
    (forLoop m (gsG1ASVisitorResidualSeminormH1.computeStep sqrt jacobian quWeights)
        (v, 0)).2
      = ∑ k in Finset.range m,
          quWeights.getD k 0 * sqrt ((jacobian k).transpose.mul (jacobian k)).determinant
            * ((v.f1ders.col k).sub (v.f2ders.col k)).squaredNorm := by
  induction m with
  | zero => simp [forLoop_zero]
  | succ m ih =>
    obtain ⟨h1, h2, h3⟩ := ih
    rw [forLoop_succ, Finset.sum_range_succ, ← h3]
    refine ⟨h1, h2, ?_⟩
    simp only [gsG1ASVisitorResidualSeminormH1.computeStep, h1, h2]

theorem quad_hasDerivAt_zero (a b c : ℝ) :
    HasDerivAt (fun ε : ℝ => a + b * ε + c * ε ^ 2) b 0 := by
  have h1 := (hasDerivAt_id (0 : ℝ)).const_mul b
  have h2 := ((hasDerivAt_id (0 : ℝ)).pow 2).const_mul c
  have h := ((hasDerivAt_const (0 : ℝ) a).add h1).add h2
  convert h using 1
  simp

theorem div_sqrt_hasDerivAt (f q : ℝ → ℝ) (f' q' : ℝ) (hf : HasDerivAt f f' 0)
    (hq : HasDerivAt q q' 0) (hq0 : 0 < q 0) :
    HasDerivAt (fun ε => f ε / Real.sqrt (q ε))
      ((f' * Real.sqrt (q 0) - f 0 * (q' / (2 * Real.sqrt (q 0)))) / (Real.sqrt (q 0)) ^ 2) 0 :=
  hf.div (hq.sqrt (ne_of_gt hq0)) (ne_of_gt (Real.sqrt_pos.mpr hq0))

theorem quotient_hasDerivAt (a b c cx cy cz δx δy δz ex ey ez : ℝ)
    (hpos : 0 < cx * cx + cy * cy + cz * cz) :
    HasDerivAt
      (fun ε : ℝ => (a + b * ε + c * ε ^ 2) / Real.sqrt
        ((cx + δx * ε + ex * ε ^ 2) * (cx + δx * ε + ex * ε ^ 2)
          + (cy + δy * ε + ey * ε ^ 2) * (cy + δy * ε + ey * ε ^ 2)
          + (cz + δz * ε + ez * ε ^ 2) * (cz + δz * ε + ez * ε ^ 2)))
      ((b * Real.sqrt (cx * cx + cy * cy + cz * cz)
          - a * ((cx * δx + cy * δy + cz * δz) / Real.sqrt (cx * cx + cy * cy + cz * cz)))
        / (Real.sqrt (cx * cx + cy * cy + cz * cz)) ^ 2) 0 := by
  have ha := quad_hasDerivAt_zero a b c
  have hx := quad_hasDerivAt_zero cx δx ex
  have hy := quad_hasDerivAt_zero cy δy ey
  have hz := quad_hasDerivAt_zero cz δz ez
  have hq := ((hx.mul hx).add (hy.mul hy)).add (hz.mul hz)
  have h := div_sqrt_hasDerivAt _ _ _ _ ha hq (by simpa using hpos)
  have hs : Real.sqrt (cx * cx + cy * cy + cz * cz) ≠ 0 := ne_of_gt (Real.sqrt_pos.mpr hpos)
  convert h using 1
  simp only [Pi.add_apply, Pi.mul_apply, mul_zero, add_zero, ne_eq, OfNat.ofNat_ne_zero,
    not_false_eq_true, zero_pow]
  field_simp
  ring

theorem tensorB_row0 (s cx cy cz δx δy δz : ℝ) (hs : s ≠ 0) :
    (1 - cx / s * (cx / s)) / s * δx + (0 - cx / s * (cy / s)) / s * δy
        + (0 - cx / s * (cz / s)) / s * δz
      = (δx * s - cx * ((cx * δx + cy * δy + cz * δz) / s)) / s ^ 2 := by
  field_simp
  ring

theorem tensorB_row1 (s cx cy cz δx δy δz : ℝ) (hs : s ≠ 0) :
    (0 - cy / s * (cx / s)) / s * δx + (1 - cy / s * (cy / s)) / s * δy
        + (0 - cy / s * (cz / s)) / s * δz
      = (δy * s - cy * ((cx * δx + cy * δy + cz * δz) / s)) / s ^ 2 := by
  field_simp
  ring

theorem tensorB_row2 (s cx cy cz δx δy δz : ℝ) (hs : s ≠ 0) :
    (0 - cz / s * (cx / s)) / s * δx + (0 - cz / s * (cy / s)) / s * δy
        + (1 - cz / s * (cz / s)) / s * δz
      = (δz * s - cz * ((cx * δx + cy * δy + cz * δz) / s)) / s ^ 2 := by
  field_simp
  ring

theorem perturbed_cross (r1 r2 d1 d2 : Vec3 ℝ) (ε : ℝ) :
    (r1.add (Vec3.smul ε d1)).cross (r2.add (Vec3.smul ε d2))
      = ⟨(r1.cross r2).x + ((d1.cross r2).add (r1.cross d2)).x * ε + (d1.cross d2).x * ε ^ 2,
         (r1.cross r2).y + ((d1.cross r2).add (r1.cross d2)).y * ε + (d1.cross d2).y * ε ^ 2,
         (r1.cross r2).z + ((d1.cross r2).add (r1.cross d2)).z * ε + (d1.cross d2).z * ε ^ 2⟩ := by
  simp only [Vec3.add, Vec3.smul, Vec3.cross, Vec3.mk.injEq]
  refine ⟨?_, ?_, ?_⟩ <;> ring

theorem curveBinormal_hasDerivAt (r1 r2 d1 d2 : Vec3 ℝ) (hc : r1.cross r2 ≠ Vec3.zero)
    (i : Nat) :
    HasDerivAt
      (fun ε : ℝ =>
        (curveBinormal Real.sqrt (r1.add (Vec3.smul ε d1)) (r2.add (Vec3.smul ε d2))).get i)
      (((curveB Real.sqrt r1 r2).mulVec ((d1.cross r2).add (r1.cross d2))).get i) 0 := by
  have hcc : 0 < (r1.cross r2).x * (r1.cross r2).x + (r1.cross r2).y * (r1.cross r2).y
      + (r1.cross r2).z * (r1.cross r2).z := Vec3.dot_self_pos _ hc
  have hs : Real.sqrt ((r1.cross r2).x * (r1.cross r2).x + (r1.cross r2).y * (r1.cross r2).y
      + (r1.cross r2).z * (r1.cross r2).z) ≠ 0 := ne_of_gt (Real.sqrt_pos.mpr hcc)
  match i with
  | 0 =>
    have h := quotient_hasDerivAt (r1.cross r2).x ((d1.cross r2).add (r1.cross d2)).x
      (d1.cross d2).x (r1.cross r2).x (r1.cross r2).y (r1.cross r2).z
      ((d1.cross r2).add (r1.cross d2)).x ((d1.cross r2).add (r1.cross d2)).y
      ((d1.cross r2).add (r1.cross d2)).z (d1.cross d2).x (d1.cross d2).y (d1.cross d2).z hcc
    refine (h.congr_of_eventuallyEq (Filter.Eventually.of_forall fun ε => ?_)).congr_deriv ?_
    · show (curveBinormal Real.sqrt (r1.add (Vec3.smul ε d1)) (r2.add (Vec3.smul ε d2))).get 0
        = _
      unfold curveBinormal
      rw [perturbed_cross]
      rfl
    · exact (tensorB_row0 _ _ _ _ _ _ _ hs).symm
  | 1 =>
    have h := quotient_hasDerivAt (r1.cross r2).y ((d1.cross r2).add (r1.cross d2)).y
      (d1.cross d2).y (r1.cross r2).x (r1.cross r2).y (r1.cross r2).z
      ((d1.cross r2).add (r1.cross d2)).x ((d1.cross r2).add (r1.cross d2)).y
      ((d1.cross r2).add (r1.cross d2)).z (d1.cross d2).x (d1.cross d2).y (d1.cross d2).z hcc
    refine (h.congr_of_eventuallyEq (Filter.Eventually.of_forall fun ε => ?_)).congr_deriv ?_
    · show (curveBinormal Real.sqrt (r1.add (Vec3.smul ε d1)) (r2.add (Vec3.smul ε d2))).get 1
        = _
      unfold curveBinormal
      rw [perturbed_cross]
      rfl
    · exact (tensorB_row1 _ _ _ _ _ _ _ hs).symm
  | 2 =>
    have h := quotient_hasDerivAt (r1.cross r2).z ((d1.cross r2).add (r1.cross d2)).z
      (d1.cross d2).z (r1.cross r2).x (r1.cross r2).y (r1.cross r2).z
      ((d1.cross r2).add (r1.cross d2)).x ((d1.cross r2).add (r1.cross d2)).y
      ((d1.cross r2).add (r1.cross d2)).z (d1.cross d2).x (d1.cross d2).y (d1.cross d2).z hcc
    refine (h.congr_of_eventuallyEq (Filter.Eventually.of_forall fun ε => ?_)).congr_deriv ?_
    · show (curveBinormal Real.sqrt (r1.add (Vec3.smul ε d1)) (r2.add (Vec3.smul ε d2))).get 2
        = _
      unfold curveBinormal
      rw [perturbed_cross]
      rfl
    · exact (tensorB_row2 _ _ _ _ _ _ _ hs).symm
  | i + 3 =>
    have h0 : ∀ (v : Vec3 ℝ), v.get (i + 3) = 0 := by
      intro v
      simp [Vec3.get]
    simp only [h0]
    exact hasDerivAt_const _ _

theorem curveB_symm [Field T] (sqrt : T → T) (r1 r2 : Vec3 T) :
    (curveB sqrt r1 r2).transpose = curveB sqrt r1 r2 := by
  unfold curveB
  generalize curveBinormal sqrt r1 r2 = b
  generalize (r1.cross r2).norm sqrt = s
  simp only [Mat3.transpose, Mat3.div, Mat3.sub, Mat3.outer, Mat3.identity, Vec3.div,
    Mat3.mk.injEq, Vec3.mk.injEq]
  refine ⟨⟨trivial, ?_, ?_⟩, ⟨?_, trivial, ?_⟩, ⟨?_, ?_, trivial⟩⟩ <;> ring

theorem curveB_mulVec_binormal [Field T] (sqrt : T → T) (r1 r2 : Vec3 T)
    (hbb : (curveBinormal sqrt r1 r2).dot (curveBinormal sqrt r1 r2) = 1) :
    (curveB sqrt r1 r2).mulVec (curveBinormal sqrt r1 r2) = Vec3.zero := by
  unfold curveB
  revert hbb
  generalize curveBinormal sqrt r1 r2 = b
  generalize (r1.cross r2).norm sqrt = s
  intro hbb
  simp only [Vec3.dot] at hbb
  simp only [Mat3.mulVec, Mat3.div, Mat3.sub, Mat3.outer, Mat3.identity, Vec3.div, Vec3.dot,
    Vec3.zero, Vec3.mk.injEq]
  refine ⟨?_, ?_, ?_⟩
  · have h : (1 - b.x * b.x) / s * b.x + (0 - b.x * b.y) / s * b.y + (0 - b.x * b.z) / s * b.z
        = b.x * (1 - (b.x * b.x + b.y * b.y + b.z * b.z)) / s := by ring
    rw [h, hbb]; simp
  · have h : (0 - b.y * b.x) / s * b.x + (1 - b.y * b.y) / s * b.y + (0 - b.y * b.z) / s * b.z
        = b.y * (1 - (b.x * b.x + b.y * b.y + b.z * b.z)) / s := by ring
    rw [h, hbb]; simp
  · have h : (0 - b.z * b.x) / s * b.x + (0 - b.z * b.y) / s * b.y + (1 - b.z * b.z) / s * b.z
        = b.z * (1 - (b.x * b.x + b.y * b.y + b.z * b.z)) / s := by ring
    rw [h, hbb]; simp

theorem curveB_mulVec_dot [Field T] (sqrt : T → T) (r1 r2 v : Vec3 T)
    (hbb : (curveBinormal sqrt r1 r2).dot (curveBinormal sqrt r1 r2) = 1) :
    ((curveB sqrt r1 r2).mulVec v).dot (curveBinormal sqrt r1 r2) = 0 := by
  unfold curveB
  revert hbb
  generalize curveBinormal sqrt r1 r2 = b
  generalize (r1.cross r2).norm sqrt = s
  intro hbb
  simp only [Vec3.dot] at hbb
  simp only [Mat3.mulVec, Mat3.div, Mat3.sub, Mat3.outer, Mat3.identity, Vec3.div, Vec3.dot]
  have h : ((1 - b.x * b.x) / s * v.x + (0 - b.x * b.y) / s * v.y + (0 - b.x * b.z) / s * v.z)
          * b.x
        + ((0 - b.y * b.x) / s * v.x + (1 - b.y * b.y) / s * v.y + (0 - b.y * b.z) / s * v.z)
          * b.y
        + ((0 - b.z * b.x) / s * v.x + (0 - b.z * b.y) / s * v.y + (1 - b.z * b.z) / s * v.z)
          * b.z
      = (b.x * v.x + b.y * v.y + b.z * v.z)
          * (1 - (b.x * b.x + b.y * b.y + b.z * b.z)) / s := by ring
  rw [h, hbb]; simp

theorem coeff_scatterFull_row [AddCommMonoid T] (g : Nat → Nat) (L : Nat → Nat → T) (i m : Nat)
    (sys : gsSparseMatrix T) (r c : Nat) :
    (forLoop m (fun j sys => gsSparseMatrix.coeffRefAdd sys (g i) (g j) (L i j)) sys).coeff r c
      = sys.coeff r c
        + ∑ j in Finset.range m, (if g i = r ∧ g j = c then L i j else 0) := by
  induction m with
  | zero => simp [forLoop_zero]
  | succ m ih =>
    rw [forLoop_succ, Finset.sum_range_succ, ← add_assoc, ← ih, coeff_coeffRefAdd]
    congr 1
    by_cases h : r = g i ∧ c = g m
    · obtain ⟨h1, h2⟩ := h
      subst h1; subst h2
      simp
    · rw [if_neg h, if_neg]
      rintro ⟨h1, h2⟩
      exact h ⟨h1.symm, h2.symm⟩

theorem coeff_scatterFull_rows [AddCommMonoid T] (g : Nat → Nat) (L : Nat → Nat → T) (n m : Nat)
    (sys : gsSparseMatrix T) (r c : Nat) :
    (forLoop m (fun i sys =>
        forLoop n (fun j sys => gsSparseMatrix.coeffRefAdd sys (g i) (g j) (L i j)) sys)
        sys).coeff r c
      = sys.coeff r c
        + ∑ i in Finset.range m, ∑ j in Finset.range n,
            (if g i = r ∧ g j = c then L i j else 0) := by
  induction m with
  | zero => simp [forLoop_zero]
  | succ m ih =>
    rw [forLoop_succ, coeff_scatterFull_row, ih, Finset.sum_range_succ, add_assoc]

theorem coeff_scatterFull [AddCommMonoid T] (actives : List Nat) (localMat : gsMatrix T)
    (sys : gsSparseMatrix T) (r c : Nat) :
    (scatterFull actives localMat sys).coeff r c
      = sys.coeff r c
        + fullSum (fun k => actives.getD k 0) localMat.coeff actives.length r c :=
  coeff_scatterFull_rows (fun k => actives.getD k 0) localMat.coeff actives.length
    actives.length sys r c

theorem scatterSum_eq_fullSum [AddCommMonoid T] (g : Nat → Nat) (L : Nat → Nat → T) (n : Nat)
    (r c : Nat) :
    scatterSum g L n r c = if c ≤ r then fullSum g L n r c else 0 := by
  unfold scatterSum fullSum
  by_cases h : c ≤ r
  · rw [if_pos h]
    apply Finset.sum_congr rfl
    intro i _
    apply Finset.sum_congr rfl
    intro j _
    by_cases h2 : g i = r ∧ g j = c
    · rw [if_pos h2, if_pos ⟨h2.1, h2.2, by rw [h2.1, h2.2]; exact h⟩]
    · rw [if_neg h2, if_neg (fun h3 => h2 ⟨h3.1, h3.2.1⟩)]
  · rw [if_neg h]
    apply Finset.sum_eq_zero
    intro i _
    apply Finset.sum_eq_zero
    intro j _
    rw [if_neg]
    rintro ⟨h1, h2, h3⟩
    rw [h1, h2] at h3
    exact h h3

theorem fullSum_symm [AddCommMonoid T] (g : Nat → Nat) (L : Nat → Nat → T) (n : Nat)
    (hL : ∀ i j, i < n → j < n → L i j = L j i) (r c : Nat) :
    fullSum g L n r c = fullSum g L n c r := by
  unfold fullSum
  rw [Finset.sum_comm]
  apply Finset.sum_congr rfl
  intro i hi
  apply Finset.sum_congr rfl
  intro j hj
  rw [hL j i (Finset.mem_range.mp hj) (Finset.mem_range.mp hi)]
  by_cases h : g i = c ∧ g j = r
  · rw [if_pos h, if_pos ⟨h.2, h.1⟩]
  · rw [if_neg h, if_neg (fun h3 => h ⟨h3.2, h3.1⟩)]

theorem quad_sum_swap [CommSemiring T] (n n' m : Nat) (c : Nat → T)
    (g : Nat → Nat → Nat → T) (x : Nat → T) :
    ∑ i in Finset.range n, ∑ j in Finset.range n',
        x i * (∑ k in Finset.range m, c k * g k i j) * x j
      = ∑ k in Finset.range m,
          c k * ∑ i in Finset.range n, ∑ j in Finset.range n', x i * g k i j * x j := by
  have h1 : ∀ i j, x i * (∑ k in Finset.range m, c k * g k i j) * x j
      = ∑ k in Finset.range m, c k * (x i * g k i j * x j) := by
    intro i j
    rw [Finset.mul_sum, Finset.sum_mul]
    apply Finset.sum_congr rfl
    intro k _
    ring
  simp only [h1]
  have h2 : ∀ i, ∑ j in Finset.range n', ∑ k in Finset.range m, c k * (x i * g k i j * x j)
      = ∑ k in Finset.range m, ∑ j in Finset.range n', c k * (x i * g k i j * x j) :=
    fun i => Finset.sum_comm
  simp only [h2]
  rw [Finset.sum_comm]
  apply Finset.sum_congr rfl
  intro k _
  rw [Finset.mul_sum]
  apply Finset.sum_congr rfl
  intro i _
  rw [Finset.mul_sum]

theorem quad_gram [CommSemiring T] (n D : Nat) (P : Nat → Nat → T) (x : Nat → T) :
    ∑ i in Finset.range n, ∑ j in Finset.range n,
        x i * (∑ d in Finset.range D, P d i * P d j) * x j
      = ∑ d in Finset.range D,
          (∑ i in Finset.range n, P d i * x i) * (∑ i in Finset.range n, P d i * x i) := by
  have h := quad_sum_swap n n D (fun _ => (1 : T)) (fun d i j => P d i * P d j) x
  simp only [one_mul] at h
  rw [h]
  apply Finset.sum_congr rfl
  intro d _
  rw [Finset.sum_mul_sum]
  apply Finset.sum_congr rfl
  intro i _
  apply Finset.sum_congr rfl
  intro j _
  ring
theorem exLocalMat3_symm (i j : Nat) : exLocalMat3.coeff i j = exLocalMat3.coeff j i := by
  show (if i = j then (4 : ℤ) else -((i + j : Nat) : ℤ))
    = (if j = i then (4 : ℤ) else -((j + i : Nat) : ℤ))
  by_cases h : i = j
  · rw [if_pos h, if_pos h.symm]
  · rw [if_neg h, if_neg (fun h2 => h h2.symm), Nat.add_comm]

theorem flipBoxesStep_other (dirMap : Nat → Nat) (dirOrient : Nat → Bool)
    (upperCorn1 : Nat → Nat) (e i jj : Nat) (st : BoxMatrix × BoxMatrix) (a b : Nat)
    (h : ¬ (a = i ∧ b = dirMap jj)) :
    (flipBoxesStep dirMap dirOrient upperCorn1 e i jj st).1 a b = st.1 a b ∧
    (flipBoxesStep dirMap dirOrient upperCorn1 e i jj st).2 a b = st.2 a b := by
  unfold flipBoxesStep
  cases dirOrient jj <;> simp [setEntry, h]

theorem flipBoxesStep_at (dirMap : Nat → Nat) (dirOrient : Nat → Bool)
    (upperCorn1 : Nat → Nat) (e i jj : Nat) (st : BoxMatrix × BoxMatrix) :
    (flipBoxesStep dirMap dirOrient upperCorn1 e i jj st).1 i (dirMap jj)
      = (if dirOrient jj then ushl (st.1 i (dirMap jj)) e
         else usub (upperCorn1 (dirMap jj)) (ushl (st.2 i (dirMap jj)) e)) ∧
    (flipBoxesStep dirMap dirOrient upperCorn1 e i jj st).2 i (dirMap jj)
      = (if dirOrient jj then ushl (st.2 i (dirMap jj)) e
         else usub (upperCorn1 (dirMap jj)) (ushl (st.1 i (dirMap jj)) e)) := by
  unfold flipBoxesStep
  cases dirOrient jj <;> simp [setEntry]

theorem flipBoxes_inner_other (dirMap : Nat → Nat) (dirOrient : Nat → Bool)
    (upperCorn1 : Nat → Nat) (e i : Nat) (st : BoxMatrix × BoxMatrix) (a b : Nat) (m : Nat)
    (h : ∀ jj, jj < m → ¬ (a = i ∧ b = dirMap jj)) :
    (forLoop m (fun jj st => flipBoxesStep dirMap dirOrient upperCorn1 e i jj st) st).1 a b
      = st.1 a b ∧
    (forLoop m (fun jj st => flipBoxesStep dirMap dirOrient upperCorn1 e i jj st) st).2 a b
      = st.2 a b := by
  induction m with
  | zero => exact ⟨rfl, rfl⟩
  | succ m ih =>
    rw [forLoop_succ]
    have h1 := flipBoxesStep_other dirMap dirOrient upperCorn1 e i m
      (forLoop m (fun jj st => flipBoxesStep dirMap dirOrient upperCorn1 e i jj st) st) a b
      (h m (Nat.lt_succ_self m))
    have h2 := ih (fun jj hjj => h jj (Nat.lt_succ_of_lt hjj))
    exact ⟨h1.1.trans h2.1, h1.2.trans h2.2⟩

theorem flipBoxes_inner_at (dim : Nat) (dirMap : Nat → Nat) (dirOrient : Nat → Bool)
    (upperCorn1 : Nat → Nat) (e i : Nat) (st : BoxMatrix × BoxMatrix)
    (hinj : ∀ a b, a < dim → b < dim → dirMap a = dirMap b → a = b)
    (m : Nat) (hm : m ≤ dim) (jj : Nat) (hjj : jj < m) :
    (forLoop m (fun jj st => flipBoxesStep dirMap dirOrient upperCorn1 e i jj st) st).1
        i (dirMap jj)
      = (if dirOrient jj then ushl (st.1 i (dirMap jj)) e
         else usub (upperCorn1 (dirMap jj)) (ushl (st.2 i (dirMap jj)) e)) ∧
    (forLoop m (fun jj st => flipBoxesStep dirMap dirOrient upperCorn1 e i jj st) st).2
        i (dirMap jj)
      = (if dirOrient jj then ushl (st.2 i (dirMap jj)) e
         else usub (upperCorn1 (dirMap jj)) (ushl (st.1 i (dirMap jj)) e)) := by
  induction m with
  | zero => exact absurd hjj (Nat.not_lt_zero jj)
  | succ m ih =>
    rw [forLoop_succ]
    by_cases hlast : jj = m
    · subst hlast
      have hprev := flipBoxes_inner_other dirMap dirOrient upperCorn1 e i st i (dirMap jj) jj
        (fun j' hj' hc => absurd (hinj jj j' (Nat.lt_of_succ_le hm)
          (Nat.lt_of_lt_of_le (Nat.lt_succ_of_lt hj') hm) hc.2) (Nat.ne_of_gt hj'))
      have hat := flipBoxesStep_at dirMap dirOrient upperCorn1 e i jj
        (forLoop jj (fun jj st => flipBoxesStep dirMap dirOrient upperCorn1 e i jj st) st)
      rw [hprev.1, hprev.2] at hat
      exact hat
    · have hlt : jj < m := Nat.lt_of_le_of_ne (Nat.le_of_lt_succ hjj) hlast
      have hother := flipBoxesStep_other dirMap dirOrient upperCorn1 e i m
        (forLoop m (fun jj st => flipBoxesStep dirMap dirOrient upperCorn1 e i jj st) st)
        i (dirMap jj)
        (fun hc => hlast (hinj jj m (Nat.lt_of_lt_of_le hjj hm) (Nat.lt_of_succ_le hm) hc.2))
      have h2 := ih (Nat.le_of_succ_le hm) hlt
      exact ⟨hother.1.trans h2.1, hother.2.trans h2.2⟩

theorem flipBoxes_outer_other (dim : Nat) (dirMap : Nat → Nat) (dirOrient : Nat → Bool)
    (upperCorn1 : Nat → Nat) (e : Nat) (st : BoxMatrix × BoxMatrix) (a b : Nat) (m : Nat)
    (h : m ≤ a) :
    (forLoop m (fun i st =>
        forLoop dim (fun jj st => flipBoxesStep dirMap dirOrient upperCorn1 e i jj st) st)
        st).1 a b = st.1 a b ∧
    (forLoop m (fun i st =>
        forLoop dim (fun jj st => flipBoxesStep dirMap dirOrient upperCorn1 e i jj st) st)
        st).2 a b = st.2 a b := by
  induction m with
  | zero => exact ⟨rfl, rfl⟩
  | succ m ih =>
    rw [forLoop_succ]
    have h1 := flipBoxes_inner_other dirMap dirOrient upperCorn1 e m
      (forLoop m (fun i st =>
        forLoop dim (fun jj st => flipBoxesStep dirMap dirOrient upperCorn1 e i jj st) st) st)
      a b dim (fun jj _ hc => absurd hc.1 (Nat.ne_of_gt (Nat.lt_of_succ_le h)))
    have h2 := ih (Nat.le_of_succ_le h)
    exact ⟨h1.1.trans h2.1, h1.2.trans h2.2⟩

theorem flipBoxesSecond_at (dim rows : Nat) (dirMap : Nat → Nat) (dirOrient : Nat → Bool)
    (upperCorn1 : Nat → Nat) (e : Nat) (lo1 up1 : BoxMatrix)
    (hinj : ∀ a b, a < dim → b < dim → dirMap a = dirMap b → a = b)
    (i jj : Nat) (hi : i < rows) (hjj : jj < dim) :
    (flipBoxesSecond dim rows dirMap dirOrient upperCorn1 e lo1 up1).1 i (dirMap jj)
      = (if dirOrient jj then ushl (lo1 i (dirMap jj)) e
         else usub (upperCorn1 (dirMap jj)) (ushl (up1 i (dirMap jj)) e)) ∧
    (flipBoxesSecond dim rows dirMap dirOrient upperCorn1 e lo1 up1).2 i (dirMap jj)
      = (if dirOrient jj then ushl (up1 i (dirMap jj)) e
         else usub (upperCorn1 (dirMap jj)) (ushl (lo1 i (dirMap jj)) e)) := by
  unfold flipBoxesSecond
  induction rows with
  | zero => exact absurd hi (Nat.not_lt_zero i)
  | succ m ih =>
    rw [forLoop_succ]
    by_cases hlast : i = m
    · subst hlast
      have hprev := fun b => flipBoxes_outer_other dim dirMap dirOrient upperCorn1 e (lo1, up1)
        i b i (Nat.le_refl i)
      have hat := flipBoxes_inner_at dim dirMap dirOrient upperCorn1 e i
        (forLoop i (fun i st =>
          forLoop dim (fun jj st => flipBoxesStep dirMap dirOrient upperCorn1 e i jj st) st)
          (lo1, up1)) hinj dim (Nat.le_refl dim) jj hjj
      rw [(hprev (dirMap jj)).1, (hprev (dirMap jj)).2] at hat
      exact hat
    · have hlt : i < m := Nat.lt_of_le_of_ne (Nat.le_of_lt_succ hi) hlast
      have hother := flipBoxes_inner_other dirMap dirOrient upperCorn1 e m
        (forLoop m (fun i st =>
          forLoop dim (fun jj st => flipBoxesStep dirMap dirOrient upperCorn1 e i jj st) st)
          (lo1, up1)) i (dirMap jj) dim (fun _ _ hc => hlast hc.1)
      have h2 := ih hlt
      exact ⟨hother.1.trans h2.1, hother.2.trans h2.2⟩

theorem shiftBoxesFirst_eq (dim rows e : Nat) (lo0 up0 : BoxMatrix) :
    shiftBoxesFirst dim rows e lo0 up0
      = flipBoxesSecond dim rows (fun j => j) (fun _ => true) (fun _ => 0) e lo0 up0 := by
  unfold shiftBoxesFirst flipBoxesSecond flipBoxesStep
  simp

theorem msizesBody_stuck (acc : List Int) :
    msizesBody 10 (3 / 2) (1, acc) = ((1, acc ++ [1]), true) := by
  have h1 : ((1 : Int) : ℚ) ≤ ((min 10 indexMax : Int) : ℚ) / ((3 / 2) * (3 / 2)) := by
    decide!
  have h2 : toIndex (((1 : Int) : ℚ) * (3 / 2)) = 1 := by decide!
  unfold msizesBody
  simp only [h2]
  rw [if_pos h1]

theorem vsizesBody_stuck (acc : List Int) :
    vsizesBody 10 (3 / 2) (1, acc) = ((1, acc ++ [1]), true) := by
  have h1 : ((1 : Int) : ℚ) ≤ ((min 10 indexMax : Int) : ℚ) / (3 / 2) := by
    decide!
  have h2 : toIndex (((1 : Int) : ℚ) * (3 / 2)) = 1 := by decide!
  unfold vsizesBody
  simp only [h2]
  rw [if_pos h1]

theorem defaultAsizes_loop (asizesmin : Int) (n : Nat) :
    forLoop n (fun k (asizes : List Int) => asizes ++ [asizesmin + k]) []
      = (List.range n).map (fun (k : Nat) => asizesmin + (k : Int)) := by
  induction n with
  | zero => rfl
  | succ n ih => rw [forLoop_succ, ih, List.range_succ, List.map_append]; rfl
theorem exDirMapSwap_inj (a b : Nat) (ha : a < 2) (hb : b < 2)
    (h : exDirMapSwap a = exDirMapSwap b) : a = b := by
  unfold exDirMapSwap at h
  omega

theorem evaluateSide_inner [Zero T] [Add T] [Mul T] (c : Nat → T) (bGrads : gsMatrix T)
    (n : Nat) (st : gsMatrix T × List ColumnAccess) :
    (forLoop n (fun j (st : gsMatrix T × List ColumnAccess) =>
        (st.1.addAssign (gsMatrix.smul (c j) (bGrads.block (2 * j) 0 2 st.1.cols)),
         st.2 ++ [ColumnAccess.mk 0 st.1.cols bGrads.cols])) st).1.cols = st.1.cols ∧
    (forLoop n (fun j (st : gsMatrix T × List ColumnAccess) =>
        (st.1.addAssign (gsMatrix.smul (c j) (bGrads.block (2 * j) 0 2 st.1.cols)),
         st.2 ++ [ColumnAccess.mk 0 st.1.cols bGrads.cols])) st).2
      = st.2 ++ List.replicate n (ColumnAccess.mk 0 st.1.cols bGrads.cols) := by
  induction n with
  | zero => simp [forLoop_zero]
  | succ n ih =>
    rw [forLoop_succ]
    obtain ⟨h1, h2⟩ := ih
    refine ⟨h1, ?_⟩
    show _ ++ [ColumnAccess.mk 0 _ bGrads.cols] = _
    rw [h1, h2, List.replicate_succ', List.append_assoc]

theorem evaluateSide_log [Zero T] [Add T] [Mul T] (sol : gsSparseMatrix T)
    (solRows offset : Nat) (actives : List Nat) (bGrads : gsMatrix T) :
    (gsG1ASVisitorResidualSeminormH1.evaluateSide sol solRows offset actives bGrads).1.cols
      = actives.length ∧
    (gsG1ASVisitorResidualSeminormH1.evaluateSide sol solRows offset actives bGrads).2
      = List.replicate (solRows * actives.length)
          (ColumnAccess.mk 0 actives.length bGrads.cols) := by
  unfold gsG1ASVisitorResidualSeminormH1.evaluateSide
  induction solRows with
  | zero => simp [forLoop_zero, gsMatrix.zero]
  | succ m ih =>
    rw [forLoop_succ]
    obtain ⟨h1, h2⟩ := ih
    have h := evaluateSide_inner
      (fun j => gsSparseMatrix.coeff sol m (offset + actives.getD j 0)) bGrads actives.length
      (forLoop m (fun i (st : gsMatrix T × List ColumnAccess) =>
        forLoop actives.length (fun j (st : gsMatrix T × List ColumnAccess) =>
          (st.1.addAssign
              (gsMatrix.smul (gsSparseMatrix.coeff sol i (offset + actives.getD j 0))
                (bGrads.block (2 * j) 0 2 st.1.cols)),
           st.2 ++ [ColumnAccess.mk 0 st.1.cols bGrads.cols])) st)
        (gsMatrix.zero 2 actives.length, []))
    refine ⟨h.1.trans h1, ?_⟩
    rw [h.2, h1, h2, ← List.replicate_add, Nat.succ_mul]

theorem evaluateSide_inRange [Zero T] [Add T] [Mul T] (sol : gsSparseMatrix T)
    (solRows offset : Nat) (actives : List Nat) (bGrads : gsMatrix T) (hs : 0 < solRows) :
    (∀ a ∈ (gsG1ASVisitorResidualSeminormH1.evaluateSide sol solRows offset actives
        bGrads).2, a.inRange = true) ↔ actives.length ≤ bGrads.cols := by
  rw [(evaluateSide_log sol solRows offset actives bGrads).2]
  constructor
  · intro h
    by_cases hn : actives.length = 0
    · omega
    · have := h (ColumnAccess.mk 0 actives.length bGrads.cols)
        (List.mem_replicate.mpr ⟨Nat.mul_ne_zero (Nat.ne_of_gt hs) hn, rfl⟩)
      simpa [ColumnAccess.inRange] using this
  · intro h a ha
    rw [(List.mem_replicate.mp ha).2]
    simpa [ColumnAccess.inRange] using h

theorem computeAccesses_mem (c1 c2 n : Nat) (a : ColumnAccess) :
    a ∈ forLoop n (fun k (acc : List ColumnAccess) =>
        acc ++ [ColumnAccess.mk k 1 c1, ColumnAccess.mk k 1 c2]) []
      ↔ ∃ k, k < n ∧ (a = ColumnAccess.mk k 1 c1 ∨ a = ColumnAccess.mk k 1 c2) := by
  induction n with
  | zero => simp [forLoop_zero]
  | succ n ih =>
    rw [forLoop_succ, List.mem_append, ih]
    constructor
    · rintro (⟨k, hk, h⟩ | h)
      · exact ⟨k, Nat.lt_succ_of_lt hk, h⟩
      · refine ⟨n, Nat.lt_succ_self n, ?_⟩
        simpa using h
    · rintro ⟨k, hk, h⟩
      by_cases hkn : k = n
      · subst hkn
        right
        simpa using h
      · exact Or.inl ⟨k, Nat.lt_of_le_of_ne (Nat.le_of_lt_succ hk) hkn, h⟩

theorem computeAccesses_inRange (v : gsG1ASVisitorResidualSeminormH1 T) (n : Nat) :
    (∀ a ∈ v.computeAccesses n, a.inRange = true)
      ↔ (n ≤ v.f1ders.cols ∧ n ≤ v.f2ders.cols) := by
  unfold gsG1ASVisitorResidualSeminormH1.computeAccesses
  constructor
  · intro h
    by_cases hn : n = 0
    · omega
    · have h1 := h (ColumnAccess.mk (n - 1) 1 v.f1ders.cols)
        ((computeAccesses_mem _ _ n _).mpr ⟨n - 1, by omega, Or.inl rfl⟩)
      have h2 := h (ColumnAccess.mk (n - 1) 1 v.f2ders.cols)
        ((computeAccesses_mem _ _ n _).mpr ⟨n - 1, by omega, Or.inr rfl⟩)
      simp [ColumnAccess.inRange] at h1 h2
      omega
  · rintro ⟨h1, h2⟩ a ha
    obtain ⟨k, hk, rfl | rfl⟩ := (computeAccesses_mem _ _ n a).mp ha
    · simp [ColumnAccess.inRange]; omega
    · simp [ColumnAccess.inRange]; omega

theorem prod_numQuadNodes (basis : gsBasisShape) :
    (numQuadNodes basis).prod = ∏ i in Finset.range basis.dim, (basis.degree i + 1) := by
  rw [numQuadNodes_eq, Finset.prod_range]
  induction basis.dim with
  | zero => rfl
  | succ n ih =>
    rw [List.range_succ, List.map_append, List.prod_append, ih, Fin.prod_univ_castSucc]
    simp

theorem contiguousSpans_tail (a : IntfcRow) (as : List IntfcRow)
    (h : contiguousSpans (a :: as)) : contiguousSpans as :=
  ⟨List.Chain'.tail h.1, fun r hr => h.2 r (List.mem_cons_of_mem a hr)⟩

theorem contiguousSpans_start_ge (as : List IntfcRow) :
    ∀ (a : IntfcRow), contiguousSpans (a :: as) → ∀ r ∈ as, a.2.1 ≤ r.1 := by
  induction as with
  | nil => intro a _ r hr; simp at hr
  | cons b bs ih =>
    intro a h r hr
    have hab : a.2.1 = b.1 := (List.chain'_cons.mp h.1).1
    rcases List.mem_cons.mp hr with rfl | hr'
    · exact le_of_eq hab
    · have h1 := ih b (contiguousSpans_tail a (b :: bs) h) r hr'
      have h2 := h.2 b (List.mem_cons_of_mem a (List.mem_cons_self b bs))
      omega

theorem contiguousSpans_end_gt (a : IntfcRow) (as : List IntfcRow)
    (h : contiguousSpans (a :: as)) (r : IntfcRow) (hr : r ∈ as) : a.2.1 < r.2.1 := by
  have h1 := contiguousSpans_start_ge as a h r hr
  have h2 := h.2 r (List.mem_cons_of_mem a hr)
  omega

theorem contiguousSpans_head_next (a : IntfcRow) (as : List IntfcRow)
    (h : contiguousSpans (a :: as)) : ∀ c ∈ as.head?, c.1 ≤ a.2.1 ∧ a.2.1 < c.2.1 := by
  intro c hc
  cases as with
  | nil => simp at hc
  | cons b bs =>
    simp only [List.head?_cons, Option.mem_def, Option.some.injEq] at hc
    subst hc
    have h1 := contiguousSpans_start_ge (b :: bs) a h b (List.mem_cons_self b bs)
    have h2 := contiguousSpans_end_gt a (b :: bs) h b (List.mem_cons_self b bs)
    exact ⟨by
      have hab : a.2.1 = b.1 := (List.chain'_cons.mp h.1).1
      omega, h2⟩

theorem lastEnd_cons_cons (a b : IntfcRow) (l : List IntfcRow) :
    lastEnd (a :: b :: l) = lastEnd (b :: l) := by
  simp [lastEnd, List.getLast?_cons_cons]

theorem lastEnd_singleton (a : IntfcRow) : lastEnd [a] = some a.2.1 := rfl

theorem lastEnd_eq_none (s : List IntfcRow) (h : lastEnd s = none) : s = [] := by
  cases s with
  | nil => rfl
  | cons a as =>
    exfalso
    induction as generalizing a with
    | nil => exact Option.noConfusion h
    | cons b bs ih => rw [lastEnd_cons_cons] at h; exact ih b h

theorem lastEnd_mem (s : List IntfcRow) (x : Nat) (h : lastEnd s = some x) :
    ∃ r ∈ s, r.2.1 = x := by
  have h1 := List.mem_of_getLast?_eq_some h
  rw [List.mem_map] at h1
  exact h1

theorem lastEnd_consume_both (a b : IntfcRow) (as bs : List IntfcRow)
    (h0 : contiguousSpans (a :: as)) (h1 : contiguousSpans (b :: bs)) (hab : a.2.1 = b.2.1)
    (hl : lastEnd (a :: as) = lastEnd (b :: bs)) : lastEnd as = lastEnd bs := by
  cases as with
  | nil =>
    cases bs with
    | nil => rfl
    | cons b' bs' =>
      rw [lastEnd_cons_cons, lastEnd_singleton] at hl
      obtain ⟨r, hr, hre⟩ := lastEnd_mem _ _ hl.symm
      have := contiguousSpans_end_gt b (b' :: bs') h1 r hr
      omega
  | cons a' as' =>
    cases bs with
    | nil =>
      rw [lastEnd_cons_cons, lastEnd_singleton] at hl
      obtain ⟨r, hr, hre⟩ := lastEnd_mem _ _ hl
      have := contiguousSpans_end_gt a (a' :: as') h0 r hr
      omega
    | cons b' bs' =>
      rw [lastEnd_cons_cons, lastEnd_cons_cons] at hl
      exact hl

theorem lastEnd_consume_one (a b : IntfcRow) (as bs : List IntfcRow)
    (h0 : contiguousSpans (a :: as)) (hlt : b.2.1 < a.2.1)
    (hl : lastEnd (a :: as) = lastEnd (b :: bs)) : lastEnd (a :: as) = lastEnd bs := by
  cases bs with
  | nil =>
    rw [lastEnd_singleton] at hl
    obtain ⟨r, hr, hre⟩ := lastEnd_mem _ _ hl
    rcases List.mem_cons.mp hr with rfl | hr'
    · omega
    · have := contiguousSpans_end_gt a as h0 r hr'
      omega
  | cons b' bs' =>
    rw [lastEnd_cons_cons] at hl
    exact hl

theorem lastEnd_eq_rowAt (l : List IntfcRow) (h : l ≠ []) :
    lastEnd l = some (intfcRowAt l (l.length - 1)).2.1 := by
  unfold lastEnd intfcRowAt
  have hpos : 0 < l.length := List.length_pos.mpr h
  rw [List.getLast?_eq_getElem?, List.length_map,
    List.getElem?_eq_getElem (by rw [List.length_map]; omega),
    List.getD_eq_getElem l _ (by omega), List.getElem_map]

theorem drop_eq_cons_facts (l : List IntfcRow) (i : Nat) (a : IntfcRow) (as : List IntfcRow)
    (h : l.drop i = a :: as) : i < l.length ∧ intfcRowAt l i = a ∧ l.drop (i + 1) = as := by
  have hi : i < l.length := by
    by_contra hc
    rw [List.drop_eq_nil_of_le (Nat.le_of_not_lt hc)] at h
    exact List.noConfusion h
  rw [List.drop_eq_getElem_cons hi] at h
  injection h with h1 h2
  refine ⟨hi, ?_, h2⟩
  unfold intfcRowAt
  rw [List.getD_eq_getElem l _ hi, h1]

theorem mergeLoop_exit (l0 l1 : List IntfcRow) (fuel : Nat) (s : MergeState)
    (h : ¬ (s.i0 < l0.length ∧ s.i1 < l1.length)) : mergeLoop l0 l1 fuel s = some s := by
  cases fuel with
  | zero => unfold mergeLoop; rw [if_neg h]
  | succ f => unfold mergeLoop; rw [if_neg h]

theorem spanLevels_keep (lvl : IntfcRow → Nat) (a : IntfcRow) (as : List IntfcRow) (p : Nat)
    (m0 : IntfcRow) (R : List IntfcRow) (hc : contiguousSpans (a :: as)) (hp : a.1 ≤ p)
    (hpm : p < m0.1) (he : m0.1 < a.2.1) (hl : a.2.2 = lvl m0)
    (ih : spanLevels lvl (a :: as) (mergedSpans m0.1 R)) :
    spanLevels lvl (a :: as) (mergedSpans p (m0 :: R)) := by
  intro qm hqm
  simp only [mergedSpans, List.mem_cons] at hqm
  rcases hqm with rfl | hqm
  · refine ⟨⟨a, List.mem_cons_self a as, hp, le_of_lt he, hl⟩, ?_⟩
    intro r hr h1 h2
    rcases List.mem_cons.mp hr with rfl | hr'
    · exact hl
    · have := contiguousSpans_start_ge as a hc r hr'
      dsimp only at h1 h2
      omega
  · exact ih qm hqm

theorem spanLevels_consume (lvl : IntfcRow → Nat) (a : IntfcRow) (as : List IntfcRow)
    (p : Nat) (m0 : IntfcRow) (R : List IntfcRow) (hc : contiguousSpans (a :: as))
    (hp : a.1 ≤ p) (hp2 : p < a.2.1) (he : m0.1 = a.2.1) (hl : a.2.2 = lvl m0)
    (hsp : ∀ qm ∈ mergedSpans m0.1 R, m0.1 ≤ qm.1 ∧ qm.1 < qm.2.1)
    (ih : spanLevels lvl as (mergedSpans m0.1 R)) :
    spanLevels lvl (a :: as) (mergedSpans p (m0 :: R)) := by
  intro qm hqm
  simp only [mergedSpans, List.mem_cons] at hqm
  rcases hqm with rfl | hqm
  · refine ⟨⟨a, List.mem_cons_self a as, hp, le_of_eq he, hl⟩, ?_⟩
    intro r hr h1 h2
    rcases List.mem_cons.mp hr with rfl | hr'
    · exact hl
    · have := contiguousSpans_start_ge as a hc r hr'
      dsimp only at h1 h2
      omega
  · obtain ⟨⟨r, hr, h1, h2, h3⟩, huniq⟩ := ih qm hqm
    refine ⟨⟨r, List.mem_cons_of_mem a hr, h1, h2, h3⟩, ?_⟩
    intro r' hr' h1' h2'
    rcases List.mem_cons.mp hr' with rfl | hr''
    · have := hsp qm hqm
      omega
    · exact huniq r' hr'' h1' h2'

theorem mergeLoop_spec (l0 l1 : List IntfcRow) :
    ∀ (fuel : Nat) (s0 s1 : List IntfcRow) (i0 i1 : Nat) (acc : List IntfcRow) (p : Nat),
      l0.drop i0 = s0 → l1.drop i1 = s1 → i0 ≤ l0.length → i1 ≤ l1.length →
      s0.length + s1.length ≤ fuel →
      contiguousSpans s0 → contiguousSpans s1 →
      (∀ a ∈ s0.head?, a.1 ≤ p ∧ p < a.2.1) → (∀ b ∈ s1.head?, b.1 ≤ p ∧ p < b.2.1) →
      lastEnd s0 = lastEnd s1 →
      ∃ R, mergeLoop l0 l1 fuel ⟨i0, i1, acc⟩ = some ⟨l0.length, l1.length, acc ++ R⟩ ∧
        (∀ m ∈ R, p < m.1) ∧
        List.Pairwise (fun x y => x < y) (R.map (fun m => m.1)) ∧
        (∀ e, e ∈ R.map (fun m => m.1)
          ↔ e ∈ s0.map (fun r => r.2.1) ∨ e ∈ s1.map (fun r => r.2.1)) ∧
        (∀ qm ∈ mergedSpans p R, p ≤ qm.1 ∧ qm.1 < qm.2.1) ∧
        spanLevels (fun m => m.2.1) s0 (mergedSpans p R) ∧
        spanLevels (fun m => m.2.2) s1 (mergedSpans p R) := by
  intro fuel
  induction fuel with
  | zero =>
    intro s0 s1 i0 i1 acc p hd0 hd1 hi0 hi1 hfuel _ _ _ _ _
    have hs0 : s0 = [] := List.length_eq_zero.mp (by omega)
    have hs1 : s1 = [] := List.length_eq_zero.mp (by omega)
    subst hs0; subst hs1
    have e0 : i0 = l0.length := le_antisymm hi0 (List.drop_eq_nil_iff.mp hd0)
    have e1 : i1 = l1.length := le_antisymm hi1 (List.drop_eq_nil_iff.mp hd1)
    refine ⟨[], ?_, ?_⟩
    · rw [mergeLoop_exit l0 l1 0 _ (by simp [e0]), e0, e1, List.append_nil]
    · simp [mergedSpans, spanLevels]
  | succ f ih =>
    intro s0 s1 i0 i1 acc p hd0 hd1 hi0 hi1 hfuel hc0 hc1 hh0 hh1 hlast
    rcases s0 with _ | ⟨a, as⟩
    · rcases s1 with _ | ⟨b, bs⟩
      · have e0 : i0 = l0.length := le_antisymm hi0 (List.drop_eq_nil_iff.mp hd0)
        have e1 : i1 = l1.length := le_antisymm hi1 (List.drop_eq_nil_iff.mp hd1)
        refine ⟨[], ?_, ?_⟩
        · rw [mergeLoop_exit l0 l1 _ _ (by simp [e0]), e0, e1, List.append_nil]
        · simp [mergedSpans, spanLevels]
      · exact absurd (lastEnd_eq_none _ hlast.symm) (List.cons_ne_nil b bs)
    · rcases s1 with _ | ⟨b, bs⟩
      · exact absurd (lastEnd_eq_none _ hlast) (List.cons_ne_nil a as)
      · obtain ⟨hlt0, hrow0, hdrop0⟩ := drop_eq_cons_facts l0 i0 a as hd0
        obtain ⟨hlt1, hrow1, hdrop1⟩ := drop_eq_cons_facts l1 i1 b bs hd1
        have hpa := hh0 a rfl
        have hpb := hh1 b rfl
        have hlen : as.length + bs.length + 2 ≤ f + 1 := by
          simp only [List.length_cons] at hfuel
          omega
        have hstep : mergeLoop l0 l1 (f + 1) ⟨i0, i1, acc⟩
            = mergeLoop l0 l1 f (mergeBody l0 l1 ⟨i0, i1, acc⟩) := by
          show (if _ then _ else _) = _
          rw [if_pos ⟨hlt0, hlt1⟩]
        rw [hstep]
        rcases Nat.lt_trichotomy a.2.1 b.2.1 with hab | hab | hab
        · have hbody : mergeBody l0 l1 ⟨i0, i1, acc⟩
              = ⟨i0 + 1, i1, acc ++ [(a.2.1, a.2.2, b.2.2)]⟩ := by
            unfold mergeBody
            simp only [hrow0, hrow1]
            rw [if_neg (Nat.ne_of_lt hab), if_neg (Nat.not_lt.mpr (Nat.le_of_lt hab))]
          rw [hbody]
          obtain ⟨R, hR, h1, h2, h3, h4, h5, h6⟩ := ih as (b :: bs) (i0 + 1) i1
            (acc ++ [(a.2.1, a.2.2, b.2.2)]) a.2.1 hdrop0 hd1 hlt0 hi1
            (by simp only [List.length_cons]; omega)
            (contiguousSpans_tail a as hc0) hc1 (contiguousSpans_head_next a as hc0)
            (fun c hc => by
              simp only [List.head?_cons, Option.mem_def, Option.some.injEq] at hc
              subst hc
              exact ⟨by omega, hab⟩)
            (lastEnd_consume_one b a bs as hc1 hab hlast.symm).symm
          refine ⟨(a.2.1, a.2.2, b.2.2) :: R, ?_, ?_, ?_, ?_, ?_, ?_, ?_⟩
          · rw [hR]; simp
          · intro m hm
            rcases List.mem_cons.mp hm with rfl | hm'
            · exact hpa.2
            · have := h1 m hm'
              omega
          · rw [List.map_cons, List.pairwise_cons]
            refine ⟨?_, h2⟩
            intro x hx
            obtain ⟨m, hm, rfl⟩ := List.mem_map.mp hx
            exact h1 m hm
          · intro e
            simp only [List.map_cons, List.mem_cons]
            rw [h3 e]
            simp only [List.map_cons, List.mem_cons]
            tauto
          · intro qm hqm
            simp only [mergedSpans, List.mem_cons] at hqm
            rcases hqm with rfl | hqm
            · exact ⟨le_refl p, hpa.2⟩
            · have := h4 qm hqm
              exact ⟨by omega, this.2⟩
          · exact spanLevels_consume (fun m => m.2.1) a as p (a.2.1, a.2.2, b.2.2) R hc0
              hpa.1 hpa.2 rfl rfl h4 h5
          · exact spanLevels_keep (fun m => m.2.2) b bs p (a.2.1, a.2.2, b.2.2) R hc1
              hpb.1 hpa.2 hab rfl h6
        · have hbody : mergeBody l0 l1 ⟨i0, i1, acc⟩
              = ⟨i0 + 1, i1 + 1, acc ++ [(a.2.1, a.2.2, b.2.2)]⟩ := by
            unfold mergeBody
            simp only [hrow0, hrow1]
            rw [if_pos hab]
          rw [hbody]
          obtain ⟨R, hR, h1, h2, h3, h4, h5, h6⟩ := ih as bs (i0 + 1) (i1 + 1)
            (acc ++ [(a.2.1, a.2.2, b.2.2)]) a.2.1 hdrop0 hdrop1 hlt0 hlt1
            (by omega)
            (contiguousSpans_tail a as hc0) (contiguousSpans_tail b bs hc1)
            (contiguousSpans_head_next a as hc0)
            (by rw [hab]; exact contiguousSpans_head_next b bs hc1)
            (lastEnd_consume_both a b as bs hc0 hc1 hab hlast)
          refine ⟨(a.2.1, a.2.2, b.2.2) :: R, ?_, ?_, ?_, ?_, ?_, ?_, ?_⟩
          · rw [hR]; simp
          · intro m hm
            rcases List.mem_cons.mp hm with rfl | hm'
            · exact hpa.2
            · have := h1 m hm'
              omega
          · rw [List.map_cons, List.pairwise_cons]
            refine ⟨?_, h2⟩
            intro x hx
            obtain ⟨m, hm, rfl⟩ := List.mem_map.mp hx
            exact h1 m hm
          · intro e
            simp only [List.map_cons, List.mem_cons]
            rw [h3 e, ← hab]
            tauto
          · intro qm hqm
            simp only [mergedSpans, List.mem_cons] at hqm
            rcases hqm with rfl | hqm
            · exact ⟨le_refl p, hpa.2⟩
            · have := h4 qm hqm
              exact ⟨by omega, this.2⟩
          · exact spanLevels_consume (fun m => m.2.1) a as p (a.2.1, a.2.2, b.2.2) R hc0
              hpa.1 hpa.2 rfl rfl h4 h5
          · exact spanLevels_consume (fun m => m.2.2) b bs p (a.2.1, a.2.2, b.2.2) R hc1
              hpb.1 hpb.2 hab rfl h4 h6
        · have hbody : mergeBody l0 l1 ⟨i0, i1, acc⟩
              = ⟨i0, i1 + 1, acc ++ [(b.2.1, a.2.2, b.2.2)]⟩ := by
            unfold mergeBody
            simp only [hrow0, hrow1]
            rw [if_neg (Nat.ne_of_gt hab), if_pos hab]
          rw [hbody]
          obtain ⟨R, hR, h1, h2, h3, h4, h5, h6⟩ := ih (a :: as) bs i0 (i1 + 1)
            (acc ++ [(b.2.1, a.2.2, b.2.2)]) b.2.1 hd0 hdrop1 hi0 hlt1
            (by simp only [List.length_cons]; omega)
            hc0 (contiguousSpans_tail b bs hc1)
            (fun c hc => by
              simp only [List.head?_cons, Option.mem_def, Option.some.injEq] at hc
              subst hc
              exact ⟨by omega, hab⟩)
            (contiguousSpans_head_next b bs hc1)
            (lastEnd_consume_one a b as bs hc0 hab hlast)
          refine ⟨(b.2.1, a.2.2, b.2.2) :: R, ?_, ?_, ?_, ?_, ?_, ?_, ?_⟩
          · rw [hR]; simp
          · intro m hm
            rcases List.mem_cons.mp hm with rfl | hm'
            · exact hpb.2
            · have := h1 m hm'
              omega
          · rw [List.map_cons, List.pairwise_cons]
            refine ⟨?_, h2⟩
            intro x hx
            obtain ⟨m, hm, rfl⟩ := List.mem_map.mp hx
            exact h1 m hm
          · intro e
            simp only [List.map_cons, List.mem_cons]
            rw [h3 e]
            simp only [List.map_cons, List.mem_cons]
            tauto
          · intro qm hqm
            simp only [mergedSpans, List.mem_cons] at hqm
            rcases hqm with rfl | hqm
            · exact ⟨le_refl p, hpb.2⟩
            · have := h4 qm hqm
              exact ⟨by omega, this.2⟩
          · exact spanLevels_keep (fun m => m.2.1) a as p (b.2.1, a.2.2, b.2.2) R hc0
              hpa.1 hpb.2 hab rfl h5
          · exact spanLevels_consume (fun m => m.2.2) b bs p (b.2.1, a.2.2, b.2.2) R hc1
              hpb.1 hpb.2 rfl rfl h4 h6
theorem exIntfc0_contiguous : contiguousSpans exIntfc0 := by
  unfold contiguousSpans exIntfc0
  exact ⟨by simp, by decide⟩

theorem exIntfc1_contiguous : contiguousSpans exIntfc1 := by
  unfold contiguousSpans exIntfc1
  exact ⟨by simp, by decide⟩

theorem assembleChecked_matching [Semiring T] {G : Type} (ev : gsGeometryEvaluator T G)
    (geoEval : G) (quWeights : List T) (v : gsVisitorGradGrad T) (m : Nat)
    (h : ∀ k, k < m →
      (ev.transformGradients geoEval k v.basisGrads).cols = v.localMat.rows ∧
      (ev.transformGradients geoEval k v.basisGrads).cols = v.localMat.cols) :
    forLoop m (fun k acc =>
        match acc with
        | Except.ok v => gsVisitorGradGrad.assembleStepChecked ev geoEval quWeights k v
        | Except.error err => Except.error err) (Except.ok v)
      = Except.ok (forLoop m (gsVisitorGradGrad.assembleStep ev geoEval quWeights) v) := by
  induction m with
  | zero => rfl
  | succ m ih =>
    rw [forLoop_succ, forLoop_succ, ih (fun k hk => h k (Nat.lt_succ_of_lt hk))]
    obtain ⟨h1, _, h3, h4, _⟩ := assemble_loop ev geoEval quWeights v m
    obtain ⟨ha, hb⟩ := h m (Nat.lt_succ_self m)
    show gsVisitorGradGrad.assembleStepChecked ev geoEval quWeights m _ = _
    unfold gsVisitorGradGrad.assembleStepChecked gsMatrix.addAssignChecked
    simp only [h1]
    rw [if_pos (by
      rw [h3, h4]
      exact ⟨ha.symm, hb.symm⟩)]
    simp only [gsVisitorGradGrad.assembleStep, h1]

theorem assembleChecked_mismatch [Semiring T] {G : Type} (ev : gsGeometryEvaluator T G)
    (geoEval : G) (quWeights : List T) (v : gsVisitorGradGrad T) (m : Nat)
    (h : ∃ k, k < m ∧
      ¬ ((ev.transformGradients geoEval k v.basisGrads).cols = v.localMat.rows ∧
         (ev.transformGradients geoEval k v.basisGrads).cols = v.localMat.cols)) :
    ∃ err, forLoop m (fun k acc =>
        match acc with
        | Except.ok v => gsVisitorGradGrad.assembleStepChecked ev geoEval quWeights k v
        | Except.error err => Except.error err) (Except.ok v)
      = Except.error err := by
  induction m with
  | zero =>
    obtain ⟨k, hk, _⟩ := h
    exact absurd hk (Nat.not_lt_zero k)
  | succ m ih =>
    rw [forLoop_succ]
    by_cases hprev : ∃ k, k < m ∧
        ¬ ((ev.transformGradients geoEval k v.basisGrads).cols = v.localMat.rows ∧
           (ev.transformGradients geoEval k v.basisGrads).cols = v.localMat.cols)
    · obtain ⟨err, he⟩ := ih hprev
      rw [he]
      exact ⟨err, rfl⟩
    · have hall : ∀ k, k < m →
          (ev.transformGradients geoEval k v.basisGrads).cols = v.localMat.rows ∧
          (ev.transformGradients geoEval k v.basisGrads).cols = v.localMat.cols := by
        intro k hk
        by_contra hc
        exact hprev ⟨k, hk, hc⟩
      obtain ⟨k, hk, hbad⟩ := h
      have hkm : k = m := by
        rcases Nat.lt_succ_iff_lt_or_eq.mp hk with hlt | heq
        · exact absurd (hall k hlt) hbad
        · exact heq
      subst hkm
      rw [assembleChecked_matching ev geoEval quWeights v k hall]
      obtain ⟨h1, _, h3, h4, _⟩ := assemble_loop ev geoEval quWeights v k
      show ∃ err, gsVisitorGradGrad.assembleStepChecked ev geoEval quWeights k _ = _
      unfold gsVisitorGradGrad.assembleStepChecked gsMatrix.addAssignChecked
      simp only [h1]
      rw [if_neg (by
        rw [h3, h4]
        intro hc
        exact hbad ⟨hc.1.symm, hc.2.symm⟩)]
      exact ⟨_, rfl⟩

theorem forLoopE_zero {ε σ : Type} (body : Nat → σ → Except ε σ) (s : σ) :
    forLoopE 0 body s = Except.ok s := rfl

theorem forLoopE_error {ε σ : Type} (body : Nat → σ → Except ε σ) (err : ε)
    (h : ∀ i s, body i s = Except.error err) (n : Nat) (hn : 0 < n) (s : σ) :
    forLoopE n body s = Except.error err := by
  unfold forLoopE
  induction n with
  | zero => exact absurd hn (Nat.lt_irrefl 0)
  | succ m ih =>
    rw [forLoop_succ]
    cases m with
    | zero => exact h 0 s
    | succ m' => rw [ih (Nat.succ_pos m')]

theorem forLoopE_skip {ε σ : Type} (body : Nat → σ → Except ε σ)
    (h : ∀ i s, body i s = Except.ok s) (n : Nat) (s : σ) :
    forLoopE n body s = Except.ok s := by
  unfold forLoopE
  induction n with
  | zero => rfl
  | succ m ih => rw [forLoop_succ, ih]; exact h m s

theorem transposed_vector_product [Field T] (B : Mat3 T) (w : Vec3 T) :
    B.toMatrix.mulChecked w.toMatrix.transpose
      = Except.error (EigenError.invalidProduct 3 3 1 3) := rfl

theorem nvar1_eval_error [Field T] (sqrt : T → T) (e : curve_nvar1_expr T) (k : Nat)
    (hd : 0 < e._u.dim) (ha : 0 < e._u.data.actives.length) :
    e.eval sqrt k = Except.error (EigenError.invalidProduct 3 3 1 3) := by
  unfold curve_nvar1_expr.eval
  apply forLoopE_error _ _ _ _ hd
  intro d res
  apply forLoopE_error
  · intro j res'
    rfl
  · rw [cardinality_div_dim e._u hd]
    exact ha

theorem nvar2_eval_error [Field T] (sqrt : T → T) (e : curve_nvar2_expr T) (k : Nat)
    (hd : 0 < e._u.dim) (ha : 0 < e._u.data.actives.length) :
    e.eval sqrt k = Except.error (EigenError.invalidProduct 3 3 1 3) := by
  unfold curve_nvar2_expr.eval
  apply forLoopE_error _ _ _ _ hd
  intro d res
  apply forLoopE_error
  · intro j res'
    rfl
  · rw [cardinality_div_dim e._u hd]
    exact ha

theorem Avar1_eval_error [Field T] (sqrt : T → T) (Avar1 : Mat3 T) (e : curve_Avar1_expr T)
    (k : Nat) (hd : 0 < e._u.dim) (ha : 0 < e._u.data.actives.length) :
    e.eval sqrt Avar1 k = Except.error (EigenError.invalidProduct 3 3 1 3) := by
  unfold curve_Avar1_expr.eval
  simp only [curve_Avar1_expr.cols]
  rw [forLoopE_error _ (EigenError.invalidProduct 3 3 1 3) ?_ _ hd]
  intro d A1
  apply forLoopE_error
  · intro j A1'
    rfl
  · rw [cardinality_div_dim e._u hd]
    exact ha

theorem card_div_of_no_active (u : gsFeSpace T) (h : u.data.actives.length = 0) :
    u.cardinality / u.dim = 0 := by
  unfold gsFeSpace.cardinality
  rw [h, Nat.mul_zero, Nat.zero_div]

theorem nvar1_eval_empty [Field T] (sqrt : T → T) (e : curve_nvar1_expr T) (k : Nat)
    (ha : e._u.data.actives.length = 0) :
    e.eval sqrt k = Except.ok (gsMatrix.zero e._u.cardinality e.cols) := by
  unfold curve_nvar1_expr.eval
  simp only [card_div_of_no_active e._u ha]
  exact forLoopE_skip _ (fun _ _ => rfl) _ _

theorem nvar2_eval_empty [Field T] (sqrt : T → T) (e : curve_nvar2_expr T) (k : Nat)
    (ha : e._u.data.actives.length = 0) :
    e.eval sqrt k = Except.ok (gsMatrix.zero e._u.cardinality e.cols) := by
  unfold curve_nvar2_expr.eval
  simp only [card_div_of_no_active e._u ha]
  exact forLoopE_skip _ (fun _ _ => rfl) _ _

theorem Avar1_eval_empty [Field T] (sqrt : T → T) (Avar1 : Mat3 T) (e : curve_Avar1_expr T)
    (k : Nat) (ha : e._u.data.actives.length = 0) :
    e.eval sqrt Avar1 k = Except.ok Avar1.toMatrix := by
  unfold curve_Avar1_expr.eval
  simp only [card_div_of_no_active e._u ha]
  rw [forLoopE_skip _ ?_]
  intro d A1
  rfl

theorem peerTensorIndex_other (dim : Nat) (dirMap : Nat → Nat) (dirOrient : Nat → Bool)
    (dir2 : Nat) (par2 : Bool) (N tens0 tens1 : Nat → Nat) (jj : Nat)
    (h : ∀ j, j < dim → dirMap j ≠ jj) :
    peerTensorIndex dim dirMap dirOrient dir2 par2 N tens0 tens1 jj = tens1 jj := by
  rw [peerTensorIndex_eq]
  induction dim with
  | zero => rfl
  | succ m ih =>
    rw [forLoop_succ, Function.update_noteq (fun hc => h m (Nat.lt_succ_self m) hc.symm)]
    exact ih (fun j hj => h j (Nat.lt_succ_of_lt hj))

theorem peerTensorIndex_eq_spec (dim : Nat) (dirMap : Nat → Nat) (dirOrient : Nat → Bool)
    (dir1 dir2 : Nat) (par2 : Bool) (N tens0 : Nat → Nat)
    (hdir1 : dir1 < dim) (hmap : dirMap dir1 = dir2)
    (hrange : ∀ j, j < dim → dirMap j < dim)
    (hinj : ∀ j, j < dim → ∀ j', j' < dim → dirMap j = dirMap j' → j = j')
    (hN : ∀ j, j < dim → N j < 2 ^ 32)
    (ht0 : ∀ j, j < dim → tens0 j < N (dirMap j)) :
    peerTensorIndex dim dirMap dirOrient dir2 par2 N tens0 tens1Start
      = peerTensorSpec dim dirMap dirOrient dir2 par2 N tens0 := by
  funext jj
  have hdir2 : dir2 < dim := hmap ▸ hrange dir1 hdir1
  by_cases hjj : jj < dim
  · obtain ⟨j, hj, rfl⟩ := dirMap_surj dim dirMap hrange hinj jj hjj
    rw [peerTensorIndex_at dim dirMap dirOrient dir2 par2 N tens0 tens1Start hinj j hj,
      (peerValue_spec dim dirMap dirOrient dir1 dir2 par2 N tens0 hdir1 hmap hrange hinj hN
        ht0 j hj).1]
    unfold peerTensorSpec
    by_cases hjd : j = dir1
    · subst hjd
      rw [if_pos rfl, if_pos hmap]
    · have hne : dirMap j ≠ dir2 := by
        intro h
        exact hjd (hinj j hj dir1 hdir1 (h.trans hmap.symm))
      rw [if_neg hjd, if_neg hne]
      cases hfind : (List.range dim).find? (fun j' => decide (dirMap j' = dirMap j)) with
      | none =>
        have := List.find?_eq_none.mp hfind j (List.mem_range.mpr hj)
        simp at this
      | some j' =>
        have h1 := List.find?_some hfind
        have h2 := List.mem_range.mp (List.mem_of_find?_eq_some hfind)
        have h3 : j' = j := hinj j' h2 j hj (by simpa using h1)
        subst h3
        by_cases ho : dirOrient j' = true
        · simp [ho]
        · simp [ho]
  · have hne : jj ≠ dir2 := by
      intro h
      exact hjj (h ▸ hdir2)
    rw [peerTensorIndex_other dim dirMap dirOrient dir2 par2 N tens0 tens1Start jj
      (fun j hj hc => hjj (hc ▸ hrange j hj))]
    unfold peerTensorSpec
    rw [if_neg hne]
    cases hfind : (List.range dim).find? (fun j' => decide (dirMap j' = jj)) with
    | none => rfl
    | some j' =>
      have h1 := List.find?_some hfind
      have h2 := List.mem_range.mp (List.mem_of_find?_eq_some hfind)
      have h3 : dirMap j' = jj := by simpa using h1
      exact absurd (h3 ▸ hrange j' h2) hjj

end Aux

/-! ## The scatter of gsVisitorGradGrad -/

section Scatter

variable {T : Type}

/-- C1: gsVisitorGradGrad::localToGlobal accumulates and never overwrites.
For every starting sysMatrix, every local matrix and every list g of global
indices returned by the mapper (repeated values allowed), each entry (r, c)
with c <= r ends as its old value plus the sum of localMat(i, j) over all
pairs (i, j) of active positions with g(i) = r and g(j) = c. -/
theorem localToGlobal_accumulates [AddCommMonoid T] (v : gsVisitorGradGrad T)
    (mapper : gsDofMapper) (eliminatedDofs : gsMatrix T) (patchIndex : Nat)
    (sysMatrix : gsSparseMatrix T) (rhsMatrix : gsMatrix T) (r c : Nat) (hrc : c ≤ r) :
    (v.localToGlobal mapper eliminatedDofs patchIndex sysMatrix rhsMatrix).2.1.coeff r c
      = sysMatrix.coeff r c
        + ∑ i in Finset.range (mapper.localToGlobal v.actives patchIndex).length,
            ∑ j in Finset.range (mapper.localToGlobal v.actives patchIndex).length,
              (if (mapper.localToGlobal v.actives patchIndex).getD i 0 = r
                    ∧ (mapper.localToGlobal v.actives patchIndex).getD j 0 = c
                then v.localMat.coeff i j else 0) := by
  rw [localToGlobal_sys, coeff_scatter]
  congr 1
  unfold scatterSum
  apply Finset.sum_congr rfl
  intro i _
  apply Finset.sum_congr rfl
  intro j _
  apply if_congr _ rfl rfl
  constructor
  · rintro ⟨h1, h2, -⟩
    exact ⟨h1, h2⟩
  · rintro ⟨h1, h2⟩
    exact ⟨h1, h2, le_of_eq_of_le h2 (le_of_le_of_eq hrc h1.symm)⟩

/-- Witness of C1 on the two-function example: entry (1, 0) of the lower
triangle. -/
theorem localToGlobal_accumulates_witness :
    (0 : Nat) ≤ 1 ∧
    (exVisitor.localToGlobal exMapper exEliminated 0 gsSparseMatrix.empty exRhs).2.1.coeff 1 0
      = (gsSparseMatrix.empty : gsSparseMatrix ℤ).coeff 1 0
        + ∑ i in Finset.range (exMapper.localToGlobal exVisitor.actives 0).length,
            ∑ j in Finset.range (exMapper.localToGlobal exVisitor.actives 0).length,
              (if (exMapper.localToGlobal exVisitor.actives 0).getD i 0 = 1
                    ∧ (exMapper.localToGlobal exVisitor.actives 0).getD j 0 = 0
                then exVisitor.localMat.coeff i j else 0) :=
  ⟨by decide,
   localToGlobal_accumulates exVisitor exMapper exEliminated 0 gsSparseMatrix.empty exRhs 1 0
     (by decide)⟩

/-- C2: gsVisitorGradGrad::localToGlobal stores the lower triangle only.
With g the list of global indices of the active functions: an entry (r, c)
becomes stored, or changes, only if r = g(i) and c = g(j) for active
positions i, j with g(j) <= g(i); a position is stored afterwards exactly
when it was stored before or is such a target; every entry with c > r, and
every entry whose row or column is not the global index of an active
function, keeps its previous value. -/
theorem localToGlobal_lower_triangle_only [AddCommMonoid T] (v : gsVisitorGradGrad T)
    (mapper : gsDofMapper) (eliminatedDofs : gsMatrix T) (patchIndex : Nat)
    (sysMatrix : gsSparseMatrix T) (rhsMatrix : gsMatrix T) :
    (∀ r c,
        (v.localToGlobal mapper eliminatedDofs patchIndex sysMatrix rhsMatrix).2.1 r c
            ≠ sysMatrix r c →
          ∃ i, i < (mapper.localToGlobal v.actives patchIndex).length ∧
          ∃ j, j < (mapper.localToGlobal v.actives patchIndex).length ∧
            (mapper.localToGlobal v.actives patchIndex).getD i 0 = r ∧
            (mapper.localToGlobal v.actives patchIndex).getD j 0 = c ∧
            (mapper.localToGlobal v.actives patchIndex).getD j 0
              ≤ (mapper.localToGlobal v.actives patchIndex).getD i 0) ∧
    (∀ r c,
        ((v.localToGlobal mapper eliminatedDofs patchIndex sysMatrix rhsMatrix).2.1 r c).isSome
            = true ↔
          ((sysMatrix r c).isSome = true ∨
            ∃ i, i < (mapper.localToGlobal v.actives patchIndex).length ∧
            ∃ j, j < (mapper.localToGlobal v.actives patchIndex).length ∧
              (mapper.localToGlobal v.actives patchIndex).getD i 0 = r ∧
              (mapper.localToGlobal v.actives patchIndex).getD j 0 = c ∧
              (mapper.localToGlobal v.actives patchIndex).getD j 0
                ≤ (mapper.localToGlobal v.actives patchIndex).getD i 0)) ∧
    (∀ r c, r < c →
        (v.localToGlobal mapper eliminatedDofs patchIndex sysMatrix rhsMatrix).2.1 r c
          = sysMatrix r c) ∧
    (∀ r c, (r ∉ mapper.localToGlobal v.actives patchIndex
              ∨ c ∉ mapper.localToGlobal v.actives patchIndex) →
        (v.localToGlobal mapper eliminatedDofs patchIndex sysMatrix rhsMatrix).2.1 r c
          = sysMatrix r c) := by
  rw [localToGlobal_sys]
  refine ⟨?_, ?_, ?_, ?_⟩
  · intro r c hne
    by_contra hno
    exact hne (scatter_unchanged _ _ _ r c hno)
  · intro r c
    exact isSome_scatter _ _ _ r c
  · intro r c hlt
    apply scatter_unchanged
    rintro ⟨i, _, j, _, h1, h2, h3⟩
    rw [h1, h2] at h3
    exact absurd hlt (Nat.not_lt.mpr h3)
  · intro r c hmem
    apply scatter_unchanged
    rintro ⟨i, hi, j, hj, h1, h2, _⟩
    rcases hmem with h | h
    · exact h (h1 ▸ getD_mem_of_lt _ i hi)
    · exact h (h2 ▸ getD_mem_of_lt _ j hj)

/-- C9: the scatter is order-independent across elements. For two elements
with visitors vA and vB (local matrices and index lists), on patches pA and
pB, and any starting sysMatrix, localToGlobal for A then for B yields the
same sysMatrix as for B then for A, and every slot ends as its old value
plus, once each, the local entries that the scatter of A and the scatter of
B direct to it. -/
theorem localToGlobal_order_independent [AddCommMonoid T] (vA vB : gsVisitorGradGrad T)
    (mapper : gsDofMapper) (eA eB : gsMatrix T) (pA pB : Nat)
    (sysMatrix : gsSparseMatrix T) (rhsMatrix : gsMatrix T) :
    (vB.localToGlobal mapper eB pB
        (vA.localToGlobal mapper eA pA sysMatrix rhsMatrix).2.1
        (vA.localToGlobal mapper eA pA sysMatrix rhsMatrix).2.2).2.1
      = (vA.localToGlobal mapper eA pA
          (vB.localToGlobal mapper eB pB sysMatrix rhsMatrix).2.1
          (vB.localToGlobal mapper eB pB sysMatrix rhsMatrix).2.2).2.1
    ∧ ∀ r c,
        (vB.localToGlobal mapper eB pB
          (vA.localToGlobal mapper eA pA sysMatrix rhsMatrix).2.1
          (vA.localToGlobal mapper eA pA sysMatrix rhsMatrix).2.2).2.1.coeff r c
        = sysMatrix.coeff r c
          + scatterSum (fun k => (mapper.localToGlobal vA.actives pA).getD k 0)
              vA.localMat.coeff (mapper.localToGlobal vA.actives pA).length r c
          + scatterSum (fun k => (mapper.localToGlobal vB.actives pB).getD k 0)
              vB.localMat.coeff (mapper.localToGlobal vB.actives pB).length r c := by
  simp only [localToGlobal_sys]
  constructor
  · funext r c
    apply option_ext_getD
    · rw [isSome_scatter, isSome_scatter, isSome_scatter, isSome_scatter]
      tauto
    · show gsSparseMatrix.coeff _ r c = gsSparseMatrix.coeff _ r c
      rw [coeff_scatter, coeff_scatter, coeff_scatter, coeff_scatter, add_right_comm]
  · intro r c
    rw [coeff_scatter, coeff_scatter]

/-- C4 (counterexample): with global index 1 eliminated and prescribed
value 5, localToGlobal still adds the local entries of the eliminated index
to row and column 1 of sysMatrix, and the right-hand side of the free row 0
stays 0 instead of receiving the moved contribution. -/
theorem localToGlobal_eliminated_counterexample :
    exMapper.is_free_index (exMapper.index 1 0) = false ∧
    exMapper.is_free_index (exMapper.index 0 0) = true ∧
    (exVisitor.localToGlobal exMapper exEliminated 0 gsSparseMatrix.empty exRhs).2.1 1 1
      = some 2 ∧
    (exVisitor.localToGlobal exMapper exEliminated 0 gsSparseMatrix.empty exRhs).2.1 1 0
      = some (-1) ∧
    (exVisitor.localToGlobal exMapper exEliminated 0 gsSparseMatrix.empty exRhs).2.2.coeff 0 0
      = 0 ∧
    exVisitor.localMat.coeff 0 1 * exEliminated.coeff 0 0 ≠ 0 := by
  decide

/-- C4 (amended): gsVisitorGradGrad::localToGlobal does not treat eliminated
degrees of freedom apart. Its result depends neither on the elimination
marker of the mapper nor on eliminatedDofs, the right-hand side rhsMatrix is
returned as it was given, and sysMatrix receives the scatter of all
translated indices, eliminated or free. -/
theorem localToGlobal_ignores_elimination [Zero T] [Add T] (v : gsVisitorGradGrad T)
    (index : Nat → Nat → Nat) (free1 free2 : Nat → Bool) (e1 e2 : gsMatrix T)
    (patchIndex : Nat) (sysMatrix : gsSparseMatrix T) (rhsMatrix : gsMatrix T) :
    v.localToGlobal { index := index, is_free_index := free1 } e1 patchIndex sysMatrix rhsMatrix
      = v.localToGlobal { index := index, is_free_index := free2 } e2 patchIndex sysMatrix
          rhsMatrix
    ∧ (v.localToGlobal { index := index, is_free_index := free1 } e1 patchIndex sysMatrix
          rhsMatrix).2.2 = rhsMatrix
    ∧ (v.localToGlobal { index := index, is_free_index := free1 } e1 patchIndex sysMatrix
          rhsMatrix).2.1
        = gsVisitorGradGrad.scatter (v.actives.map (fun l => index l patchIndex)) v.localMat
            sysMatrix :=
  ⟨rfl, rfl, rfl⟩

end Scatter

/-! ## The element matrix of gsVisitorGradGrad -/

section Element

variable {T G : Type}

/-- C3: after evaluate followed by one assemble call, for every vector of
quadrature weights w, measures m and physical gradient matrices P_k of shape
Dim x numActive (the output of transformGradients at node k), localMat is
the numActive x numActive matrix with
localMat(i, j) = sum_k w[k] * m[k] * sum_d P_k(d, i) * P_k(d, j). -/
theorem evaluate_assemble_localMat [Semiring T] (v : gsVisitorGradGrad T) (basis : gsBasis T)
    (ev : gsGeometryEvaluator T G) (geoEval : G) (quNodes : gsMatrix T) (quWeights : List T)
    (Dim : Nat)
    (hP : ∀ k, k < quWeights.length →
      (ev.transformGradients (ev.evaluateAt geoEval quNodes) k (basis.deriv_into quNodes)).rows
          = Dim ∧
      (ev.transformGradients (ev.evaluateAt geoEval quNodes) k (basis.deriv_into quNodes)).cols
          = (basis.active_into (quNodes.col 0)).length) :
    ((v.evaluate basis ev geoEval quNodes).1.assemble ev
        (v.evaluate basis ev geoEval quNodes).2 quWeights).localMat.rows
      = (basis.active_into (quNodes.col 0)).length ∧
    ((v.evaluate basis ev geoEval quNodes).1.assemble ev
        (v.evaluate basis ev geoEval quNodes).2 quWeights).localMat.cols
      = (basis.active_into (quNodes.col 0)).length ∧
    ∀ i j,
      ((v.evaluate basis ev geoEval quNodes).1.assemble ev
          (v.evaluate basis ev geoEval quNodes).2 quWeights).localMat.coeff i j
        = ∑ k in Finset.range quWeights.length,
            (quWeights.getD k 0 * ev.measure (ev.evaluateAt geoEval quNodes) k)
              * ∑ d in Finset.range Dim,
                  (ev.transformGradients (ev.evaluateAt geoEval quNodes) k
                      (basis.deriv_into quNodes)).coeff d i
                    * (ev.transformGradients (ev.evaluateAt geoEval quNodes) k
                        (basis.deriv_into quNodes)).coeff d j := by
  obtain ⟨_, _, h3, h4, h5⟩ := assemble_loop ev (ev.evaluateAt geoEval quNodes) quWeights
    (v.evaluate basis ev geoEval quNodes).1 quWeights.length
  refine ⟨h3, h4, ?_⟩
  intro i j
  unfold gsVisitorGradGrad.assemble
  show (forLoop quWeights.length
      (gsVisitorGradGrad.assembleStep ev (ev.evaluateAt geoEval quNodes) quWeights)
      (v.evaluate basis ev geoEval quNodes).1).localMat.coeff i j = _
  rw [h5 i j]
  show (0 : T) + _ = _
  rw [zero_add]
  apply Finset.sum_congr rfl
  intro k hk
  show _ * (∑ d in Finset.range
      (ev.transformGradients (ev.evaluateAt geoEval quNodes) k (basis.deriv_into quNodes)).rows,
      _) = _
  rw [(hP k (Finset.mem_range.mp hk)).1]
  rfl

/-- Witness of C3: one node of weight 2 and measure 1 on a line element
with two active functions, Dim = 1. -/
theorem evaluate_assemble_localMat_witness :
    (∀ k, k < exQuWeights.length →
      (exGeo.transformGradients (exGeo.evaluateAt () exQuNodes) k
          (exBasis.deriv_into exQuNodes)).rows = 1 ∧
      (exGeo.transformGradients (exGeo.evaluateAt () exQuNodes) k
          (exBasis.deriv_into exQuNodes)).cols
        = (exBasis.active_into (exQuNodes.col 0)).length) ∧
    ((exVisitor.evaluate exBasis exGeo () exQuNodes).1.assemble exGeo
        (exVisitor.evaluate exBasis exGeo () exQuNodes).2 exQuWeights).localMat.coeff 0 1
      = ∑ k in Finset.range exQuWeights.length,
          (exQuWeights.getD k 0 * exGeo.measure (exGeo.evaluateAt () exQuNodes) k)
            * ∑ d in Finset.range 1,
                (exGeo.transformGradients (exGeo.evaluateAt () exQuNodes) k
                    (exBasis.deriv_into exQuNodes)).coeff d 0
                  * (exGeo.transformGradients (exGeo.evaluateAt () exQuNodes) k
                      (exBasis.deriv_into exQuNodes)).coeff d 1 :=
  ⟨fun _ _ => ⟨rfl, rfl⟩,
   (evaluate_assemble_localMat exVisitor exBasis exGeo () exQuNodes exQuWeights 1
      (fun _ _ => ⟨rfl, rfl⟩)).2.2 0 1⟩

/-- C8: gsVisitorGradGrad::evaluate creates a fresh local matrix for each
element. Whatever localMat held before the call, afterwards it is the
numActive x numActive zero matrix, numActive being the number of active
functions at the first quadrature node; and the local matrix produced by
evaluate followed by assemble is the same from any two earlier visitor
states. -/
theorem evaluate_fresh_localMat [Semiring T] (v : gsVisitorGradGrad T) (basis : gsBasis T)
    (ev : gsGeometryEvaluator T G) (geoEval : G) (quNodes : gsMatrix T) :
    (v.evaluate basis ev geoEval quNodes).1.localMat.rows
      = (basis.active_into (quNodes.col 0)).length ∧
    (v.evaluate basis ev geoEval quNodes).1.localMat.cols
      = (basis.active_into (quNodes.col 0)).length ∧
    (∀ i j, (v.evaluate basis ev geoEval quNodes).1.localMat.coeff i j = 0) ∧
    ∀ (v2 : gsVisitorGradGrad T) (quWeights : List T),
      ((v.evaluate basis ev geoEval quNodes).1.assemble ev
          (v.evaluate basis ev geoEval quNodes).2 quWeights).localMat
        = ((v2.evaluate basis ev geoEval quNodes).1.assemble ev
            (v2.evaluate basis ev geoEval quNodes).2 quWeights).localMat := by
  refine ⟨rfl, rfl, fun _ _ => rfl, ?_⟩
  intro v2 quWeights
  obtain ⟨_, _, a3, a4, a5⟩ := assemble_loop ev (ev.evaluateAt geoEval quNodes) quWeights
    (v.evaluate basis ev geoEval quNodes).1 quWeights.length
  obtain ⟨_, _, b3, b4, b5⟩ := assemble_loop ev (ev.evaluateAt geoEval quNodes) quWeights
    (v2.evaluate basis ev geoEval quNodes).1 quWeights.length
  apply gsMatrix_eq
  · exact a3.trans b3.symm
  · exact a4.trans b4.symm
  · intro i j
    exact (a5 i j).trans (b5 i j).symm

end Element

/-! ## Interface matching -/

section Matching

variable {M : Type}

/-- C5: in the tensor-basis branch of gsMultiBasis::matchInterface (both
bases non-hierarchical), if the two boundary index lists have different
numbers of rows the call fails with the error that starts "Input error,
sizes do not match" and the mapper is left as it was (no matchDof call); if
they have the same number n of rows, and the reordering matchDofs keeps the
lengths, the mapper is the result of exactly n matchDof calls, call c
pairing entry c of the first list with entry c of the second. -/
theorem matchInterface_tensor_sizes (mb : gsMultiBasis)
    (matchDof : M → Nat → Nat → Nat → Nat → M) (bi : boundaryInterface) (mapper : M)
    (h0 : (mb.m_bases bi.first.patch).kind = BasisKind.other)
    (h1 : (mb.m_bases bi.second.patch).kind = BasisKind.other) :
    (((mb.m_bases bi.first.patch).boundary bi.first).length
        ≠ ((mb.m_bases bi.second.patch).boundary bi.second).length →
      mb.matchInterface matchDof bi mapper
        = (Except.error (GismoError.assertion
            (sizesMessage ((mb.m_bases bi.first.patch).boundary bi.first).length
              ((mb.m_bases bi.second.patch).boundary bi.second).length)), mapper)
      ∧ ∃ rest, sizesMessage ((mb.m_bases bi.first.patch).boundary bi.first).length
                  ((mb.m_bases bi.second.patch).boundary bi.second).length
                = "Input error, sizes do not match" ++ rest) ∧
    (((mb.m_bases bi.first.patch).boundary bi.first).length
        = ((mb.m_bases bi.second.patch).boundary bi.second).length →
      (bi.matchDofs (tensorBSize mb mb.dim bi.first.patch bi.first.direction)
          ((mb.m_bases bi.first.patch).boundary bi.first)
          ((mb.m_bases bi.second.patch).boundary bi.second)).1.length
        = ((mb.m_bases bi.first.patch).boundary bi.first).length →
      (bi.matchDofs (tensorBSize mb mb.dim bi.first.patch bi.first.direction)
          ((mb.m_bases bi.first.patch).boundary bi.first)
          ((mb.m_bases bi.second.patch).boundary bi.second)).2.length
        = ((mb.m_bases bi.second.patch).boundary bi.second).length →
      mb.matchInterface matchDof bi mapper
        = (Except.ok (),
            ((bi.matchDofs (tensorBSize mb mb.dim bi.first.patch bi.first.direction)
                ((mb.m_bases bi.first.patch).boundary bi.first)
                ((mb.m_bases bi.second.patch).boundary bi.second)).1.zip
              (bi.matchDofs (tensorBSize mb mb.dim bi.first.patch bi.first.direction)
                ((mb.m_bases bi.first.patch).boundary bi.first)
                ((mb.m_bases bi.second.patch).boundary bi.second)).2).foldl
              (fun m q => matchDof m bi.first.patch q.1 bi.second.patch q.2) mapper)
      ∧ ((bi.matchDofs (tensorBSize mb mb.dim bi.first.patch bi.first.direction)
              ((mb.m_bases bi.first.patch).boundary bi.first)
              ((mb.m_bases bi.second.patch).boundary bi.second)).1.zip
            (bi.matchDofs (tensorBSize mb mb.dim bi.first.patch bi.first.direction)
              ((mb.m_bases bi.first.patch).boundary bi.first)
              ((mb.m_bases bi.second.patch).boundary bi.second)).2).length
          = ((mb.m_bases bi.first.patch).boundary bi.first).length) := by
  have hbranch : mb.matchInterface matchDof bi mapper
      = mb.matchInterfaceTensor matchDof bi mapper := by
    unfold gsMultiBasis.matchInterface
    rw [h0, h1]
    rfl
  rw [hbranch]
  constructor
  · intro hne
    constructor
    · unfold gsMultiBasis.matchInterfaceTensor
      simp only [if_neg hne]
    · refine ⟨": " ++ (toString ((mb.m_bases bi.first.patch).boundary bi.first).length ++
        ("!=" ++ toString ((mb.m_bases bi.second.patch).boundary bi.second).length)), ?_⟩
      unfold sizesMessage
      rw [← String.append_assoc]
      rfl
  · intro heq hl1 hl2
    constructor
    · unfold gsMultiBasis.matchInterfaceTensor
      simp only [if_pos heq]
      rw [forLoop_getD_eq_foldl_zip _ _ (by rw [hl1, hl2, heq])
        (fun acc a b => matchDof acc bi.first.patch a bi.second.patch b)]
    · rw [List.length_zip, hl1, hl2, heq, Nat.min_self]

/-- Witness of C5 with the recording mapper: three pairs are matched in
order on equal sizes, and sizes three and two give the error and an empty
record. -/
theorem matchInterface_tensor_sizes_witness :
    (exMultiBasis.matchInterface recordMatchDof exInterface []
        = (Except.ok (), [(0, 2, 1, 0), (0, 5, 1, 3), (0, 8, 1, 6)])) ∧
    (exMultiBasisMismatch.matchInterface recordMatchDof exInterface []
        = (Except.error (GismoError.assertion (sizesMessage 3 2)), [])) := by
  constructor
  · exact ((matchInterface_tensor_sizes exMultiBasis recordMatchDof exInterface [] rfl rfl).2
      (by decide) (by decide) (by decide)).1
  · exact ((matchInterface_tensor_sizes exMultiBasisMismatch recordMatchDof exInterface []
      rfl rfl).1 (by decide)).1

/-- C6: gsMultiBasis::matchInterface selects the matching algorithm from the
kinds of the two bases. Both sides hierarchical of dimension 2 (resp. 3)
give matchInterfaceHTensor<2> (resp. <3>); neither side hierarchical gives
the plain tensor matching; in every other case (the kinds differ: exactly
one side hierarchical, or one side 2D and the other 3D) the call fails with
the assertion and leaves the mapper as it was. The hierarchical branch is
taken only when both sides, hence at least one, are hierarchical. -/
theorem matchInterface_dispatch (mb : gsMultiBasis)
    (matchDof : M → Nat → Nat → Nat → Nat → M) (bi : boundaryInterface) (mapper : M) :
    (((mb.m_bases bi.first.patch).kind = BasisKind.hTensor2
        ∧ (mb.m_bases bi.second.patch).kind = BasisKind.hTensor2) →
      mb.matchInterface matchDof bi mapper
        = (Except.ok (), mb.matchInterfaceHTensor 2 matchDof bi mapper)) ∧
    (((mb.m_bases bi.first.patch).kind = BasisKind.hTensor3
        ∧ (mb.m_bases bi.second.patch).kind = BasisKind.hTensor3) →
      mb.matchInterface matchDof bi mapper
        = (Except.ok (), mb.matchInterfaceHTensor 3 matchDof bi mapper)) ∧
    (((mb.m_bases bi.first.patch).kind.isHierarchical = false
        ∧ (mb.m_bases bi.second.patch).kind.isHierarchical = false) →
      mb.matchInterface matchDof bi mapper = mb.matchInterfaceTensor matchDof bi mapper) ∧
    ((mb.m_bases bi.first.patch).kind ≠ (mb.m_bases bi.second.patch).kind →
      mb.matchInterface matchDof bi mapper
        = (Except.error (GismoError.assertion hTensorMessage), mapper)) ∧
    (∀ dim, matchInterfaceBranch (mb.m_bases bi.first.patch).kind
          (mb.m_bases bi.second.patch).kind = MatchBranch.hTensor dim →
        (mb.m_bases bi.first.patch).kind.isHierarchical = true
          ∧ (mb.m_bases bi.second.patch).kind.isHierarchical = true
          ∧ (mb.m_bases bi.first.patch).kind = (mb.m_bases bi.second.patch).kind) := by
  unfold gsMultiBasis.matchInterface
  generalize (mb.m_bases bi.first.patch).kind = k0
  generalize (mb.m_bases bi.second.patch).kind = k1
  refine ⟨?_, ?_, ?_, ?_, ?_⟩
  · rintro ⟨rfl, rfl⟩
    rfl
  · rintro ⟨rfl, rfl⟩
    rfl
  · rintro ⟨h0, h1⟩
    cases k0 <;> cases k1 <;> first | rfl | (exact absurd h0 (by decide)) | (exact absurd h1 (by decide))
  · intro hne
    cases k0 <;> cases k1 <;> first | rfl | (exact absurd rfl hne)
  · intro dim hdim
    cases k0 <;> cases k1 <;>
      first | (exact ⟨rfl, rfl, rfl⟩) | (exact absurd hdim (by simp [matchInterfaceBranch]))

end Matching

/-! ## Quadrature set-up -/

section Quadrature

/-- C11: gsVisitorGradGrad::initialize picks the quadrature rule from the
polynomial degree alone. For every basis of dimension d the Gauss rule is
built from d numbers of nodes, the number in direction i < d being
degree(i) + 1, and evFlags is set to exactly
NEED_MEASURE | NEED_GRAD_TRANSFORM; neither result depends on the previous
values of rule and evFlags. -/
theorem initialize_rule_from_degree {R : Type} (need : gsNeedEnum)
    (gsGaussRule : List Nat → R) (basis : gsBasisShape) (rule : R) (evFlags : Nat) :
    (gsVisitorGradGrad.initializeVisitor need gsGaussRule basis rule evFlags).1
      = gsGaussRule ((List.range basis.dim).map (fun i => basis.degree i + 1)) ∧
    (numQuadNodes basis).length = basis.dim ∧
    (∀ i, i < basis.dim → (numQuadNodes basis).getD i 0 = basis.degree i + 1) ∧
    (gsVisitorGradGrad.initializeVisitor need gsGaussRule basis rule evFlags).2
      = need.NEED_MEASURE ||| need.NEED_GRAD_TRANSFORM ∧
    ∀ (rule2 : R) (evFlags2 : Nat),
      gsVisitorGradGrad.initializeVisitor need gsGaussRule basis rule2 evFlags2
        = gsVisitorGradGrad.initializeVisitor need gsGaussRule basis rule evFlags := by
  refine ⟨?_, ?_, ?_, rfl, fun _ _ => rfl⟩
  · unfold gsVisitorGradGrad.initializeVisitor
    rw [numQuadNodes_eq]
  · rw [numQuadNodes_eq]
    simp
  · intro i hi
    rw [numQuadNodes_eq, List.getD_eq_getElem _ 0 (by simpa using hi)]
    simp

end Quadrature

/-! ## The closed forms of composed_basis_test.cpp -/

section ClosedForms

/-- C18: the closed-form derivative table anBasisDer of
composed_basis_test.cpp is the gradient of the closed-form basis table
anBasis. For every (U, V) and every column i, anBasisDer(0, i) is the
partial derivative of anBasis(0, i) with respect to U and anBasisDer(1, i)
is its partial derivative with respect to V. -/
theorem anBasisDer_is_gradient (U V : ℝ) (i : Nat) :
    HasDerivAt (fun u : ℝ => anBasis u V i) (anBasisDer U V 0 i) U ∧
    HasDerivAt (fun v : ℝ => anBasis U v i) (anBasisDer U V 1 i) V := by
  constructor
  · have h := (bernstein2_hasDerivAt U (i % 3)).mul_const (bernstein2 V (i / 3))
    rw [anBasisDer_row0]
    refine h.congr_of_eventuallyEq ?_
    exact Filter.Eventually.of_forall (fun u => anBasis_tensor u V i)
  · have h := (bernstein2_hasDerivAt V (i / 3)).const_mul (bernstein2 U (i % 3))
    rw [anBasisDer_row1]
    refine h.congr_of_eventuallyEq ?_
    exact Filter.Eventually.of_forall (fun v => anBasis_tensor U v i)

/-- C19: the nine closed-form values anBasis of composed_basis_test.cpp are
the tensor-product quadratic Bernstein polynomials. For every (U, V) and
i, j in 0, 1, 2, entry i + 3 j equals B_i(U) * B_j(V); hence the nine
entries sum to 1 for every (U, V), and every entry is non-negative for
(U, V) in the unit square. -/
theorem anBasis_tensor_bernstein {T : Type} [LinearOrderedCommRing T] (U V : T) :
    (∀ i j, i < 3 → j < 3 → anBasis U V (i + 3 * j) = bernstein2 U i * bernstein2 V j) ∧
    (∑ n in Finset.range 9, anBasis U V n = 1) ∧
    (0 ≤ U → U ≤ 1 → 0 ≤ V → V ≤ 1 → ∀ n, n < 9 → 0 ≤ anBasis U V n) := by
  refine ⟨?_, ?_, ?_⟩
  · intro i j hi hj
    rw [anBasis_tensor]
    have h1 : (i + 3 * j) % 3 = i := by omega
    have h2 : (i + 3 * j) / 3 = j := by omega
    rw [h1, h2]
  · simp only [Finset.sum_range_succ, Finset.sum_range_zero, anBasis]
    ring
  · intro hU0 hU1 hV0 hV1 n hn
    have hU : 0 ≤ 1 - U := sub_nonneg.mpr hU1
    have hV : 0 ≤ 1 - V := sub_nonneg.mpr hV1
    have hb : ∀ (t : T), 0 ≤ t → 0 ≤ 1 - t → ∀ k, 0 ≤ bernstein2 t k := by
      intro t ht ht1 k
      match k with
      | 0 => simp only [bernstein2]; positivity
      | 1 => simp only [bernstein2]; positivity
      | 2 => simp only [bernstein2]; positivity
      | k + 3 => simp [bernstein2]
    rw [anBasis_tensor]
    exact mul_nonneg (hb U hU0 hU _) (hb V hV0 hV _)

end ClosedForms

/-! ## The curve expressions -/

section Curves

variable {T : Type}

/-- C15 (failing input): curve_binormal_expr, curve_normal_expr and
curve_bvar1_expr fail at construction if and only if the domain dimension of
the geometry map is not 1 or its target dimension is not 3. The constructors
of curve_nvar1_expr, curve_Avar1_expr and curve_nvar2_expr test the
dimensions recorded in the evaluation cache of the map instead: for a curve
of domain dimension 1 and target dimension 3 whose cache records (0, 0), the
three constructions fail. -/
theorem curve_constructors_dimension_check (u : gsFeSpace T) (G : gsGeometryMap T) :
    ((∃ err, curve_binormal_expr.construct G = Except.error err)
        ↔ ¬ (G.domainDim = 1 ∧ G.targetDim = 3)) ∧
    ((∃ err, curve_normal_expr.construct G = Except.error err)
        ↔ ¬ (G.domainDim = 1 ∧ G.targetDim = 3)) ∧
    ((∃ err, curve_bvar1_expr.construct u G = Except.error err)
        ↔ ¬ (G.domainDim = 1 ∧ G.targetDim = 3)) ∧
    ((∃ err, curve_nvar1_expr.construct u G = Except.error err)
        ↔ ¬ (G.data.dim.1 = 1 ∧ G.data.dim.2 = 3)) ∧
    ((∃ err, curve_Avar1_expr.construct u G = Except.error err)
        ↔ ¬ (G.data.dim.1 = 1 ∧ G.data.dim.2 = 3)) ∧
    ((∃ err, curve_nvar2_expr.construct u G = Except.error err)
        ↔ ¬ (G.data.dim.1 = 1 ∧ G.data.dim.2 = 3)) ∧
    (exCurveFresh.domainDim = 1 ∧ exCurveFresh.targetDim = 3 ∧
      curve_nvar1_expr.construct exSpace exCurveFresh
        = Except.error (GismoError.assertion (domainDimMessage 0)) ∧
      curve_Avar1_expr.construct exSpace exCurveFresh
        = Except.error (GismoError.assertion (domainDimMessage 0)) ∧
      curve_nvar2_expr.construct exSpace exCurveFresh
        = Except.error (GismoError.assertion (domainDimMessage 0)) ∧
      (∃ e, curve_bvar1_expr.construct exSpace exCurveFresh = Except.ok e)) := by
  refine ⟨?_, ?_, ?_, ?_, ?_, ?_, ⟨rfl, rfl, rfl, rfl, rfl, ⟨_, rfl⟩⟩⟩
  · unfold curve_binormal_expr.construct
    by_cases h : G.domainDim = 1 ∧ G.targetDim = 3
    · simp [h]
    · simp [h]
  · unfold curve_normal_expr.construct
    by_cases h : G.domainDim = 1 ∧ G.targetDim = 3
    · simp [h]
    · simp [h]
  · unfold curve_bvar1_expr.construct
    by_cases h1 : G.domainDim = 1 <;> by_cases h2 : G.targetDim = 3 <;> simp [h1, h2]
  · unfold curve_nvar1_expr.construct
    by_cases h1 : G.data.dim.1 = 1 <;> by_cases h2 : G.data.dim.2 = 3 <;> simp [h1, h2]
  · unfold curve_Avar1_expr.construct
    by_cases h1 : G.data.dim.1 = 1 <;> by_cases h2 : G.data.dim.2 = 3 <;> simp [h1, h2]
  · unfold curve_nvar2_expr.construct
    by_cases h1 : G.data.dim.1 = 1 <;> by_cases h2 : G.data.dim.2 = 3 <;> simp [h1, h2]

/-- C16: in curve_bvar1_expr::eval, for every quadrature node with
r' x r'' != 0 (the square root being exact at the squared norm of r' x r''),
the tensor B equals (I - b b^T) / ||r' x r''|| with b the unit binormal, and
the row of the result for component d and active function j (row index
d * N + j, N the number of active functions) equals
B * (dr' x r'' + r' x dr''), where dr' = N_j' e_d and dr'' = N_j'' e_d are
built from the first and second derivative of the active function j. This
is the linearisation of the binormal: over the reals, for every variation
(dp', dp'') of the derivatives (p', p'') of a curve point with
p' x p'' != 0, the vector B * (dp' x p'' + p' x dp'') is the derivative at
eps = 0 of the unit binormal of (p' + eps dp', p'' + eps dp''). -/
theorem bvar1_eval_rows [LinearOrderedField T] (sqrt : T → T) (e : curve_bvar1_expr T)
    (k : Nat) (r1 r2 : Vec3 T)
    (h1 : Vec3.ofCol (e._G.data.values 1) k = r1)
    (h2 : Vec3.ofCol (e._G.data.values 2) k = r2)
    (hc : r1.cross r2 ≠ Vec3.zero)
    (hs1 : sqrt ((r1.cross r2).dot (r1.cross r2)) * sqrt ((r1.cross r2).dot (r1.cross r2))
      = (r1.cross r2).dot (r1.cross r2)) :
    curveB sqrt r1 r2
      = ((Mat3.identity).sub (Mat3.outer ((r1.cross r2).div ((r1.cross r2).norm sqrt))
          ((r1.cross r2).div ((r1.cross r2).norm sqrt)))).div ((r1.cross r2).norm sqrt) ∧
    ((r1.cross r2).div ((r1.cross r2).norm sqrt)).dot
        ((r1.cross r2).div ((r1.cross r2).norm sqrt)) = 1 ∧
    (∀ d j c, d < e._u.dim → j < e._u.data.actives.length → c < 3 →
      (e.eval sqrt k).coeff (d * e._u.data.actives.length + j) c
        = ((curveB sqrt r1 r2).mulVec
            (((vecFun d ((e._u.data.values 1).coeff j k)).cross r2).add
              (r1.cross (vecFun d ((e._u.data.values 2).coeff j k))))).get c) ∧
    ∀ (p1 p2 dp1 dp2 : Vec3 ℝ), p1.cross p2 ≠ Vec3.zero → ∀ i,
      HasDerivAt
        (fun ε : ℝ =>
          (curveBinormal Real.sqrt (p1.add (Vec3.smul ε dp1))
            (p2.add (Vec3.smul ε dp2))).get i)
        (((curveB Real.sqrt p1 p2).mulVec ((dp1.cross p2).add (p1.cross dp2))).get i) 0 := by
  refine ⟨rfl, curveBinormal_unit sqrt r1 r2 hc hs1, ?_,
    fun p1 p2 dp1 dp2 hp i => curveBinormal_hasDerivAt p1 p2 dp1 dp2 hp i⟩
  intro d j c hd hj hc3
  have hN := cardinality_div_dim e._u (Nat.lt_of_le_of_lt (Nat.zero_le d) hd)
  have h := fillRows_coeff e._u.dim (e._u.cardinality / e._u.dim)
    (bvar1Row sqrt e._u e._G k) (gsMatrix.zero e._u.cardinality e._u.dim) d j c hd
    (by rw [hN]; exact hj) hc3
  have heval : e.eval sqrt k
      = fillRows e._u.dim (e._u.cardinality / e._u.dim) (bvar1Row sqrt e._u e._G k)
          (gsMatrix.zero e._u.cardinality e._u.dim) := rfl
  rw [heval]
  rw [hN] at h ⊢
  have hrow : bvar1Row sqrt e._u e._G k d j
      = (curveB sqrt r1 r2).mulVec
          (((vecFun d ((e._u.data.values 1).coeff j k)).cross r2).add
            (r1.cross (vecFun d ((e._u.data.values 2).coeff j k)))) := by
    simp only [bvar1Row, h1, h2]
    rfl
  rw [← hrow, ← h]

/-- Witness of C16: the curve point with r' = (1, 0, 0) and r'' = (0, 1, 0),
the component d = 2 and the active function j = 0, whose derivatives are 1
and 2; the row of index 4 is (-1, -2, 0). -/
theorem bvar1_eval_rows_witness :
    ((curve_bvar1_expr.mk exSpace exCurve).eval exSqrt 0).coeff
        (2 * exSpace.data.actives.length + 0) 1
      = ((curveB exSqrt ⟨1, 0, 0⟩ ⟨0, 1, 0⟩).mulVec
          (((vecFun 2 ((exSpace.data.values 1).coeff 0 0)).cross ⟨0, 1, 0⟩).add
            ((⟨1, 0, 0⟩ : Vec3 ℚ).cross (vecFun 2 ((exSpace.data.values 2).coeff 0 0))))).get 1 ∧
    ((curve_bvar1_expr.mk exSpace exCurve).eval exSqrt 0).coeff 4 1 = -2 :=
  ⟨(bvar1_eval_rows exSqrt (curve_bvar1_expr.mk exSpace exCurve) 0 ⟨1, 0, 0⟩ ⟨0, 1, 0⟩
      (by decide!) (by decide!) (by decide!) (by decide!)).2.2.1 2 0 1 (by decide) (by decide)
      (by decide),
   by decide!⟩

end Curves

/-! ## Space roles and evaluation flags -/

section Roles

/-- C13 (counterexample): two operands that both carry the space role 1 are
accepted by cderiv2dot; the expression declares Space 1 and its rowVar() is
the null space. -/
theorem cderiv2dot_same_role_counterexample :
    exOperandSpace.Space = 1 ∧ exOperandSpace.rowVar ≠ none ∧
    (cderiv2dot exOperandSpace exOperandSpace).Space = 1 ∧
    (cderiv2dot exOperandSpace exOperandSpace).rowVar = none := by
  decide

/-- C13 (amended): curve_deriv2dot_expr makes no test of the space roles of
its operands: every pair is accepted. It declares Space 1 exactly when one of
the operands has Space 1; its rowVar() is the row variable of the first
operand for the roles (1, 0), of the second operand for the roles (0, 1),
and the null space for every other pair of roles, the pair (1, 1) among
them. -/
theorem cderiv2dot_roles (u v : ExprOperand) :
    (cderiv2dot u v)._u = u ∧ (cderiv2dot u v)._v = v ∧
    ((cderiv2dot u v).Space = 1 ↔ (u.Space = 1 ∨ v.Space = 1)) ∧
    ((cderiv2dot u v).Space = 0 ↔ ¬ (u.Space = 1 ∨ v.Space = 1)) ∧
    (u.Space = 1 ∧ v.Space = 0 → (cderiv2dot u v).rowVar = u.rowVar) ∧
    (u.Space = 0 ∧ v.Space = 1 → (cderiv2dot u v).rowVar = v.rowVar) ∧
    (¬ (u.Space = 1 ∧ v.Space = 0) → ¬ (u.Space = 0 ∧ v.Space = 1) →
      (cderiv2dot u v).rowVar = none) := by
  refine ⟨rfl, rfl, ?_, ?_, ?_, ?_, ?_⟩
  · unfold curve_deriv2dot_expr.Space cderiv2dot curve_deriv2dot_expr.construct
    by_cases h : u.Space = 1 ∨ v.Space = 1
    · simp [h]
    · simp [h]
  · unfold curve_deriv2dot_expr.Space cderiv2dot curve_deriv2dot_expr.construct
    by_cases h : u.Space = 1 ∨ v.Space = 1
    · simp [h]
    · simp [h]
  · intro h
    unfold curve_deriv2dot_expr.rowVar cderiv2dot curve_deriv2dot_expr.construct
    rw [if_pos h]
  · intro h
    unfold curve_deriv2dot_expr.rowVar cderiv2dot curve_deriv2dot_expr.construct
    have h' : ¬ (u.Space = 1 ∧ v.Space = 0) := by
      intro hc
      rw [h.1] at hc
      exact absurd hc.1 (by decide)
    rw [if_neg h', if_pos h]
  · intro h1 h2
    unfold curve_deriv2dot_expr.rowVar cderiv2dot curve_deriv2dot_expr.construct
    rw [if_neg h1, if_neg h2]

/-- C14 (failing input): with one bit per flag and no flag requested before,
the parse of every class requests what its eval reads, except
curve_deriv2dot_expr over a space: its parse leaves the flags of the space at
NEED_DERIV2 alone, and its eval reads values[0] and the active functions of
the space. -/
theorem parse_covers_eval_reads :
    readsCovered exNeed 0 ((curve_binormal_expr.mk exCurve).parse exNeed)._G.data.flags
      binormalEvalReads = true ∧
    readsCovered exNeed 0 ((curve_normal_expr.mk exCurve).parse exNeed)._G.data.flags
      binormalEvalReads = true ∧
    readsCovered exNeed
      ((curve_deriv2_expr.mk exCurve).parse exNeed (fun G => G))._u.data.flags 0
      deriv2MapEvalReads = true ∧
    readsCovered exNeed (curve_deriv2dot_expr.parseMap exNeed (fun G => G) exCurve).data.flags 0
      deriv2MapEvalReads = true ∧
    readsCovered exNeed ((curve_bvar1_expr.mk exSpace exCurve).parse exNeed)._u.data.flags
      ((curve_bvar1_expr.mk exSpace exCurve).parse exNeed)._G.data.flags
      variationEvalReads = true ∧
    readsCovered exNeed ((curve_nvar1_expr.mk exSpace exCurve).parse exNeed)._u.data.flags
      ((curve_nvar1_expr.mk exSpace exCurve).parse exNeed)._G.data.flags
      variationEvalReads = true ∧
    readsCovered exNeed ((curve_Avar1_expr.mk exSpace exCurve).parse exNeed)._u.data.flags
      ((curve_Avar1_expr.mk exSpace exCurve).parse exNeed)._G.data.flags
      variationEvalReads = true ∧
    readsCovered exNeed ((curve_nvar2_expr.mk exSpace exCurve).parse exNeed)._u.data.flags
      ((curve_nvar2_expr.mk exSpace exCurve).parse exNeed)._G.data.flags
      variationEvalReads = true ∧
    (curve_deriv2dot_expr.parseSpace exNeed (fun u => u) exSpace).data.flags
      = exNeed.NEED_DERIV2 ∧
    requested exNeed (curve_deriv2dot_expr.parseSpace exNeed (fun u => u) exSpace).data.flags
      CacheField.values0 = false ∧
    requested exNeed (curve_deriv2dot_expr.parseSpace exNeed (fun u => u) exSpace).data.flags
      CacheField.actives = false ∧
    readsCovered exNeed
      (curve_deriv2dot_expr.parseSpace exNeed (fun u => u) exSpace).data.flags 0
      deriv2dotSpaceEvalReads = false := by
  decide

end Roles

/-! ## The seminorm visitor -/

section Seminorm

/-- C20 (failing input): gsG1ASVisitorResidualSeminormH1::compute returns, and
adds to accumulated, the sum over the quadrature nodes k of
quWeights[k] * sqrt(det(G_k)) * |d1_k - d2_k|^2, the squared Euclidean norm
of the difference of the parametric gradients: the inverse of the Gram
matrix does not enter. For the Jacobian 2 I, one node of weight 1 and the
gradient difference (1, 0) it returns 4, where the sum with G_k^{-1} is 1. -/
theorem compute_omits_inverse_metric {T : Type} [Field T] (sqrt : T → T)
    (v : gsG1ASVisitorResidualSeminormH1 T) (jacobian : Nat → gsMatrix T)
    (quWeights : List T) (accumulated : T) :
    (v.compute sqrt jacobian quWeights accumulated).2.1
      = ∑ k in Finset.range quWeights.length,
          quWeights.getD k 0 * sqrt ((jacobian k).transpose.mul (jacobian k)).determinant
            * ((v.f1ders.col k).sub (v.f2ders.col k)).squaredNorm ∧
    (v.compute sqrt jacobian quWeights accumulated).2.2
      = accumulated + (v.compute sqrt jacobian quWeights accumulated).2.1 ∧
    (exSeminormVisitor.compute exSqrt exJacobian [1] 10).2 = (4, 14) ∧
    seminormH1Spec exSqrt exSeminormVisitor.f1ders exSeminormVisitor.f2ders exJacobian [1]
      = 1 := by
  refine ⟨?_, rfl, by decide!, by decide!⟩
  exact (compute_loop sqrt v jacobian quWeights quWeights.length).2.2

end Seminorm

/-! ## The variation expressions compared -/

section Variations

variable {T : Type}

/-- C28: for every quadrature node with r' x r'' != 0 (the square root being
exact at the squared norm of r' x r''), the tensor B of
curve_bvar1_expr::eval is symmetric and B * b = 0 for the unit binormal b,
and every row of the matrix returned by eval (row d * N + j for the
component d and the active function j) is orthogonal to b. -/
theorem bvar1_rows_orthogonal_to_binormal [LinearOrderedField T] (sqrt : T → T)
    (e : curve_bvar1_expr T) (k : Nat) (r1 r2 : Vec3 T)
    (h1 : Vec3.ofCol (e._G.data.values 1) k = r1)
    (h2 : Vec3.ofCol (e._G.data.values 2) k = r2)
    (hc : r1.cross r2 ≠ Vec3.zero)
    (hs1 : sqrt ((r1.cross r2).dot (r1.cross r2)) * sqrt ((r1.cross r2).dot (r1.cross r2))
      = (r1.cross r2).dot (r1.cross r2)) :
    (curveB sqrt r1 r2).transpose = curveB sqrt r1 r2 ∧
    (curveB sqrt r1 r2).mulVec (curveBinormal sqrt r1 r2) = Vec3.zero ∧
    ∀ d j, d < e._u.dim → j < e._u.data.actives.length →
      (Vec3.mk ((e.eval sqrt k).coeff (d * e._u.data.actives.length + j) 0)
          ((e.eval sqrt k).coeff (d * e._u.data.actives.length + j) 1)
          ((e.eval sqrt k).coeff (d * e._u.data.actives.length + j) 2)).dot
        (curveBinormal sqrt r1 r2) = 0 := by
  have hbb := curveBinormal_unit sqrt r1 r2 hc hs1
  refine ⟨curveB_symm sqrt r1 r2, curveB_mulVec_binormal sqrt r1 r2 hbb, ?_⟩
  intro d j hd hj
  have hN := cardinality_div_dim e._u (Nat.lt_of_le_of_lt (Nat.zero_le d) hd)
  have h := fillRows_coeff e._u.dim (e._u.cardinality / e._u.dim)
    (bvar1Row sqrt e._u e._G k) (gsMatrix.zero e._u.cardinality e._u.dim) d j
  have heval : e.eval sqrt k
      = fillRows e._u.dim (e._u.cardinality / e._u.dim) (bvar1Row sqrt e._u e._G k)
          (gsMatrix.zero e._u.cardinality e._u.dim) := rfl
  rw [heval]
  rw [hN] at h ⊢
  rw [h 0 hd hj (by decide), h 1 hd hj (by decide), h 2 hd hj (by decide)]
  have hrow : bvar1Row sqrt e._u e._G k d j
      = (curveB sqrt r1 r2).mulVec
          (((vecFun d ((e._u.data.values 1).coeff j k)).cross r2).add
            (r1.cross (vecFun d ((e._u.data.values 2).coeff j k)))) := by
    simp only [bvar1Row, h1, h2]
    rfl
  have hget : Vec3.mk ((bvar1Row sqrt e._u e._G k d j).get 0)
      ((bvar1Row sqrt e._u e._G k d j).get 1) ((bvar1Row sqrt e._u e._G k d j).get 2)
      = bvar1Row sqrt e._u e._G k d j := rfl
  rw [hget, hrow]
  exact curveB_mulVec_dot sqrt r1 r2 _ hbb

/-- Witness of C28: the curve point with r' = (1, 0, 0) and r'' = (0, 1, 0),
where b = (0, 0, 1); the row of the component d = 2 and the active function
j = 0 is (-1, -2, 0). -/
theorem bvar1_rows_orthogonal_to_binormal_witness :
    curveBinormal exSqrt ⟨1, 0, 0⟩ ⟨0, 1, 0⟩ = ⟨0, 0, 1⟩ ∧
    ((curve_bvar1_expr.mk exSpace exCurve).eval exSqrt 0).coeff 4 0 = -1 ∧
    (Vec3.mk (((curve_bvar1_expr.mk exSpace exCurve).eval exSqrt 0).coeff
          (2 * exSpace.data.actives.length + 0) 0)
        (((curve_bvar1_expr.mk exSpace exCurve).eval exSqrt 0).coeff
          (2 * exSpace.data.actives.length + 0) 1)
        (((curve_bvar1_expr.mk exSpace exCurve).eval exSqrt 0).coeff
          (2 * exSpace.data.actives.length + 0) 2)).dot
      (curveBinormal exSqrt ⟨1, 0, 0⟩ ⟨0, 1, 0⟩) = 0 :=
  ⟨by decide!, by decide!,
   (bvar1_rows_orthogonal_to_binormal exSqrt (curve_bvar1_expr.mk exSpace exCurve) 0
      ⟨1, 0, 0⟩ ⟨0, 1, 0⟩ (by decide!) (by decide!) (by decide!) (by decide!)).2.2 2 0
      (by decide) (by decide)⟩

end Variations

/-! ## Symmetry of the local matrix and of the storage -/

section Symmetry

variable {T G : Type}

/-- C23: storing the lower triangle loses no information when the local
matrix is symmetric. Starting from the empty (zero) matrix, let F be the
result of scattering every local entry without the triangle test and L the
system matrix after gsVisitorGradGrad::localToGlobal. For every symmetric
localMat and every list of global indices, repeated values included,
F(r, c) = L(r, c) + L(c, r) - diag(L)(r, c) at every position (r, c). -/
theorem full_scatter_from_lower_triangle [AddCommGroup T] (v : gsVisitorGradGrad T)
    (mapper : gsDofMapper) (eliminatedDofs : gsMatrix T) (patchIndex : Nat)
    (rhsMatrix : gsMatrix T)
    (hsym : ∀ i j, i < v.actives.length → j < v.actives.length →
      v.localMat.coeff i j = v.localMat.coeff j i) (r c : Nat) :
    (scatterFull (mapper.localToGlobal v.actives patchIndex) v.localMat
        gsSparseMatrix.empty).coeff r c
      = (v.localToGlobal mapper eliminatedDofs patchIndex gsSparseMatrix.empty
            rhsMatrix).2.1.coeff r c
        + (v.localToGlobal mapper eliminatedDofs patchIndex gsSparseMatrix.empty
            rhsMatrix).2.1.coeff c r
        - (if r = c then
            (v.localToGlobal mapper eliminatedDofs patchIndex gsSparseMatrix.empty
              rhsMatrix).2.1.coeff r r
           else 0) := by
  have hlen : (mapper.localToGlobal v.actives patchIndex).length = v.actives.length := by
    simp [gsDofMapper.localToGlobal]
  have hs := fullSum_symm (fun k => (mapper.localToGlobal v.actives patchIndex).getD k 0)
    v.localMat.coeff (mapper.localToGlobal v.actives patchIndex).length
    (by rw [hlen]; exact hsym) r c
  have he : ∀ a b, (gsSparseMatrix.empty : gsSparseMatrix T).coeff a b = 0 := fun _ _ => rfl
  rw [localToGlobal_sys, coeff_scatterFull, coeff_scatter, coeff_scatter, coeff_scatter,
    scatterSum_eq_fullSum, scatterSum_eq_fullSum, scatterSum_eq_fullSum, he, he, he,
    zero_add, zero_add, zero_add, zero_add]
  rcases Nat.lt_trichotomy r c with h | h | h
  · rw [if_neg (Nat.not_le.mpr h), if_pos (Nat.le_of_lt h), if_neg (Nat.ne_of_lt h), zero_add,
      sub_zero, hs]
  · subst h
    rw [if_pos (Nat.le_refl r), if_pos rfl, add_sub_cancel_right]
  · rw [if_pos (Nat.le_of_lt h), if_neg (Nat.not_le.mpr h), if_neg (Nat.ne_of_gt h), add_zero,
      sub_zero]

/-- Witness of C23: three active functions with the global indices 1, 0, 1
and a symmetric local matrix; at the position (0, 1) above the diagonal the
full scatter holds -4, which is the entry (1, 0) of the lower triangle. -/
theorem full_scatter_from_lower_triangle_witness :
    (∀ i j, i < exVisitor3.actives.length → j < exVisitor3.actives.length →
      exVisitor3.localMat.coeff i j = exVisitor3.localMat.coeff j i) ∧
    (scatterFull (exMapperRepeat.localToGlobal exVisitor3.actives 0) exVisitor3.localMat
        gsSparseMatrix.empty).coeff 0 1 = -4 ∧
    (scatterFull (exMapperRepeat.localToGlobal exVisitor3.actives 0) exVisitor3.localMat
        gsSparseMatrix.empty).coeff 0 1
      = (exVisitor3.localToGlobal exMapperRepeat exEliminated 0 gsSparseMatrix.empty
            exRhs).2.1.coeff 0 1
        + (exVisitor3.localToGlobal exMapperRepeat exEliminated 0 gsSparseMatrix.empty
            exRhs).2.1.coeff 1 0
        - (if 0 = 1 then
            (exVisitor3.localToGlobal exMapperRepeat exEliminated 0 gsSparseMatrix.empty
              exRhs).2.1.coeff 0 0
           else 0) :=
  ⟨fun i j _ _ => exLocalMat3_symm i j, by decide,
   full_scatter_from_lower_triangle exVisitor3 exMapperRepeat exEliminated 0 exRhs
     (fun i j _ _ => exLocalMat3_symm i j) 0 1⟩

/-- C24: the local stiffness matrix that gsVisitorGradGrad::evaluate followed
by assemble produces is symmetric for every input, and it is positive
semi-definite, x^T * localMat * x >= 0 for every vector x, whenever every
product quWeights[k] * measure(k) is non-negative. -/
theorem localMat_symmetric_psd [LinearOrderedCommRing T] (v : gsVisitorGradGrad T)
    (basis : gsBasis T) (ev : gsGeometryEvaluator T G) (geoEval : G) (quNodes : gsMatrix T)
    (quWeights : List T) :
    (∀ i j,
      ((v.evaluate basis ev geoEval quNodes).1.assemble ev
          (v.evaluate basis ev geoEval quNodes).2 quWeights).localMat.coeff i j
        = ((v.evaluate basis ev geoEval quNodes).1.assemble ev
            (v.evaluate basis ev geoEval quNodes).2 quWeights).localMat.coeff j i) ∧
    ((∀ k, k < quWeights.length →
        0 ≤ quWeights.getD k 0 * ev.measure (ev.evaluateAt geoEval quNodes) k) →
      ∀ x : Nat → T,
        0 ≤ ∑ i in Finset.range (basis.active_into (quNodes.col 0)).length,
              ∑ j in Finset.range (basis.active_into (quNodes.col 0)).length,
                x i * ((v.evaluate basis ev geoEval quNodes).1.assemble ev
                    (v.evaluate basis ev geoEval quNodes).2 quWeights).localMat.coeff i j
                  * x j) := by
  obtain ⟨_, _, _, _, h5⟩ := assemble_loop ev (ev.evaluateAt geoEval quNodes) quWeights
    (v.evaluate basis ev geoEval quNodes).1 quWeights.length
  have h6 : ∀ i j,
      ((v.evaluate basis ev geoEval quNodes).1.assemble ev
          (v.evaluate basis ev geoEval quNodes).2 quWeights).localMat.coeff i j
        = ∑ k in Finset.range quWeights.length,
            (quWeights.getD k 0 * ev.measure (ev.evaluateAt geoEval quNodes) k)
              * ∑ d in Finset.range (ev.transformGradients (ev.evaluateAt geoEval quNodes) k
                    (basis.deriv_into quNodes)).rows,
                  (ev.transformGradients (ev.evaluateAt geoEval quNodes) k
                      (basis.deriv_into quNodes)).coeff d i
                    * (ev.transformGradients (ev.evaluateAt geoEval quNodes) k
                        (basis.deriv_into quNodes)).coeff d j := by
    intro i j
    have h := h5 i j
    have hz : (v.evaluate basis ev geoEval quNodes).1.localMat.coeff i j = 0 := rfl
    rw [hz, zero_add] at h
    exact h
  constructor
  · intro i j
    rw [h6 i j, h6 j i]
    apply Finset.sum_congr rfl
    intro k _
    congr 1
    apply Finset.sum_congr rfl
    intro d _
    exact mul_comm _ _
  · intro hw x
    simp only [h6]
    rw [quad_sum_swap]
    apply Finset.sum_nonneg
    intro k hk
    apply mul_nonneg (hw k (Finset.mem_range.mp hk))
    rw [quad_gram]
    apply Finset.sum_nonneg
    intro d _
    exact mul_self_nonneg _

end Symmetry

/-! ## Boxes on an interface -/

section Boxes

/-- C21: in gsMultiBasis::repairInterfaceImpl the box indices of both sides
are shifted to the left onto the common index level, and in a direction
whose orientation is reversed the shifted box [lo, up] of the second side is
replaced by [U - up, U - lo], U being the upper corner of the second side on
the common level; repairInterface2d flips a row in the same way. For every
box with lo < up <= U the subtractions do not wrap around, the flipped box
satisfies lo' < up' <= U and has the width up - lo, and a second flip gives
the box back. The direction map is taken to be injective on the
directions. -/
theorem repairInterface_box_flip (dim rows0 rows1 e0 e1 : Nat) (dirMap : Nat → Nat)
    (dirOrient : Nat → Bool) (upperCorn1 : Nat → Nat) (lo0 up0 lo1 up1 : BoxMatrix)
    (hinj : ∀ a b, a < dim → b < dim → dirMap a = dirMap b → a = b) :
    (∀ i j, i < rows0 → j < dim →
      (shiftBoxesFirst dim rows0 e0 lo0 up0).1 i j = ushl (lo0 i j) e0 ∧
      (shiftBoxesFirst dim rows0 e0 lo0 up0).2 i j = ushl (up0 i j) e0) ∧
    (∀ i jj, i < rows1 → jj < dim → dirOrient jj = true →
      (flipBoxesSecond dim rows1 dirMap dirOrient upperCorn1 e1 lo1 up1).1 i (dirMap jj)
        = ushl (lo1 i (dirMap jj)) e1 ∧
      (flipBoxesSecond dim rows1 dirMap dirOrient upperCorn1 e1 lo1 up1).2 i (dirMap jj)
        = ushl (up1 i (dirMap jj)) e1) ∧
    (∀ i jj, i < rows1 → jj < dim → dirOrient jj = false →
      (flipBoxesSecond dim rows1 dirMap dirOrient upperCorn1 e1 lo1 up1).1 i (dirMap jj)
        = usub (upperCorn1 (dirMap jj)) (ushl (up1 i (dirMap jj)) e1) ∧
      (flipBoxesSecond dim rows1 dirMap dirOrient upperCorn1 e1 lo1 up1).2 i (dirMap jj)
        = usub (upperCorn1 (dirMap jj)) (ushl (lo1 i (dirMap jj)) e1)) ∧
    (∀ U lo up level, flipIntfcRow U (lo, up, level) = (usub U up, usub U lo, level)) ∧
    (∀ U lo up, lo < up → up ≤ U → U < 2 ^ 32 →
      usub U up = U - up ∧ usub U lo = U - lo ∧
      usub U up < usub U lo ∧ usub U lo ≤ U ∧
      usub U lo - usub U up = up - lo ∧
      usub U (usub U lo) = lo ∧ usub U (usub U up) = up) := by
  refine ⟨?_, ?_, ?_, fun _ _ _ _ => rfl, ?_⟩
  · intro i j hi hj
    rw [shiftBoxesFirst_eq]
    have h := flipBoxesSecond_at dim rows0 (fun j => j) (fun _ => true) (fun _ => 0) e0 lo0 up0
      (fun _ _ _ _ hab => hab) i j hi hj
    simpa using h
  · intro i jj hi hjj ho
    have h := flipBoxesSecond_at dim rows1 dirMap dirOrient upperCorn1 e1 lo1 up1 hinj i jj hi
      hjj
    rw [ho] at h
    simpa using h
  · intro i jj hi hjj ho
    have h := flipBoxesSecond_at dim rows1 dirMap dirOrient upperCorn1 e1 lo1 up1 hinj i jj hi
      hjj
    rw [ho] at h
    simpa using h
  · intro U lo up h1 h2 h3
    have hup := usub_of_le U up h2 h3
    have hlo := usub_of_le U lo (by omega) h3
    rw [hup, hlo, usub_of_le U (U - lo) (by omega) h3, usub_of_le U (U - up) (by omega) h3]
    omega

/-- Witness of C21: two directions that the interface swaps, the second one
reversed; the box [1, 3] of the second side, shifted by one level to [2, 6],
is flipped in the column 0 to [8 - 6, 8 - 2] = [2, 6] under the upper corner
8, and is only shifted in the column 1. -/
theorem repairInterface_box_flip_witness :
    (∀ a b, a < 2 → b < 2 → exDirMapSwap a = exDirMapSwap b → a = b) ∧
    (flipBoxesSecond 2 1 exDirMapSwap exDirOrient (fun _ => 8) 1 (fun _ _ => 1)
        (fun _ _ => 3)).1 0 (exDirMapSwap 1) = 2 ∧
    ((flipBoxesSecond 2 1 exDirMapSwap exDirOrient (fun _ => 8) 1 (fun _ _ => 1)
        (fun _ _ => 3)).1 0 (exDirMapSwap 1)
      = usub 8 (ushl 3 1) ∧
     (flipBoxesSecond 2 1 exDirMapSwap exDirOrient (fun _ => 8) 1 (fun _ _ => 1)
        (fun _ _ => 3)).2 0 (exDirMapSwap 1)
      = usub 8 (ushl 1 1)) :=
  ⟨exDirMapSwap_inj, by decide,
   (repairInterface_box_flip 2 0 1 0 1 exDirMapSwap exDirOrient (fun _ => 8)
      (fun _ _ => 0) (fun _ _ => 0) (fun _ _ => 1) (fun _ _ => 3) exDirMapSwap_inj).2.2.1 0 1
      (by decide) (by decide) (by decide)⟩

end Boxes

/-! ## Sample grids and default sizes of the examples -/

section Examples

/-- C26 (failing input): the column index glob = j * numV + i of sampleData
and sampleDataGre multiplies j by numV, not by numU. With numU = 2 and
numV = 3 the grid point (1, 2) gets the column 7, outside the 6 columns of
params and points; with numU = 3 and numV = 2 the grid points (2, 0) and
(0, 1) share the column 2 and the column 5 is never written. For
numU = numV, which the overload with one size uses, the index is in range
and distinct grid points get distinct columns. -/
theorem sampleData_column_index_mismatch :
    sampleDataColumns 2 3 = [0, 3, 6, 1, 4, 7] ∧
    sampleGlob 3 1 2 = 7 ∧ ¬ (sampleGlob 3 1 2 < 2 * 3) ∧
    sampleDataColumns 3 2 = [0, 2, 1, 3, 2, 4] ∧
    sampleGlob 2 2 0 = sampleGlob 2 0 1 ∧ 5 ∉ sampleDataColumns 3 2 ∧
    (∀ n i j, i < n → j < n → sampleGlob n i j < n * n) ∧
    (∀ n i j i' j', i < n → i' < n → sampleGlob n i j = sampleGlob n i' j' →
      i = i' ∧ j = j') := by
  refine ⟨by decide, by decide, by decide, by decide, by decide, by decide, ?_, ?_⟩
  · intro n i j hi hj
    unfold sampleGlob
    calc j * n + i < j * n + n := Nat.add_lt_add_left hi _
      _ = (j + 1) * n := by ring
      _ ≤ n * n := Nat.mul_le_mul_right n hj
  · intro n i j i' j' hi hi' h
    unfold sampleGlob at h
    have hn : 0 < n := Nat.lt_of_le_of_lt (Nat.zero_le i) hi
    have h1 : (j * n + i) % n = (j' * n + i') % n := by rw [h]
    rw [Nat.mul_add_mod_of_lt hi, Nat.mul_add_mod_of_lt hi'] at h1
    subst h1
    have h2 : j * n = j' * n := Nat.add_right_cancel h
    exact ⟨rfl, Nat.eq_of_mul_eq_mul_right hn h2⟩

/-- C29 (failing input): the loops that fill msizes and vsizes multiply the
integer loop variable by the real growth factor and truncate the product.
With msizesmin = 1, msizesfactor = 1.5 and msizesmax = 10 (resp. the same
values for vsizes) each pass appends 1 and leaves the loop variable at 1, so
the loop never reaches its break: no number of passes ends it, and the
list is not strictly increasing. -/
theorem msizes_loop_never_ends :
    (1 : Int) ≤ 1 ∧ (1 : ℚ) < 3 / 2 ∧ (1 : Int) ≤ 10 ∧
    (∀ acc, msizesBody 10 (3 / 2) (1, acc) = ((1, acc ++ [1]), true)) ∧
    (∀ fuel acc, msizesLoop 10 (3 / 2) fuel (1, acc) = none) ∧
    (∀ acc, vsizesBody 10 (3 / 2) (1, acc) = ((1, acc ++ [1]), true)) ∧
    (∀ fuel acc, vsizesLoop 10 (3 / 2) fuel (1, acc) = none) := by
  refine ⟨by decide, by norm_num, by decide, msizesBody_stuck, ?_, vsizesBody_stuck, ?_⟩
  · intro fuel
    induction fuel with
    | zero => intro acc; rfl
    | succ n ih =>
      intro acc
      unfold msizesLoop
      rw [msizesBody_stuck]
      exact ih _
  · intro fuel
    induction fuel with
    | zero => intro acc; rfl
    | succ n ih =>
      intro acc
      unfold vsizesLoop
      rw [vsizesBody_stuck]
      exact ih _

/-- C30 (failing input): the loop that fills asizes stops before asizesmax.
With the defaults asizesmin = 1 and asizesmax = 8 the list is 1, ..., 7; for
all bounds the list holds exactly the integers i with
asizesmin <= i < asizesmax, so that asizesmax itself is never a member. -/
theorem defaultAsizes_excludes_max :
    defaultAsizes 1 8 = [1, 2, 3, 4, 5, 6, 7] ∧
    (∀ asizesmin asizesmax i,
      i ∈ defaultAsizes asizesmin asizesmax ↔ asizesmin ≤ i ∧ i < asizesmax) ∧
    (∀ asizesmin asizesmax, asizesmax ∉ defaultAsizes asizesmin asizesmax) := by
  have hmem : ∀ asizesmin asizesmax i,
      i ∈ defaultAsizes asizesmin asizesmax ↔ asizesmin ≤ i ∧ i < asizesmax := by
    intro lo hi i
    unfold defaultAsizes
    rw [defaultAsizes_loop, List.mem_map]
    constructor
    · rintro ⟨k, hk, rfl⟩
      rw [List.mem_range] at hk
      omega
    · rintro ⟨h1, h2⟩
      refine ⟨(i - lo).toNat, ?_, ?_⟩
      · rw [List.mem_range]; omega
      · omega
  refine ⟨by decide, hmem, ?_⟩
  intro lo hi h
  exact absurd ((hmem lo hi hi).mp h).2 (lt_irrefl _)

end Examples

/-! ## Column accesses of the seminorm visitor -/

section SeminormAccess

variable {T : Type}

/-- C25: the column accesses of gsG1ASVisitorResidualSeminormH1. evaluate
reads the columns 0 .. numActive - 1 of bGrads, which has one column per
quadrature node, and compute reads the column k of f1ders and of f2ders,
which have numActive columns, for every quadrature node k. For solutions
with at least one row, all these reads are in range exactly when the number
of active functions of each of the two bases equals the number of
quadrature nodes. With the rule of initialize, which has degree(i) + 1 nodes
in the direction i and so the product of these numbers of nodes, the reads
are in range for bases with prod_i (degree(i) + 1) active functions on the
element. -/
theorem seminorm_column_accesses [Zero T] [Add T] [Mul T]
    (v : gsG1ASVisitorResidualSeminormH1 T) (basis0 basis1 : gsBasis T)
    (sol0 sol1 : gsSparseMatrix T) (solRows0 solRows1 offset0 offset1 : Nat)
    (quNodes : gsMatrix T)
    (hs0 : 0 < solRows0) (hs1 : 0 < solRows1)
    (hb0 : (basis0.deriv_into quNodes).cols = quNodes.cols)
    (hb1 : (basis1.deriv_into quNodes).cols = quNodes.cols) :
    (v.evaluate basis0 basis1 sol0 sol1 solRows0 solRows1 offset0 offset1 quNodes).1.f1ders.cols
      = (basis0.active_into (quNodes.col 0)).length ∧
    (v.evaluate basis0 basis1 sol0 sol1 solRows0 solRows1 offset0 offset1 quNodes).1.f2ders.cols
      = (basis1.active_into (quNodes.col 0)).length ∧
    (((∀ a ∈ (v.evaluate basis0 basis1 sol0 sol1 solRows0 solRows1 offset0 offset1
            quNodes).2, a.inRange = true) ∧
       (∀ a ∈ (v.evaluate basis0 basis1 sol0 sol1 solRows0 solRows1 offset0 offset1
            quNodes).1.computeAccesses quNodes.cols, a.inRange = true))
      ↔ ((basis0.active_into (quNodes.col 0)).length = quNodes.cols ∧
         (basis1.active_into (quNodes.col 0)).length = quNodes.cols)) ∧
    ∀ (R : Type) (gsGaussRule : List Nat → R) (numNodes : R → Nat) (need : gsNeedEnum)
      (shape : gsBasisShape) (rule : R) (evFlags : Nat),
      (∀ l, numNodes (gsGaussRule l) = l.prod) →
      quNodes.cols = numNodes
        (gsG1ASVisitorResidualSeminormH1.initializeVisitor need gsGaussRule shape rule
          evFlags).1 →
      (basis0.active_into (quNodes.col 0)).length
        = ∏ i in Finset.range shape.dim, (shape.degree i + 1) →
      (basis1.active_into (quNodes.col 0)).length
        = ∏ i in Finset.range shape.dim, (shape.degree i + 1) →
      ((∀ a ∈ (v.evaluate basis0 basis1 sol0 sol1 solRows0 solRows1 offset0 offset1
            quNodes).2, a.inRange = true) ∧
       (∀ a ∈ (v.evaluate basis0 basis1 sol0 sol1 solRows0 solRows1 offset0 offset1
            quNodes).1.computeAccesses quNodes.cols, a.inRange = true)) := by
  have hc0 := (evaluateSide_log sol0 solRows0 offset0 (basis0.active_into (quNodes.col 0))
    (basis0.deriv_into quNodes)).1
  have hc1 := (evaluateSide_log sol1 solRows1 offset1 (basis1.active_into (quNodes.col 0))
    (basis1.deriv_into quNodes)).1
  have he0 := evaluateSide_inRange sol0 solRows0 offset0 (basis0.active_into (quNodes.col 0))
    (basis0.deriv_into quNodes) hs0
  have he1 := evaluateSide_inRange sol1 solRows1 offset1 (basis1.active_into (quNodes.col 0))
    (basis1.deriv_into quNodes) hs1
  have hcomp := computeAccesses_inRange
    (v.evaluate basis0 basis1 sol0 sol1 solRows0 solRows1 offset0 offset1 quNodes).1
    quNodes.cols
  have hiff : ((∀ a ∈ (v.evaluate basis0 basis1 sol0 sol1 solRows0 solRows1 offset0 offset1
            quNodes).2, a.inRange = true) ∧
       (∀ a ∈ (v.evaluate basis0 basis1 sol0 sol1 solRows0 solRows1 offset0 offset1
            quNodes).1.computeAccesses quNodes.cols, a.inRange = true))
      ↔ ((basis0.active_into (quNodes.col 0)).length = quNodes.cols ∧
         (basis1.active_into (quNodes.col 0)).length = quNodes.cols) := by
    rw [hcomp]
    show ((∀ a ∈ (gsG1ASVisitorResidualSeminormH1.evaluateSide sol0 solRows0 offset0
              (basis0.active_into (quNodes.col 0)) (basis0.deriv_into quNodes)).2
            ++ (gsG1ASVisitorResidualSeminormH1.evaluateSide sol1 solRows1 offset1
              (basis1.active_into (quNodes.col 0)) (basis1.deriv_into quNodes)).2,
            a.inRange = true) ∧
        (quNodes.cols ≤ (gsG1ASVisitorResidualSeminormH1.evaluateSide sol0 solRows0 offset0
              (basis0.active_into (quNodes.col 0)) (basis0.deriv_into quNodes)).1.cols ∧
         quNodes.cols ≤ (gsG1ASVisitorResidualSeminormH1.evaluateSide sol1 solRows1 offset1
              (basis1.active_into (quNodes.col 0)) (basis1.deriv_into quNodes)).1.cols)) ↔ _
    rw [hc0, hc1, List.forall_mem_append, he0, he1, hb0, hb1]
    omega
  refine ⟨hc0, hc1, hiff, ?_⟩
  intro R gsGaussRule numNodes need shape rule evFlags hrule hq h0 h1
  rw [hiff]
  have hn : quNodes.cols = ∏ i in Finset.range shape.dim, (shape.degree i + 1) := by
    rw [hq]
    unfold gsG1ASVisitorResidualSeminormH1.initializeVisitor
    rw [hrule, prod_numQuadNodes]
  rw [h0, h1, hn]
  exact ⟨rfl, rfl⟩

/-- Witness of C25: one quadrature node and bases with one active function;
the single read of evaluate on each side and the two reads of compute are in
range. -/
theorem seminorm_column_accesses_witness :
    (0 < 1) ∧ (exBasisOne.deriv_into exQuNodes).cols = exQuNodes.cols ∧
    ((gsG1ASVisitorResidualSeminormH1.mk (gsMatrix.zero 0 0) (gsMatrix.zero 0 0)
        (gsMatrix.zero 0 0) (gsMatrix.zero 0 0) false).evaluate exBasisOne exBasisOne
        exSolution exSolution 1 1 0 0 exQuNodes).2 = [⟨0, 1, 1⟩, ⟨0, 1, 1⟩] ∧
    (((∀ a ∈ ((gsG1ASVisitorResidualSeminormH1.mk (gsMatrix.zero 0 0) (gsMatrix.zero 0 0)
          (gsMatrix.zero 0 0) (gsMatrix.zero 0 0) false).evaluate exBasisOne exBasisOne
          exSolution exSolution 1 1 0 0 exQuNodes).2, a.inRange = true) ∧
      (∀ a ∈ ((gsG1ASVisitorResidualSeminormH1.mk (gsMatrix.zero 0 0) (gsMatrix.zero 0 0)
          (gsMatrix.zero 0 0) (gsMatrix.zero 0 0) false).evaluate exBasisOne exBasisOne
          exSolution exSolution 1 1 0 0 exQuNodes).1.computeAccesses exQuNodes.cols,
          a.inRange = true))
      ↔ ((exBasisOne.active_into (exQuNodes.col 0)).length = exQuNodes.cols ∧
         (exBasisOne.active_into (exQuNodes.col 0)).length = exQuNodes.cols)) :=
  ⟨by decide, rfl, by decide,
   (seminorm_column_accesses
      (gsG1ASVisitorResidualSeminormH1.mk (gsMatrix.zero 0 0) (gsMatrix.zero 0 0)
        (gsMatrix.zero 0 0) (gsMatrix.zero 0 0) false) exBasisOne exBasisOne
      exSolution exSolution 1 1 0 0 exQuNodes (by decide) (by decide) rfl rfl).2.2.1⟩

end SeminormAccess

/-! ## The merge of the interface knot spans -/

section Merge

/-- C22: the merge of the knot spans in gsMultiBasis::repairInterface2d.
Given the rows (start, end, level) of the two sides, each a list of
contiguous non-empty knot spans that starts at the knot 0 (such rows are
sorted), with the same end knot in the last rows, the assertion passes and
the loop ends within intfc0.rows() + intfc1.rows() passes, with both
indices at the number of rows of their side. The end knots of the merged
vector intfcU are strictly increasing and are exactly the end knots of the
two sides together; every merged span, from the end knot of the previous
row (0 for the first row) to its own end knot, is not empty, lies in a span
of the first side whose level is its second entry and in a span of the
second side whose level is its third entry, and every span of a side that
contains it has that level. -/
theorem repairInterface2d_merge (intfc0 intfc1 : List IntfcRow)
    (hne0 : intfc0 ≠ []) (hne1 : intfc1 ≠ [])
    (hc0 : contiguousSpans intfc0) (hc1 : contiguousSpans intfc1)
    (hz0 : ∀ a ∈ intfc0.head?, a.1 = 0) (hz1 : ∀ b ∈ intfc1.head?, b.1 = 0)
    (hlast : (intfcRowAt intfc0 (intfc0.length - 1)).2.1
      = (intfcRowAt intfc1 (intfc1.length - 1)).2.1) :
    ∃ intfcU,
      mergeInterfaces intfc0 intfc1
        = Except.ok (some ⟨intfc0.length, intfc1.length, intfcU⟩) ∧
      List.Pairwise (fun x y => x < y) (intfcU.map (fun m => m.1)) ∧
      (∀ e, e ∈ intfcU.map (fun m => m.1)
        ↔ e ∈ intfc0.map (fun r => r.2.1) ∨ e ∈ intfc1.map (fun r => r.2.1)) ∧
      (∀ qm ∈ mergedSpans 0 intfcU, qm.1 < qm.2.1) ∧
      spanLevels (fun m => m.2.1) intfc0 (mergedSpans 0 intfcU) ∧
      spanLevels (fun m => m.2.2) intfc1 (mergedSpans 0 intfcU) := by
  have hh : ∀ (l : List IntfcRow), contiguousSpans l → (∀ a ∈ l.head?, a.1 = 0) →
      ∀ a ∈ l.head?, a.1 ≤ 0 ∧ 0 < a.2.1 := by
    intro l hc hz a ha
    have h1 := hz a ha
    have h2 := hc.2 a (List.mem_of_mem_head? ha)
    omega
  obtain ⟨R, hR, _, h2, h3, h4, h5, h6⟩ := mergeLoop_spec intfc0 intfc1
    (intfc0.length + intfc1.length) intfc0 intfc1 0 0 [] 0 rfl rfl (Nat.zero_le _)
    (Nat.zero_le _) (le_refl _) hc0 hc1 (hh intfc0 hc0 hz0) (hh intfc1 hc1 hz1)
    (by rw [lastEnd_eq_rowAt intfc0 hne0, lastEnd_eq_rowAt intfc1 hne1, hlast])
  refine ⟨R, ?_, h2, h3, fun qm hqm => (h4 qm hqm).2, h5, h6⟩
  unfold mergeInterfaces
  rw [if_pos hlast, hR, List.nil_append]

/-- Witness of C22: the first side has the spans 0-2 and 2-4 of the levels
1 and 2, the second side the spans 0-1 and 1-4 of the levels 3 and 1; the
merged vector has the end knots 1, 2, 4 with the level pairs (1, 3), (1, 1)
and (2, 1). -/
theorem repairInterface2d_merge_witness :
    contiguousSpans exIntfc0 ∧ contiguousSpans exIntfc1 ∧
    mergeInterfaces exIntfc0 exIntfc1
      = Except.ok (some ⟨2, 2, [(1, 1, 3), (2, 1, 1), (4, 2, 1)]⟩) ∧
    ∃ intfcU,
      mergeInterfaces exIntfc0 exIntfc1
        = Except.ok (some ⟨exIntfc0.length, exIntfc1.length, intfcU⟩) ∧
      List.Pairwise (fun x y => x < y) (intfcU.map (fun m => m.1)) ∧
      (∀ e, e ∈ intfcU.map (fun m => m.1)
        ↔ e ∈ exIntfc0.map (fun r => r.2.1) ∨ e ∈ exIntfc1.map (fun r => r.2.1)) ∧
      (∀ qm ∈ mergedSpans 0 intfcU, qm.1 < qm.2.1) ∧
      spanLevels (fun m => m.2.1) exIntfc0 (mergedSpans 0 intfcU) ∧
      spanLevels (fun m => m.2.2) exIntfc1 (mergedSpans 0 intfcU) :=
  ⟨exIntfc0_contiguous, exIntfc1_contiguous, rfl,
   repairInterface2d_merge exIntfc0 exIntfc1 (by decide) (by decide)
     exIntfc0_contiguous exIntfc1_contiguous (by decide) (by decide) (by decide)⟩

end Merge

/-! ## The size test in the element loop -/

section ShapeTest

variable {T G : Type}

/-- C10: if, at some quadrature node of the element, the number of columns
of the physical gradient matrix differs from the number of active functions
that the basis reports, evaluate followed by assemble ends in an error
instead of a local matrix: the sum into localMat is refused at the first
such node by the size test of the matrix library (the visitor has no test of
its own). If the numbers agree at every node, assemble ends without error
with the local matrix of the accumulation. -/
theorem assemble_reports_shape_mismatch [Semiring T] (v : gsVisitorGradGrad T)
    (basis : gsBasis T) (ev : gsGeometryEvaluator T G) (geoEval : G) (quNodes : gsMatrix T)
    (quWeights : List T) (k : Nat) (hk : k < quWeights.length)
    (hmis : (ev.transformGradients (ev.evaluateAt geoEval quNodes) k
        (basis.deriv_into quNodes)).cols ≠ (basis.active_into (quNodes.col 0)).length) :
    (∃ err, (v.evaluate basis ev geoEval quNodes).1.assembleChecked ev
        (v.evaluate basis ev geoEval quNodes).2 quWeights = Except.error err) ∧
    ∀ (basis' : gsBasis T),
      (∀ k', k' < quWeights.length →
        (ev.transformGradients (ev.evaluateAt geoEval quNodes) k'
          (basis'.deriv_into quNodes)).cols = (basis'.active_into (quNodes.col 0)).length) →
      (v.evaluate basis' ev geoEval quNodes).1.assembleChecked ev
          (v.evaluate basis' ev geoEval quNodes).2 quWeights
        = Except.ok ((v.evaluate basis' ev geoEval quNodes).1.assemble ev
            (v.evaluate basis' ev geoEval quNodes).2 quWeights) := by
  constructor
  · exact assembleChecked_mismatch ev (ev.evaluateAt geoEval quNodes) quWeights
      (v.evaluate basis ev geoEval quNodes).1 quWeights.length
      ⟨k, hk, fun hc => hmis hc.1⟩
  · intro basis' hall
    exact assembleChecked_matching ev (ev.evaluateAt geoEval quNodes) quWeights
      (v.evaluate basis' ev geoEval quNodes).1 quWeights.length
      (fun k' hk' => ⟨hall k' hk', hall k' hk'⟩)

/-- Witness of C10: the basis reports two active functions and the physical
gradient matrix of the single node has three columns; the sum of the 3 x 3
product into the 2 x 2 local matrix is refused. -/
theorem assemble_reports_shape_mismatch_witness :
    (exGeo.transformGradients (exGeo.evaluateAt () exQuNodes) 0
        (exBasisMismatch.deriv_into exQuNodes)).cols = 3 ∧
    (exBasisMismatch.active_into (exQuNodes.col 0)).length = 2 ∧
    (exVisitor.evaluate exBasisMismatch exGeo () exQuNodes).1.assembleChecked exGeo
        (exVisitor.evaluate exBasisMismatch exGeo () exQuNodes).2 exQuWeights
      = Except.error (EigenError.sizeMismatch 2 2 3 3) ∧
    ∃ err, (exVisitor.evaluate exBasisMismatch exGeo () exQuNodes).1.assembleChecked exGeo
        (exVisitor.evaluate exBasisMismatch exGeo () exQuNodes).2 exQuWeights
      = Except.error err :=
  ⟨rfl, rfl, rfl,
   (assemble_reports_shape_mismatch exVisitor exBasisMismatch exGeo () exQuNodes exQuWeights 0
      (by decide) (by decide)).1⟩

end ShapeTest

/-! ## The references returned by the binormal and the normal -/

section Dangling

variable {T : Type}

/-- C17 (failing input): curve_binormal_expr::eval and curve_normal_expr::eval
have the return type const gsMatrix<Scalar> & and return the temporary
(...).normalized(). For every curve and node the object of the returned
reference is gone when the caller reads it, so that no defined vector is
handed back. The temporary itself held the value of the claim: the
binormal b = (r' x r'') / ||r' x r''|| and the normal n = (b x r') / ||b x r'||,
which for r' x r'' != 0 (the square root being exact at the squared norms of
r' x r'' and of r') are unit vectors with b.r' = 0, b.r'' = 0, n.b = 0 and
n.r' = 0. -/
theorem binormal_normal_eval_dangling [LinearOrderedField T] (sqrt : T → T)
    (G : gsGeometryMap T) (k : Nat) :
    ((curve_binormal_expr.mk G).eval sqrt k).read = none ∧
    ((curve_normal_expr.mk G).eval sqrt k).read = none ∧
    ((curve_binormal_expr.mk exCurve).eval exSqrt 0).read = none ∧
    ((curve_binormal_expr.mk exCurve).eval exSqrt 0).referent = ⟨0, 0, 1⟩ ∧
    ((curve_normal_expr.mk exCurve).eval exSqrt 0).read = none ∧
    ((curve_normal_expr.mk exCurve).eval exSqrt 0).referent = ⟨0, 1, 0⟩ ∧
    ((curve_binormal_expr.mk G).eval sqrt k).referent
      = ((Vec3.ofCol (G.data.values 1) k).cross (Vec3.ofCol (G.data.values 2) k)).div
          (((Vec3.ofCol (G.data.values 1) k).cross (Vec3.ofCol (G.data.values 2) k)).norm
            sqrt) ∧
    ((curve_normal_expr.mk G).eval sqrt k).referent
      = ((((curve_binormal_expr.mk G).eval sqrt k).referent).cross
            (Vec3.ofCol (G.data.values 1) k)).div
          (((((curve_binormal_expr.mk G).eval sqrt k).referent).cross
            (Vec3.ofCol (G.data.values 1) k)).norm sqrt) ∧
    ∀ (r1 r2 : Vec3 T), Vec3.ofCol (G.data.values 1) k = r1 →
      Vec3.ofCol (G.data.values 2) k = r2 → r1.cross r2 ≠ Vec3.zero →
      sqrt ((r1.cross r2).dot (r1.cross r2)) * sqrt ((r1.cross r2).dot (r1.cross r2))
        = (r1.cross r2).dot (r1.cross r2) →
      sqrt (r1.dot r1) * sqrt (r1.dot r1) = r1.dot r1 →
      (((curve_binormal_expr.mk G).eval sqrt k).referent).dot
          (((curve_binormal_expr.mk G).eval sqrt k).referent) = 1 ∧
      (((curve_normal_expr.mk G).eval sqrt k).referent).dot
          (((curve_normal_expr.mk G).eval sqrt k).referent) = 1 ∧
      (((curve_binormal_expr.mk G).eval sqrt k).referent).dot r1 = 0 ∧
      (((curve_binormal_expr.mk G).eval sqrt k).referent).dot r2 = 0 ∧
      (((curve_normal_expr.mk G).eval sqrt k).referent).dot
          (((curve_binormal_expr.mk G).eval sqrt k).referent) = 0 ∧
      (((curve_normal_expr.mk G).eval sqrt k).referent).dot r1 = 0 := by
  refine ⟨rfl, rfl, rfl, by decide!, rfl, by decide!, rfl, rfl, ?_⟩
  intro r1 r2 h1 h2 hc hs1 hs3
  have hb : ((curve_binormal_expr.mk G).eval sqrt k).referent = curveBinormal sqrt r1 r2 := by
    simp only [curve_binormal_expr.eval, h1, h2]
    rfl
  have hn : ((curve_normal_expr.mk G).eval sqrt k).referent = curveNormal sqrt r1 r2 := by
    simp only [curve_normal_expr.eval, h1, h2]
    rfl
  obtain ⟨hbb, hb1, hb2, _, _, _, _, hnn, hnb, hn1⟩ := curve_frame sqrt r1 r2 hc hs1 hs3
  rw [hb, hn]
  exact ⟨hbb, hnn, hb1, hb2, hnb, hn1⟩

end Dangling

/-! ## The variations of the normal -/

section NormalVariations

variable {T : Type}

/-- C12 (failing input): the matrix returned by the eval of curve_bvar1_expr has
rows() * cardinality rows and cols() columns for every space, map and node.
The eval of curve_nvar1_expr, curve_nvar2_expr and curve_Avar1_expr returns no
matrix when the space has a component and an active function: the first pass
of the loop multiplies the 3 x 3 tensor B by a matrix of shape 1 x 3, which
the library refuses. For a space of three components with two active
functions, where rows() * cardinality is 6, the three evals end in that
error. When the space has no active function, the loop is empty and
curve_Avar1_expr returns its member Avar1 of shape 3 x 3 where the two others
return res. -/
theorem variation_eval_shapes [Field T] (sqrt : T → T) (u : gsFeSpace T)
    (G : gsGeometryMap T) (k : Nat) (Avar1 : Mat3 T) :
    (((curve_bvar1_expr.mk u G).eval sqrt k).rows
        = (curve_bvar1_expr.mk u G).rows * u.cardinality ∧
      ((curve_bvar1_expr.mk u G).eval sqrt k).cols = (curve_bvar1_expr.mk u G).cols) ∧
    (0 < u.dim → 0 < u.data.actives.length →
      (curve_nvar1_expr.mk u G).eval sqrt k
        = Except.error (EigenError.invalidProduct 3 3 1 3) ∧
      (curve_nvar2_expr.mk u G).eval sqrt k
        = Except.error (EigenError.invalidProduct 3 3 1 3) ∧
      (curve_Avar1_expr.mk u G).eval sqrt Avar1 k
        = Except.error (EigenError.invalidProduct 3 3 1 3)) ∧
    (u.data.actives.length = 0 →
      (curve_nvar1_expr.mk u G).eval sqrt k
        = Except.ok (gsMatrix.zero u.cardinality (curve_nvar1_expr.mk u G).cols) ∧
      (curve_nvar2_expr.mk u G).eval sqrt k
        = Except.ok (gsMatrix.zero u.cardinality (curve_nvar2_expr.mk u G).cols) ∧
      (curve_Avar1_expr.mk u G).eval sqrt Avar1 k = Except.ok Avar1.toMatrix ∧
      Avar1.toMatrix.rows = 3 ∧ Avar1.toMatrix.cols = 3) ∧
    ((curve_Avar1_expr.mk exSpace exCurve).rows * exSpace.cardinality = 6 ∧
      (curve_Avar1_expr.mk exSpace exCurve).cols = 3 ∧
      (curve_Avar1_expr.mk exSpace exCurve).eval exSqrt exAvar1 0
        = Except.error (EigenError.invalidProduct 3 3 1 3) ∧
      (curve_nvar1_expr.mk exSpace exCurve).eval exSqrt 0
        = Except.error (EigenError.invalidProduct 3 3 1 3) ∧
      (curve_nvar2_expr.mk exSpace exCurve).eval exSqrt 0
        = Except.error (EigenError.invalidProduct 3 3 1 3) ∧
      (curve_Avar1_expr.mk exSpaceEmpty exCurve).rows * exSpaceEmpty.cardinality = 0 ∧
      (curve_Avar1_expr.mk exSpaceEmpty exCurve).eval exSqrt exAvar1 0
        = Except.ok exAvar1.toMatrix) := by
  refine ⟨?_, ?_, ?_, ?_⟩
  · have h := fillRows_shape u.dim (u.cardinality / u.dim) (bvar1Row sqrt u G k)
      (gsMatrix.zero u.cardinality u.dim)
    exact ⟨h.1.trans (one_mul _).symm, h.2⟩
  · intro hd ha
    exact ⟨nvar1_eval_error sqrt _ k hd ha, nvar2_eval_error sqrt _ k hd ha,
      Avar1_eval_error sqrt Avar1 _ k hd ha⟩
  · intro ha
    exact ⟨nvar1_eval_empty sqrt _ k ha, nvar2_eval_empty sqrt _ k ha,
      Avar1_eval_empty sqrt Avar1 _ k ha, rfl, rfl⟩
  · exact ⟨by decide, rfl,
      Avar1_eval_error exSqrt exAvar1 _ 0 (by decide) (by decide),
      nvar1_eval_error exSqrt _ 0 (by decide) (by decide),
      nvar2_eval_error exSqrt _ 0 (by decide) (by decide),
      by decide, Avar1_eval_empty exSqrt exAvar1 _ 0 rfl⟩

end NormalVariations

/-! ## The peer of a boundary function -/

section Peer

variable {M : Type}

/-- C7: gsMultiBasis::matchInterfaceHTensor calls matchDof once for every
boundary function b of the first side, in order, and matches b with the
function of the second side whose tensor index on the level L of b is the
peer t1 of the tensor index t0 of b: t1[second.direction] = N - 1 if
second.parameter else 0 and, for every other j, t1[dirMap[j]] = t0[j] if
dirOrient[j] else N[dirMap[j]] - 1 - t0[j], N being the component sizes of
the second basis on L. The preconditions are that dirMap is a permutation
of the directions sending first.direction to second.direction and that
t0[j] < N[dirMap[j]] for all j and all boundary functions (sizes being
unsigned values). Then the loop of the code computes this t1 with no
wrap-around of the unsigned subtractions, t1 lies within [0, N) in every
direction and on the face of the second side, and two boundary functions of
one level with distinct tensor indices get distinct peers. -/
theorem matchInterfaceHTensor_peer (dim : Nat) (mb : gsMultiBasis)
    (matchDof : M → Nat → Nat → Nat → Nat → M) (bi : boundaryInterface) (mapper : M)
    (hdir1 : bi.first.direction < dim)
    (hmap : bi.dirMap bi.first.direction = bi.second.direction)
    (hrange : ∀ j, j < dim → bi.dirMap j < dim)
    (hinj : ∀ j, j < dim → ∀ j', j' < dim → bi.dirMap j = bi.dirMap j' → j = j')
    (hN : ∀ b ∈ (mb.m_bases bi.first.patch).boundary bi.first, ∀ j, j < dim →
      (mb.m_bases bi.second.patch).hier.levelComponentSize
        ((mb.m_bases bi.first.patch).hier.levelOf b) j < 2 ^ 32)
    (ht0 : ∀ b ∈ (mb.m_bases bi.first.patch).boundary bi.first, ∀ j, j < dim →
      (mb.m_bases bi.first.patch).hier.tensorIndex
          ((mb.m_bases bi.first.patch).hier.levelOf b)
          ((mb.m_bases bi.first.patch).hier.flatTensorIndexOf b) j
        < (mb.m_bases bi.second.patch).hier.levelComponentSize
            ((mb.m_bases bi.first.patch).hier.levelOf b) (bi.dirMap j)) :
    mb.matchInterfaceHTensor dim matchDof bi mapper
      = ((mb.m_bases bi.first.patch).boundary bi.first).foldl
          (fun m b => matchDof m bi.first.patch b bi.second.patch
            ((mb.m_bases bi.second.patch).hier.flatTensorIndexToHierachicalIndex
              ((mb.m_bases bi.second.patch).hier.levelIndex
                ((mb.m_bases bi.first.patch).hier.levelOf b)
                (peerTensorSpec dim bi.dirMap bi.dirOrientation bi.second.direction
                  bi.second.parameter
                  ((mb.m_bases bi.second.patch).hier.levelComponentSize
                    ((mb.m_bases bi.first.patch).hier.levelOf b))
                  ((mb.m_bases bi.first.patch).hier.tensorIndex
                    ((mb.m_bases bi.first.patch).hier.levelOf b)
                    ((mb.m_bases bi.first.patch).hier.flatTensorIndexOf b))))
              ((mb.m_bases bi.first.patch).hier.levelOf b)))
          mapper ∧
    (∀ b ∈ (mb.m_bases bi.first.patch).boundary bi.first,
      peerTensorIndex dim bi.dirMap bi.dirOrientation bi.second.direction bi.second.parameter
          ((mb.m_bases bi.second.patch).hier.levelComponentSize
            ((mb.m_bases bi.first.patch).hier.levelOf b))
          ((mb.m_bases bi.first.patch).hier.tensorIndex
            ((mb.m_bases bi.first.patch).hier.levelOf b)
            ((mb.m_bases bi.first.patch).hier.flatTensorIndexOf b)) tens1Start
        = peerTensorSpec dim bi.dirMap bi.dirOrientation bi.second.direction
            bi.second.parameter
            ((mb.m_bases bi.second.patch).hier.levelComponentSize
              ((mb.m_bases bi.first.patch).hier.levelOf b))
            ((mb.m_bases bi.first.patch).hier.tensorIndex
              ((mb.m_bases bi.first.patch).hier.levelOf b)
              ((mb.m_bases bi.first.patch).hier.flatTensorIndexOf b)) ∧
      (bi.second.parameter = true →
        1 ≤ (mb.m_bases bi.second.patch).hier.levelComponentSize
              ((mb.m_bases bi.first.patch).hier.levelOf b) bi.second.direction) ∧
      (∀ j, j < dim → bi.dirMap j ≠ bi.second.direction →
        (mb.m_bases bi.first.patch).hier.tensorIndex
            ((mb.m_bases bi.first.patch).hier.levelOf b)
            ((mb.m_bases bi.first.patch).hier.flatTensorIndexOf b) j
          ≤ (mb.m_bases bi.second.patch).hier.levelComponentSize
              ((mb.m_bases bi.first.patch).hier.levelOf b) (bi.dirMap j) - 1 ∧
        peerTensorSpec dim bi.dirMap bi.dirOrientation bi.second.direction
            bi.second.parameter
            ((mb.m_bases bi.second.patch).hier.levelComponentSize
              ((mb.m_bases bi.first.patch).hier.levelOf b))
            ((mb.m_bases bi.first.patch).hier.tensorIndex
              ((mb.m_bases bi.first.patch).hier.levelOf b)
              ((mb.m_bases bi.first.patch).hier.flatTensorIndexOf b)) (bi.dirMap j)
          = (if bi.dirOrientation j = true then
              (mb.m_bases bi.first.patch).hier.tensorIndex
                ((mb.m_bases bi.first.patch).hier.levelOf b)
                ((mb.m_bases bi.first.patch).hier.flatTensorIndexOf b) j
             else
              (mb.m_bases bi.second.patch).hier.levelComponentSize
                  ((mb.m_bases bi.first.patch).hier.levelOf b) (bi.dirMap j) - 1
                - (mb.m_bases bi.first.patch).hier.tensorIndex
                    ((mb.m_bases bi.first.patch).hier.levelOf b)
                    ((mb.m_bases bi.first.patch).hier.flatTensorIndexOf b) j)) ∧
      peerTensorSpec dim bi.dirMap bi.dirOrientation bi.second.direction
          bi.second.parameter
          ((mb.m_bases bi.second.patch).hier.levelComponentSize
            ((mb.m_bases bi.first.patch).hier.levelOf b))
          ((mb.m_bases bi.first.patch).hier.tensorIndex
            ((mb.m_bases bi.first.patch).hier.levelOf b)
            ((mb.m_bases bi.first.patch).hier.flatTensorIndexOf b)) bi.second.direction
        = (if bi.second.parameter = true then
            (mb.m_bases bi.second.patch).hier.levelComponentSize
              ((mb.m_bases bi.first.patch).hier.levelOf b) bi.second.direction - 1
           else 0) ∧
      (∀ jj, jj < dim →
        peerTensorSpec dim bi.dirMap bi.dirOrientation bi.second.direction
            bi.second.parameter
            ((mb.m_bases bi.second.patch).hier.levelComponentSize
              ((mb.m_bases bi.first.patch).hier.levelOf b))
            ((mb.m_bases bi.first.patch).hier.tensorIndex
              ((mb.m_bases bi.first.patch).hier.levelOf b)
              ((mb.m_bases bi.first.patch).hier.flatTensorIndexOf b)) jj
          < (mb.m_bases bi.second.patch).hier.levelComponentSize
              ((mb.m_bases bi.first.patch).hier.levelOf b) jj)) ∧
    (∀ b ∈ (mb.m_bases bi.first.patch).boundary bi.first,
      ∀ b' ∈ (mb.m_bases bi.first.patch).boundary bi.first,
      (mb.m_bases bi.first.patch).hier.levelOf b
        = (mb.m_bases bi.first.patch).hier.levelOf b' →
      (mb.m_bases bi.first.patch).hier.tensorIndex
          ((mb.m_bases bi.first.patch).hier.levelOf b)
          ((mb.m_bases bi.first.patch).hier.flatTensorIndexOf b) bi.first.direction
        = (mb.m_bases bi.first.patch).hier.tensorIndex
            ((mb.m_bases bi.first.patch).hier.levelOf b')
            ((mb.m_bases bi.first.patch).hier.flatTensorIndexOf b') bi.first.direction →
      (∃ j, j < dim ∧
        (mb.m_bases bi.first.patch).hier.tensorIndex
            ((mb.m_bases bi.first.patch).hier.levelOf b)
            ((mb.m_bases bi.first.patch).hier.flatTensorIndexOf b) j
          ≠ (mb.m_bases bi.first.patch).hier.tensorIndex
              ((mb.m_bases bi.first.patch).hier.levelOf b')
              ((mb.m_bases bi.first.patch).hier.flatTensorIndexOf b') j) →
      ∃ jj, jj < dim ∧
        peerTensorSpec dim bi.dirMap bi.dirOrientation bi.second.direction
            bi.second.parameter
            ((mb.m_bases bi.second.patch).hier.levelComponentSize
              ((mb.m_bases bi.first.patch).hier.levelOf b))
            ((mb.m_bases bi.first.patch).hier.tensorIndex
              ((mb.m_bases bi.first.patch).hier.levelOf b)
              ((mb.m_bases bi.first.patch).hier.flatTensorIndexOf b)) jj
          ≠ peerTensorSpec dim bi.dirMap bi.dirOrientation bi.second.direction
              bi.second.parameter
              ((mb.m_bases bi.second.patch).hier.levelComponentSize
                ((mb.m_bases bi.first.patch).hier.levelOf b'))
              ((mb.m_bases bi.first.patch).hier.tensorIndex
                ((mb.m_bases bi.first.patch).hier.levelOf b')
                ((mb.m_bases bi.first.patch).hier.flatTensorIndexOf b')) jj) := by
  have hspec : ∀ b ∈ (mb.m_bases bi.first.patch).boundary bi.first,
      peerTensorIndex dim bi.dirMap bi.dirOrientation bi.second.direction bi.second.parameter
          ((mb.m_bases bi.second.patch).hier.levelComponentSize
            ((mb.m_bases bi.first.patch).hier.levelOf b))
          ((mb.m_bases bi.first.patch).hier.tensorIndex
            ((mb.m_bases bi.first.patch).hier.levelOf b)
            ((mb.m_bases bi.first.patch).hier.flatTensorIndexOf b)) tens1Start
        = peerTensorSpec dim bi.dirMap bi.dirOrientation bi.second.direction
            bi.second.parameter
            ((mb.m_bases bi.second.patch).hier.levelComponentSize
              ((mb.m_bases bi.first.patch).hier.levelOf b))
            ((mb.m_bases bi.first.patch).hier.tensorIndex
              ((mb.m_bases bi.first.patch).hier.levelOf b)
              ((mb.m_bases bi.first.patch).hier.flatTensorIndexOf b)) :=
    fun b hb => peerTensorIndex_eq_spec dim bi.dirMap bi.dirOrientation bi.first.direction
      bi.second.direction bi.second.parameter _ _ hdir1 hmap hrange hinj (hN b hb) (ht0 b hb)
  have hval : ∀ b ∈ (mb.m_bases bi.first.patch).boundary bi.first, ∀ j, j < dim →
      peerTensorSpec dim bi.dirMap bi.dirOrientation bi.second.direction
          bi.second.parameter
          ((mb.m_bases bi.second.patch).hier.levelComponentSize
            ((mb.m_bases bi.first.patch).hier.levelOf b))
          ((mb.m_bases bi.first.patch).hier.tensorIndex
            ((mb.m_bases bi.first.patch).hier.levelOf b)
            ((mb.m_bases bi.first.patch).hier.flatTensorIndexOf b)) (bi.dirMap j)
        = peerValue bi.dirMap bi.dirOrientation bi.second.direction bi.second.parameter
            ((mb.m_bases bi.second.patch).hier.levelComponentSize
              ((mb.m_bases bi.first.patch).hier.levelOf b))
            ((mb.m_bases bi.first.patch).hier.tensorIndex
              ((mb.m_bases bi.first.patch).hier.levelOf b)
              ((mb.m_bases bi.first.patch).hier.flatTensorIndexOf b)) j := by
    intro b hb j hj
    rw [← hspec b hb]
    exact peerTensorIndex_at dim bi.dirMap bi.dirOrientation bi.second.direction
      bi.second.parameter _ _ tens1Start hinj j hj
  refine ⟨?_, ?_, ?_⟩
  · unfold gsMultiBasis.matchInterfaceHTensor
    rw [forLoop_getD_eq_foldl _
      (fun m b => matchDof m bi.first.patch b bi.second.patch (peerDof dim mb bi b)) mapper]
    apply List.foldl_ext
    intro m b hb
    unfold peerDof
    simp only [hspec b hb]
  · intro b hb
    have spec := peerValue_spec dim bi.dirMap bi.dirOrientation bi.first.direction
      bi.second.direction bi.second.parameter _ _ hdir1 hmap hrange hinj (hN b hb) (ht0 b hb)
    refine ⟨hspec b hb, ?_, ?_, ?_, ?_⟩
    · intro _
      have h := ht0 b hb bi.first.direction hdir1
      rw [hmap] at h
      omega
    · intro j hj hne
      have hjd : j ≠ bi.first.direction := by
        intro h
        exact hne (h ▸ hmap)
      have h2 := ht0 b hb j hj
      refine ⟨by omega, ?_⟩
      rw [hval b hb j hj, (spec j hj).1, if_neg hjd]
    · have h := hval b hb bi.first.direction hdir1
      rw [(spec bi.first.direction hdir1).1, if_pos rfl, hmap] at h
      exact h
    · intro jj hjj
      obtain ⟨j, hj, rfl⟩ := dirMap_surj dim bi.dirMap hrange hinj jj hjj
      rw [hval b hb j hj]
      exact (spec j hj).2
  · intro b hb b' hb' hL hface ⟨j, hj, hne⟩
    have spec := peerValue_spec dim bi.dirMap bi.dirOrientation bi.first.direction
      bi.second.direction bi.second.parameter _ _ hdir1 hmap hrange hinj (hN b hb) (ht0 b hb)
    have spec' := peerValue_spec dim bi.dirMap bi.dirOrientation bi.first.direction
      bi.second.direction bi.second.parameter _ _ hdir1 hmap hrange hinj (hN b' hb')
      (ht0 b' hb')
    have hjd : j ≠ bi.first.direction := by
      intro h
      exact hne (h ▸ hface)
    refine ⟨bi.dirMap j, hrange j hj, ?_⟩
    rw [hval b hb j hj, hval b' hb' j hj, (spec j hj).1, (spec' j hj).1, if_neg hjd,
      if_neg hjd]
    have h1 := ht0 b hb j hj
    have h2 := ht0 b' hb' j hj
    rw [hL] at h1 hne ⊢
    by_cases ho : bi.dirOrientation j = true
    · rw [if_pos ho, if_pos ho]
      exact hne
    · rw [if_neg ho, if_neg ho]
      omega

/-- Witness of C7: two hierarchical patches with one level of 4 x 4
functions, the east side of the first matched with the west side of the
second, the orientation of the directions reversed. The boundary functions
3, 7, 11, 15 of the tensor indices (3, 0), (3, 1), (3, 2), (3, 3) are matched
with the functions 12, 8, 4, 0 of the tensor indices (0, 3), (0, 2), (0, 1),
(0, 0). -/
theorem matchInterfaceHTensor_peer_witness :
    exHierMultiBasis.matchInterfaceHTensor 2 recordMatchDof exInterfaceFlip []
      = [(0, 3, 1, 12), (0, 7, 1, 8), (0, 11, 1, 4), (0, 15, 1, 0)] ∧
    exHierMultiBasis.matchInterfaceHTensor 2 recordMatchDof exInterfaceFlip []
      = ((exHierMultiBasis.m_bases exInterfaceFlip.first.patch).boundary
          exInterfaceFlip.first).foldl
          (fun m b => recordMatchDof m exInterfaceFlip.first.patch b
            exInterfaceFlip.second.patch
            ((exHierMultiBasis.m_bases exInterfaceFlip.second.patch).hier.flatTensorIndexToHierachicalIndex
              ((exHierMultiBasis.m_bases exInterfaceFlip.second.patch).hier.levelIndex
                ((exHierMultiBasis.m_bases exInterfaceFlip.first.patch).hier.levelOf b)
                (peerTensorSpec 2 exInterfaceFlip.dirMap exInterfaceFlip.dirOrientation
                  exInterfaceFlip.second.direction exInterfaceFlip.second.parameter
                  ((exHierMultiBasis.m_bases exInterfaceFlip.second.patch).hier.levelComponentSize
                    ((exHierMultiBasis.m_bases exInterfaceFlip.first.patch).hier.levelOf b))
                  ((exHierMultiBasis.m_bases exInterfaceFlip.first.patch).hier.tensorIndex
                    ((exHierMultiBasis.m_bases exInterfaceFlip.first.patch).hier.levelOf b)
                    ((exHierMultiBasis.m_bases exInterfaceFlip.first.patch).hier.flatTensorIndexOf
                      b))))
              ((exHierMultiBasis.m_bases exInterfaceFlip.first.patch).hier.levelOf b)))
          [] :=
  ⟨by decide,
   (matchInterfaceHTensor_peer 2 exHierMultiBasis recordMatchDof exInterfaceFlip []
      (by decide) (by decide) (by decide) (by decide) (by decide) (by decide)).1⟩

end Peer

end gismo
